import Mathlib

/-!
# Queued 2D paint device (webkit/glue/plugins/pepper_device_context_2d.cc)

A shallow embedding of the Pepper 2D device context: the rectangle validation
helper, the three enqueue operations, the flush state machine and the
host-paint checkpoints, followed by the properties proved about them.

Machine integers are mathematical integers together with explicit wrap-around
functions; `int` is 32 bits wide and `int64` is 64 bits wide.
-/

namespace pepper

/-! ## Machine integers -/

/-- Range of a 32-bit signed integer (`int`, `int32_t`). -/
def isInt32 (z : Int) : Prop := -2147483648 ≤ z ∧ z ≤ 2147483647

instance (z : Int) : Decidable (isInt32 z) :=
  inferInstanceAs (Decidable (-2147483648 ≤ z ∧ z ≤ 2147483647))

/-- Result of a 32-bit signed computation whose exact value is `z`. -/
def wrap32 (z : Int) : Int := (z + 2147483648) % 4294967296 - 2147483648

/-- Result of a 64-bit signed computation whose exact value is `z`. -/
def wrap64 (z : Int) : Int :=
  (z + 9223372036854775808) % 18446744073709551616 - 9223372036854775808

/-- The C++ expression `static_cast<int64>(a) + static_cast<int64>(b)`. -/
def add64 (a b : Int) : Int := wrap64 (a + b)

/-- The C++ expression `a + b` on `int`. -/
def add32 (a b : Int) : Int := wrap32 (a + b)

/-- The C++ expression `a - b` on `int`. -/
def sub32 (a b : Int) : Int := wrap32 (a - b)

/-- The C++ expression `-a` on `int`. -/
def neg32 (a : Int) : Int := wrap32 (-a)

/-! ## Plain data of the plugin interface -/

/-- The struct `PP_Point` of pp_point.h. -/
structure PP_Point where
  x : Int
  y : Int
deriving DecidableEq, Repr

/-- The struct `PP_Size` of pp_size.h. -/
structure PP_Size where
  width : Int
  height : Int
deriving DecidableEq, Repr

/-- The struct `PP_Rect` of pp_rect.h: an origin and a size. -/
structure PP_Rect where
  point : PP_Point
  size : PP_Size
deriving DecidableEq, Repr

/-- All four fields of a `PP_Rect` are 32-bit signed integers. -/
def PP_Rect.isInt32 (r : PP_Rect) : Prop :=
  pepper.isInt32 r.point.x ∧ pepper.isInt32 r.point.y ∧
  pepper.isInt32 r.size.width ∧ pepper.isInt32 r.size.height

/-- Modelled from the spec: `gfx::Rect` (gfx/rect.h is not among the sources),
a rectangle given by its origin and its size, kept as the four integers it was
constructed from. -/
structure Rect where
  x : Int
  y : Int
  width : Int
  height : Int
deriving DecidableEq, Repr

namespace Rect

/-- The default constructor `gfx::Rect()`. -/
def empty : Rect := ⟨0, 0, 0, 0⟩

/-- Modelled from the spec: `gfx::Rect::right()`, the `int` sum `x + width`. -/
def right (r : Rect) : Int := add32 r.x r.width

/-- Modelled from the spec: `gfx::Rect::bottom()`, the `int` sum `y + height`. -/
def bottom (r : Rect) : Int := add32 r.y r.height

/-- Modelled from the spec: `gfx::Rect::IsEmpty()`, no pixel is covered. -/
def IsEmpty (r : Rect) : Bool := decide (r.width ≤ 0) || decide (r.height ≤ 0)

/-- Modelled from the spec: `gfx::Rect::Offset(dx, dy)`, translation of the
origin in `int` arithmetic. -/
def Offset (r : Rect) (dx dy : Int) : Rect :=
  { r with x := add32 r.x dx, y := add32 r.y dy }

/-- Modelled from the spec: `gfx::Rect::Union`, the smallest rectangle holding
both, an empty operand being ignored. -/
def Union (r o : Rect) : Rect :=
  if r.IsEmpty then o
  else if o.IsEmpty then r
  else
    let rx := min r.x o.x
    let ry := min r.y o.y
    let rr := max r.right o.right
    let rb := max r.bottom o.bottom
    ⟨rx, ry, sub32 rr rx, sub32 rb ry⟩

/-- Modelled from the spec: `gfx::Rect::Intersect`, the common part of both,
the empty rectangle at the origin when they do not meet. -/
def Intersect (r o : Rect) : Rect :=
  let rx := max r.x o.x
  let ry := max r.y o.y
  let rr := min r.right o.right
  let rb := min r.bottom o.bottom
  if rx ≥ rr ∨ ry ≥ rb then ⟨0, 0, 0, 0⟩
  else ⟨rx, ry, sub32 rr rx, sub32 rb ry⟩

end Rect

/-! ## `ValidateAndConvertRect` -/

/-- The helper `ValidateAndConvertRect`. The pointer argument `rect` is an
`Option` (`none` is NULL), the out-parameter `dest` is passed in and returned
next to the boolean result; it is left as it was when the function fails. -/
def ValidateAndConvertRect (rect : Option PP_Rect) (image_width image_height : Int)
    (dest : Rect) : Bool × Rect :=
  match rect with
  | none =>
    -- Use the entire image area.
    (true, ⟨0, 0, image_width, image_height⟩)
  | some rect =>
    -- Validate the passed-in area.
    if rect.point.x < 0 ∨ rect.point.y < 0 ∨
        rect.size.width ≤ 0 ∨ rect.size.height ≤ 0 then
      (false, dest)
    -- Check the max bounds, being careful of overflow.
    else if add64 rect.point.x rect.size.width > image_width then
      (false, dest)
    else if add64 rect.point.y rect.size.height > image_height then
      (false, dest)
    else
      (true, ⟨rect.point.x, rect.point.y, rect.size.width, rect.size.height⟩)

/-! ## Images, callbacks and queued operations -/

/-- A resource handle `PP_Resource` (a 64-bit integer naming a live object). -/
abbrev PP_Resource := Int

/-- A pointer to a `PluginInstance`, the host a device can be bound to. -/
abbrev PluginInstance := Nat

/-- The C enum `PP_ImageDataFormat`, kept as its underlying integer. -/
abbrev PP_ImageDataFormat := Int

/-- The only format the backing store is ever created with. -/
def PP_IMAGEDATAFORMAT_BGRA_PREMUL : PP_ImageDataFormat := 0

/-- Modelled from the spec: the result codes of pp_errors.h (the header is not
among the sources); distinct 32-bit values, zero for success. -/
def PP_OK : Int := 0

/-- Modelled from the spec: the pending result of an accepted flush. -/
def PP_Error_WouldBlock : Int := -1

/-- Modelled from the spec: the code for a missing completion callback. -/
def PP_Error_BadArgument : Int := -4

/-- Modelled from the spec: the code for a handle that names no device. -/
def PP_Error_BadResource : Int := -5

/-- Modelled from the spec: the code for a flush requested while one is
pending. -/
def PP_Error_InProgress : Int := -11

/-- Modelled from the spec: the image buffer `ImageData` (pepper_image_data.h
is not among the sources): a pixel format, a width and a height, whether its
memory can be mapped, and the pixel at each column and row. -/
structure ImageData where
  format : PP_ImageDataFormat
  width : Int
  height : Int
  mappable : Bool
  pixels : Int → Int → Nat

/-- The struct `PP_CompletionCallback`: a function pointer (`none` is NULL)
and the user data handed back to it. -/
structure PP_CompletionCallback where
  func : Option Nat
  user_data : Nat
deriving DecidableEq, Repr

/-- Modelled from the spec: the class `FlushCallbackData` of the header, which
is not among the sources: it wraps one completion callback and has an empty
state that is told apart from holding a callback. -/
structure FlushCallbackData where
  callback_ : PP_CompletionCallback
deriving DecidableEq, Repr

namespace FlushCallbackData

/-- The state after `Clear()`, also the default constructor. -/
def cleared : FlushCallbackData := ⟨⟨none, 0⟩⟩

/-- The test `is_null()`: no function is held. -/
def is_null (c : FlushCallbackData) : Bool := c.callback_.func.isNone

end FlushCallbackData

/-- The enum `QueuedOperation::Type`. -/
inductive QueuedOperation.Type where
  | PAINT
  | SCROLL
  | REPLACE
deriving DecidableEq, Repr

/-- The struct `DeviceContext2D::QueuedOperation` with all its members; an
image pointer is the handle of the image it points to, `none` for NULL. -/
structure QueuedOperation where
  type : QueuedOperation.Type
  paint_image : Option PP_Resource
  paint_x : Int
  paint_y : Int
  paint_src_rect : Rect
  scroll_clip_rect : Rect
  scroll_dx : Int
  scroll_dy : Int
  replace_image : Option PP_Resource
deriving DecidableEq, Repr

/-- The constructor `QueuedOperation(Type t)`. -/
def QueuedOperation.mk0 (t : QueuedOperation.Type) : QueuedOperation :=
  { type := t, paint_image := none, paint_x := 0, paint_y := 0,
    paint_src_rect := Rect.empty, scroll_clip_rect := Rect.empty,
    scroll_dx := 0, scroll_dy := 0, replace_image := none }

/-! ## The device and its surroundings -/

/-- The members of the class `DeviceContext2D`. -/
structure DeviceContext2D where
  image_data_ : ImageData
  bound_instance_ : Option PluginInstance
  queued_operations_ : List QueuedOperation
  flushed_any_data_ : Bool
  offscreen_flush_pending_ : Bool
  unpainted_flush_callback_ : FlushCallbackData
  painted_flush_callback_ : FlushCallbackData

/-- One invocation of a completion callback, as the plugin sees it: the
callback, the result code and the value of `HasPendingFlush()` at that
moment. -/
structure CallbackRun where
  callback : PP_CompletionCallback
  result : Int
  pending_at_call : Bool
deriving DecidableEq, Repr

/-- The three `DCHECK` assertions of the file, named by where they stand. -/
inductive DCheck where
  | initiated_paint_painted_is_null
  | schedule_no_pending_flush
  | execute_offscreen_pending
deriving DecidableEq, Repr

/-- The device together with what it reads and what it acts upon: the live
image resources (`Resource::GetAs<ImageData>`), the visible clip of each host,
the `InvalidateRect` requests received by hosts, the tasks posted to the
message loop, the callback invocations and the assertions found false, the
last four in order of occurrence. -/
structure World where
  device : DeviceContext2D
  images : PP_Resource → Option ImageData
  clip : PluginInstance → Rect
  invalidated : List (PluginInstance × Rect)
  posted_tasks : List FlushCallbackData
  callbacks_run : List CallbackRun
  failed_dchecks : List DCheck

/-- The constructor `DeviceContext2D(module)` followed by a successful
`Init`: the backing store is given, nothing is bound, queued or pending. -/
def DeviceContext2D.fresh (backing : ImageData) : DeviceContext2D :=
  { image_data_ := backing, bound_instance_ := none, queued_operations_ := [],
    flushed_any_data_ := false, offscreen_flush_pending_ := false,
    unpainted_flush_callback_ := FlushCallbackData.cleared,
    painted_flush_callback_ := FlushCallbackData.cleared }

/-- The method `HasPendingFlush`. -/
def HasPendingFlush (d : DeviceContext2D) : Bool :=
  !d.unpainted_flush_callback_.is_null ||
  !d.painted_flush_callback_.is_null ||
  d.offscreen_flush_pending_

/-- The call `queued_operations_.push_back(operation)`. -/
def World.push_back (w : World) (operation : QueuedOperation) : World :=
  { w with device :=
      { w.device with
        queued_operations_ := w.device.queued_operations_ ++ [operation] } }

/-! ## Enqueue operations -/

/-- The method `DeviceContext2D::PaintImageData`. -/
def PaintImageData (w : World) (image : PP_Resource) (x y : Int)
    (src_rect : Option PP_Rect) : Bool × World :=
  match w.images image with
  | none => (false, w)
  | some image_resource =>
    let operation : QueuedOperation :=
      { QueuedOperation.mk0 .PAINT with paint_image := some image }
    let v := ValidateAndConvertRect src_rect image_resource.width
      image_resource.height operation.paint_src_rect
    if !v.1 then (false, w)
    else
      let operation := { operation with paint_src_rect := v.2 }
      -- Validate the bitmap position using the previously-validated rect.
      if add64 x operation.paint_src_rect.x < 0 ∨
          add64 x operation.paint_src_rect.right > w.device.image_data_.width then
        (false, w)
      else if add64 y operation.paint_src_rect.y < 0 ∨
          add64 y operation.paint_src_rect.bottom > w.device.image_data_.height then
        (false, w)
      else
        let operation := { operation with paint_x := x, paint_y := y }
        (true, w.push_back operation)

/-- The method `DeviceContext2D::Scroll`. -/
def Scroll (w : World) (clip_rect : Option PP_Rect) (dx dy : Int) : Bool × World :=
  let operation := QueuedOperation.mk0 .SCROLL
  let v := ValidateAndConvertRect clip_rect w.device.image_data_.width
    w.device.image_data_.height operation.scroll_clip_rect
  if !v.1 then (false, w)
  else
    let operation := { operation with scroll_clip_rect := v.2 }
    -- If we are being asked to scroll by more than the clip rect size, just
    -- ignore this scroll command and say it worked.
    if dx ≤ neg32 w.device.image_data_.width ∨ dx ≥ w.device.image_data_.width ∨
        dx ≤ neg32 w.device.image_data_.height ∨ dy ≥ w.device.image_data_.height then
      (true, w)
    else
      let operation := { operation with scroll_dx := dx, scroll_dy := dy }
      (false, w.push_back operation)

/-- The method `DeviceContext2D::ReplaceContents`. -/
def ReplaceContents (w : World) (image : PP_Resource) : Bool × World :=
  match w.images image with
  | none => (false, w)
  | some image_resource =>
    if image_resource.format ≠ PP_IMAGEDATAFORMAT_BGRA_PREMUL then (false, w)
    else if image_resource.width ≠ w.device.image_data_.width ∨
        image_resource.height ≠ w.device.image_data_.height then (false, w)
    else
      let operation : QueuedOperation :=
        { QueuedOperation.mk0 .REPLACE with replace_image := some image }
      (true, w.push_back operation)

/-! ## Executing queued operations -/

/-- The four edges of a Skia rectangle (`SkIRect`, and `SkRect` with integral
edges). -/
structure SkIRect where
  left : Int
  top : Int
  right : Int
  bottom : Int
deriving DecidableEq, Repr

/-- Modelled from the spec: `SkCanvas::drawBitmapRect` in source-replaces-
destination mode (Skia is not among the sources), for the only use made of it,
a destination rectangle of the size of the source rectangle: every canvas
pixel inside the destination rectangle takes the value of the bitmap pixel at
the same offset inside the source rectangle, every other pixel is kept. -/
def drawBitmapRect (canvas bitmap : ImageData) (src dst : SkIRect) : ImageData :=
  { canvas with
    pixels := fun px py =>
      if dst.left ≤ px ∧ px < dst.right ∧ dst.top ≤ py ∧ py < dst.bottom ∧
          src.left + (px - dst.left) < src.right ∧
          src.top + (py - dst.top) < src.bottom ∧
          0 ≤ px ∧ px < canvas.width ∧ 0 ≤ py ∧ py < canvas.height then
        bitmap.pixels (src.left + (px - dst.left)) (src.top + (py - dst.top))
      else canvas.pixels px py }

/-- The method `DeviceContext2D::ExecutePaintImageData`, on the backing store
and the image pointed to; returns the backing store and `*invalidated_rect`. -/
def ExecutePaintImageData (backing image : ImageData) (x y : Int) (src_rect : Rect)
    (invalidated_rect : Rect) : ImageData × Rect :=
  -- Ensure the source image is mapped to read from it.
  if !image.mappable then (backing, invalidated_rect)
  else
    let src_irect : SkIRect :=
      ⟨src_rect.x, src_rect.y, src_rect.right, src_rect.bottom⟩
    let invalidated_rect := src_rect.Offset x y
    let dest_rect : SkIRect :=
      ⟨invalidated_rect.x, invalidated_rect.y, invalidated_rect.right,
        invalidated_rect.bottom⟩
    (drawBitmapRect backing image src_irect dest_rect, invalidated_rect)

/-- The method `DeviceContext2D::ExecuteScroll`, whose body is empty. -/
def ExecuteScroll (backing : ImageData) (_clip : Rect) (_dx _dy : Int)
    (invalidated_rect : Rect) : ImageData × Rect :=
  (backing, invalidated_rect)

/-- Modelled from the spec: `ImageData::Swap`, the in-place exchange of the
contents of two image buffers; returns the new receiver and the new
argument. -/
def ImageData.Swap (self other : ImageData) : ImageData × ImageData :=
  (other, self)

/-- The method `DeviceContext2D::ExecuteReplaceContents`; returns the backing
store, the image after the swap and `*invalidated_rect`. -/
def ExecuteReplaceContents (backing image : ImageData) :
    ImageData × ImageData × Rect :=
  let s := ImageData.Swap backing image
  (s.1, s.2, ⟨0, 0, s.1.width, s.1.height⟩)

/-- What the loop of `Flush` carries along: the backing store, the image
resources and `changed_rect`. -/
structure FlushProgress where
  backing : ImageData
  images : PP_Resource → Option ImageData
  changed_rect : Rect

/-- The assignment of the image behind one handle. -/
def setImage (images : PP_Resource → Option ImageData) (r : PP_Resource)
    (v : ImageData) : PP_Resource → Option ImageData :=
  fun k => if k = r then some v else images k

/-- One turn of the loop of `Flush`: the switch on the type of the operation
followed by the union into `changed_rect`. An image pointer that is NULL or
names no image leaves everything as it is. -/
def ExecuteOperation (p : FlushProgress) (operation : QueuedOperation) :
    FlushProgress :=
  let op_rect := Rect.empty
  match operation.type with
  | .PAINT =>
    match operation.paint_image.bind p.images with
    | none => { p with changed_rect := p.changed_rect.Union op_rect }
    | some image =>
      let r := ExecutePaintImageData p.backing image operation.paint_x
        operation.paint_y operation.paint_src_rect op_rect
      { p with backing := r.1, changed_rect := p.changed_rect.Union r.2 }
  | .SCROLL =>
    let r := ExecuteScroll p.backing operation.scroll_clip_rect
      operation.scroll_dx operation.scroll_dy op_rect
    { p with backing := r.1, changed_rect := p.changed_rect.Union r.2 }
  | .REPLACE =>
    match operation.replace_image with
    | none => { p with changed_rect := p.changed_rect.Union op_rect }
    | some h =>
      match p.images h with
      | none => { p with changed_rect := p.changed_rect.Union op_rect }
      | some image =>
        let r := ExecuteReplaceContents p.backing image
        { backing := r.1, images := setImage p.images h r.2.1,
          changed_rect := p.changed_rect.Union r.2.2 }

/-- The loop of `Flush` over the queued operations, first to last. -/
def FlushLoop : List QueuedOperation → FlushProgress → FlushProgress
  | [], p => p
  | operation :: rest, p => FlushLoop rest (ExecuteOperation p operation)

/-! ## Flush and the delivery of its callback -/

/-- The method `FlushCallbackData::Execute`: the callback is invoked with the
result, which the plugin observes together with `HasPendingFlush()`. -/
def Execute (w : World) (data : FlushCallbackData) (result : Int) : World :=
  { w with callbacks_run := w.callbacks_run ++
      [⟨data.callback_, result, HasPendingFlush w.device⟩] }

/-- The macro `DCHECK(condition)`: a false condition is recorded. -/
def World.dcheck (w : World) (condition : Bool) (site : DCheck) : World :=
  if condition then w else { w with failed_dchecks := w.failed_dchecks ++ [site] }

/-- The method `DeviceContext2D::ScheduleOffscreenCallback`. -/
def ScheduleOffscreenCallback (w : World) (callback : FlushCallbackData) : World :=
  let w := w.dcheck (!HasPendingFlush w.device) .schedule_no_pending_flush
  { w with
    device := { w.device with offscreen_flush_pending_ := true },
    posted_tasks := w.posted_tasks ++ [callback] }

/-- The method `DeviceContext2D::ExecuteOffscreenCallback`. -/
def ExecuteOffscreenCallback (w : World) (data : FlushCallbackData) : World :=
  let w := w.dcheck w.device.offscreen_flush_pending_ .execute_offscreen_pending
  -- We must clear this flag before issuing the callback.
  let w := { w with device := { w.device with offscreen_flush_pending_ := false } }
  Execute w data PP_OK

/-- The message loop runs the task posted first, if there is one. -/
def RunPostedTask (w : World) : World :=
  match w.posted_tasks with
  | [] => w
  | data :: rest => ExecuteOffscreenCallback { w with posted_tasks := rest } data

/-- The call `bound_instance_->InvalidateRect(rect)`, received by the host. -/
def World.InvalidateRect (w : World) (instance_ : PluginInstance) (rect : Rect) :
    World :=
  { w with invalidated := w.invalidated ++ [(instance_, rect)] }

/-- The method `DeviceContext2D::Flush`. -/
def Flush (w : World) (callback : PP_CompletionCallback) : Int × World :=
  -- Do not allow more than one pending flush at a time.
  if HasPendingFlush w.device then (PP_Error_InProgress, w)
  else if callback.func.isNone then (PP_Error_BadArgument, w)
  else
    let p := FlushLoop w.device.queued_operations_
      ⟨w.device.image_data_, w.images, Rect.empty⟩
    let changed_rect := p.changed_rect
    let w : World :=
      { w with
        device := { w.device with image_data_ := p.backing,
                                  queued_operations_ := [],
                                  flushed_any_data_ := true },
        images := p.images }
    match w.device.bound_instance_ with
    | none => (PP_Error_WouldBlock, ScheduleOffscreenCallback w ⟨callback⟩)
    | some bound =>
      let visible_changed_rect :=
        if !changed_rect.IsEmpty then (w.clip bound).Intersect changed_rect
        else Rect.empty
      if !visible_changed_rect.IsEmpty then
        let w := { w with device :=
          { w.device with unpainted_flush_callback_ := ⟨callback⟩ } }
        (PP_Error_WouldBlock, w.InvalidateRect bound visible_changed_rect)
      else
        -- There is nothing visible to invalidate so just schedule the callback
        -- to execute in the next round of the message loop.
        (PP_Error_WouldBlock, ScheduleOffscreenCallback w ⟨callback⟩)

/-- The method `DeviceContext2D::ReadImageData`. -/
def ReadImageData (w : World) (image : PP_Resource) (x y : Int) : Bool × World :=
  match w.images image with
  | none => (false, w)
  | some image_resource =>
    if image_resource.format ≠ PP_IMAGEDATAFORMAT_BGRA_PREMUL then (false, w)
    -- Validate the bitmap position.
    else if x < 0 ∨ add64 x image_resource.width > w.device.image_data_.width then
      (false, w)
    else if y < 0 ∨ add64 y image_resource.height > w.device.image_data_.height then
      (false, w)
    else if !image_resource.mappable then (false, w)
    else
      let src_irect : SkIRect :=
        ⟨x, y, add32 x image_resource.width, add32 y image_resource.height⟩
      let dest_rect : SkIRect := ⟨0, 0, image_resource.width, image_resource.height⟩
      let drawn := drawBitmapRect image_resource w.device.image_data_ src_irect dest_rect
      (true, { w with images := setImage w.images image drawn })

/-! ## Host binding and paint checkpoints -/

/-- The method `DeviceContext2D::BindToInstance`; `none` is the NULL host. -/
def BindToInstance (w : World) (new_instance : Option PluginInstance) : Bool × World :=
  if w.device.bound_instance_ = new_instance then (true, w)
  else if w.device.bound_instance_.isSome ∧ new_instance.isSome then (false, w)
  else
    let w : World :=
      match new_instance with
      | none =>
        -- When the device is detached we still want to issue any pending
        -- callbacks to the plugin.
        let w :=
          if !w.device.unpainted_flush_callback_.is_null then
            let w := ScheduleOffscreenCallback w w.device.unpainted_flush_callback_
            { w with device :=
              { w.device with unpainted_flush_callback_ := FlushCallbackData.cleared } }
          else w
        if !w.device.painted_flush_callback_.is_null then
          let w := ScheduleOffscreenCallback w w.device.painted_flush_callback_
          { w with device :=
            { w.device with painted_flush_callback_ := FlushCallbackData.cleared } }
        else w
      | some new_host =>
        if w.device.flushed_any_data_ then w.InvalidateRect new_host Rect.empty
        else w
    (true, { w with device := { w.device with bound_instance_ := new_instance } })

/-- The method `DeviceContext2D::ViewInitiatedPaint`. -/
def ViewInitiatedPaint (w : World) : World :=
  if !w.device.unpainted_flush_callback_.is_null then
    let w := w.dcheck w.device.painted_flush_callback_.is_null
      .initiated_paint_painted_is_null
    { w with device :=
      { w.device with
        painted_flush_callback_ := w.device.unpainted_flush_callback_,
        unpainted_flush_callback_ := w.device.painted_flush_callback_ } }
  else w

/-- The method `DeviceContext2D::ViewFlushedPaint`. -/
def ViewFlushedPaint (w : World) : World :=
  if !w.device.painted_flush_callback_.is_null then
    -- We must clear this variable before issuing the callback.
    let callback := w.device.painted_flush_callback_
    let w := { w with device :=
      { w.device with painted_flush_callback_ := FlushCallbackData.cleared } }
    Execute w callback PP_OK
  else w

/-! ## Sequences of operations -/

/-- What can happen to a device: a call of one of its public methods by the
plugin or by the host, or the message loop running the posted task. -/
inductive Operation where
  | paint (image : PP_Resource) (x y : Int) (src_rect : Option PP_Rect)
  | scroll (clip_rect : Option PP_Rect) (dx dy : Int)
  | replace (image : PP_Resource)
  | flush (callback : PP_CompletionCallback)
  | read (image : PP_Resource) (x y : Int)
  | bind (new_instance : Option PluginInstance)
  | viewInitiatedPaint
  | viewFlushedPaint
  | runPostedTask

/-- The state after one operation. -/
def World.apply (w : World) : Operation → World
  | .paint image x y src_rect => (PaintImageData w image x y src_rect).2
  | .scroll clip_rect dx dy => (Scroll w clip_rect dx dy).2
  | .replace image => (ReplaceContents w image).2
  | .flush callback => (Flush w callback).2
  | .read image x y => (ReadImageData w image x y).2
  | .bind new_instance => (BindToInstance w new_instance).2
  | .viewInitiatedPaint => ViewInitiatedPaint w
  | .viewFlushedPaint => ViewFlushedPaint w
  | .runPostedTask => RunPostedTask w

/-- The state after a sequence of operations, first to last. -/
def World.run (w : World) : List Operation → World
  | [] => w
  | op :: rest => (w.apply op).run rest

/-- The world right after the constructor `DeviceContext2D(module)` and a
successful `Init`: a fresh device over the given backing store, next to the
given image resources and host clips; nothing has been requested, posted or
invoked yet. -/
def World.initial (backing : ImageData) (images : PP_Resource → Option ImageData)
    (clip : PluginInstance → Rect) : World :=
  { device := DeviceContext2D.fresh backing, images := images, clip := clip,
    invalidated := [], posted_tasks := [], callbacks_run := [],
    failed_dchecks := [] }

/-- Whether the operation delivers a flush callback in this state: the posted
task runs, or `ViewFlushedPaint` finds a callback in the painted slot. -/
def World.delivers (w : World) : Operation → Bool
  | .runPostedTask => !w.posted_tasks.isEmpty
  | .viewFlushedPaint => !w.device.painted_flush_callback_.is_null
  | _ => false

/-- No operation of the sequence, started in this state, delivers a flush
callback. -/
def World.noDelivery (w : World) : List Operation → Prop
  | [] => True
  | op :: rest => w.delivers op = false ∧ (w.apply op).noDelivery rest

/-- The number of the three conditions that hold: the unpainted slot is
occupied, the painted slot is occupied, the offscreen flag is set. -/
def pendingCount (d : DeviceContext2D) : Nat :=
  (if d.unpainted_flush_callback_.is_null then 0 else 1) +
  (if d.painted_flush_callback_.is_null then 0 else 1) +
  (if d.offscreen_flush_pending_ then 1 else 0)

instance World.decNoDelivery : (w : World) → (ops : List Operation) →
    Decidable (w.noDelivery ops)
  | _, [] => isTrue trivial
  | w, _ :: rest => @instDecidableAnd _ _ _ (World.decNoDelivery (w.apply _) rest)

/-- The bookkeeping of the pending flush is consistent: at most one of the
three conditions holds, and the number of posted tasks is one when the
offscreen flag is set and zero when it is clear. -/
def World.pendingInvariant (w : World) : Prop :=
  pendingCount w.device ≤ 1 ∧
  w.posted_tasks.length = if w.device.offscreen_flush_pending_ then 1 else 0

/-- The rectangle `changed_rect` that `Flush` accumulates over the queue of
this state. -/
def World.changedRect (w : World) : Rect :=
  (FlushLoop w.device.queued_operations_
    ⟨w.device.image_data_, w.images, Rect.empty⟩).changed_rect

/-- The state in the middle of an accepted `Flush`, after the loop and the two
assignments that follow it: the queued operations have been executed, the
queue is empty and the flushed-any-data flag is set. -/
def World.afterFlushLoop (w : World) : World :=
  { w with
    device :=
      { w.device with
        image_data_ := (FlushLoop w.device.queued_operations_
          ⟨w.device.image_data_, w.images, Rect.empty⟩).backing,
        queued_operations_ := [],
        flushed_any_data_ := true },
    images := (FlushLoop w.device.queued_operations_
      ⟨w.device.image_data_, w.images, Rect.empty⟩).images }

/-- The rectangle `visible_changed_rect` that `Flush` computes for a bound
host. -/
def World.visibleChangedRect (w : World) (bound : PluginInstance) : Rect :=
  if !w.changedRect.IsEmpty then (w.clip bound).Intersect w.changedRect
  else Rect.empty

/-- The arithmetic facts about a queued Paint operation with offset (x, y) and
source rectangle `s` that `PaintImageData` has checked against a backing store
of size `W` x `H`: the edges of the source rectangle are 32-bit sums and its
placement lies within the backing store. -/
def paintFits (W H x y : Int) (s : Rect) : Prop :=
  isInt32 W ∧ isInt32 H ∧ 0 ≤ s.width ∧ 0 ≤ s.height ∧
  isInt32 (s.x + s.width) ∧ isInt32 (s.y + s.height) ∧
  0 ≤ x + s.x ∧ x + s.x + s.width ≤ W ∧
  0 ≤ y + s.y ∧ y + s.y + s.height ≤ H

instance (W H x y : Int) (s : Rect) : Decidable (paintFits W H x y s) :=
  inferInstanceAs (Decidable (isInt32 W ∧ isInt32 H ∧ 0 ≤ s.width ∧ 0 ≤ s.height ∧
    isInt32 (s.x + s.width) ∧ isInt32 (s.y + s.height) ∧
    0 ≤ x + s.x ∧ x + s.x + s.width ≤ W ∧
    0 ≤ y + s.y ∧ y + s.y + s.height ≤ H))

/-! ## Creation and inspection -/

/-- Modelled from the spec: `ImageData::Init` followed by `ImageData::Map`
(pepper_image_data.cc is not among the sources). The buffer validates its
dimensions, by a test that is a parameter here, and then is a mapped buffer of
the requested format and size whose pixels are 0. -/
def ImageData.Init (valid : Int → Int → Bool) (format : PP_ImageDataFormat)
    (width height : Int) (_init_to_zero : Bool) : Option ImageData :=
  if valid width height then some ⟨format, width, height, true, fun _ _ => 0⟩
  else none

/-- The constructor `DeviceContext2D(module)` followed by the method
`DeviceContext2D::Init`; `none` is the result false. -/
def DeviceContext2D.Init (valid : Int → Int → Bool) (width height : Int)
    ( _is_always_opaque : Bool) : Option DeviceContext2D :=
  -- The underlying ImageData will validate the dimensions.
  match ImageData.Init valid PP_IMAGEDATAFORMAT_BGRA_PREMUL width height true with
  | none => none
  | some image_data => some (DeviceContext2D.fresh image_data)

/-- The method `DeviceContext2D::Describe`: the result and the three values
written through the pointers `width`, `height` and `is_always_opaque`. -/
def Describe (d : DeviceContext2D) : Bool × Int × Int × Bool :=
  (true, d.image_data_.width, d.image_data_.height, false)

/-! ## The callbacks of accepted flushes -/

/-- The callback of the operation if it is a Flush call that is accepted
(returns the would-block code) in this state. -/
def World.acceptedBy (w : World) : Operation → List PP_CompletionCallback
  | .flush callback =>
    if (Flush w callback).1 = PP_Error_WouldBlock then [callback] else []
  | _ => []

/-- The callbacks of the Flush calls of the sequence that are accepted, in
order, the sequence being started in this state. -/
def World.acceptedCallbacks (w : World) : List Operation → List PP_CompletionCallback
  | [] => []
  | op :: rest => w.acceptedBy op ++ (w.apply op).acceptedCallbacks rest

/-- The callbacks currently held: in the unpainted slot, in the painted slot
and in the posted tasks. -/
def World.heldCallbacks (w : World) : List PP_CompletionCallback :=
  (if w.device.unpainted_flush_callback_.is_null then []
    else [w.device.unpainted_flush_callback_.callback_]) ++
  (if w.device.painted_flush_callback_.is_null then []
    else [w.device.painted_flush_callback_.callback_]) ++
  w.posted_tasks.map (fun data => data.callback_)

/-- The callbacks invoked so far, in order of invocation. -/
def World.invokedCallbacks (w : World) : List PP_CompletionCallback :=
  w.callbacks_run.map (fun r => r.callback)

/-- Modelled from the spec: the area a host repaints for the request
`InvalidateRect(rect)` (`PluginInstance::InvalidateRect` is not among the
sources). Binding a flushed device "triggers an immediate whole-buffer-changed
invalidate", which the device requests with the empty rectangle `gfx::Rect()`:
an empty rectangle asks for the whole area, any other for itself. -/
def requestedArea (whole rect : Rect) : Rect :=
  if rect.IsEmpty then whole else rect

/-- The state with another queue. -/
def World.withQueue (w : World) (q : List QueuedOperation) : World :=
  { w with device := { w.device with queued_operations_ := q } }

/-- Whether the operation is one of the three enqueue calls. -/
def Operation.isEnqueue : Operation → Bool
  | .paint _ _ _ _ => true
  | .scroll _ _ _ => true
  | .replace _ => true
  | _ => false

/-! ## The interface functions -/

/-- The live 2D device contexts: what `Resource::GetAs<DeviceContext2D>` finds
behind a handle, each device with the world around it; `none` is the null
pointer returned for a handle that names no device. -/
abbrev DeviceTable := PP_Resource → Option World

/-- The table after the device behind a handle has moved to a new state. -/
def DeviceTable.update (t : DeviceTable) (handle : PP_Resource) (w : World) :
    DeviceTable :=
  fun k => if k = handle then some w else t k

namespace ppb_devicecontext2d

/-- The interface function `Describe`; the three out-parameters are passed in
and returned after the result. -/
def Describe (t : DeviceTable) (device_context : PP_Resource) (width height : Int)
    ( is_always_opaque : Bool) : Bool × Int × Int × Bool :=
  match t device_context with
  | none => (false, width, height, is_always_opaque)
  | some context => pepper.Describe context.device

/-- The interface function `PaintImageData`. -/
def PaintImageData (t : DeviceTable) (device_context : PP_Resource)
    (image : PP_Resource) (x y : Int) (src_rect : Option PP_Rect) :
    Bool × DeviceTable :=
  match t device_context with
  | none => (false, t)
  | some context =>
    ((pepper.PaintImageData context image x y src_rect).1,
      t.update device_context (pepper.PaintImageData context image x y src_rect).2)

/-- The interface function `Scroll`. -/
def Scroll (t : DeviceTable) (device_context : PP_Resource)
    (clip_rect : Option PP_Rect) (dx dy : Int) : Bool × DeviceTable :=
  match t device_context with
  | none => (false, t)
  | some context =>
    ((pepper.Scroll context clip_rect dx dy).1,
      t.update device_context (pepper.Scroll context clip_rect dx dy).2)

/-- The interface function `ReplaceContents`. -/
def ReplaceContents (t : DeviceTable) (device_context : PP_Resource)
    (image : PP_Resource) : Bool × DeviceTable :=
  match t device_context with
  | none => (false, t)
  | some context =>
    ((pepper.ReplaceContents context image).1,
      t.update device_context (pepper.ReplaceContents context image).2)

/-- The interface function `Flush`. -/
def Flush (t : DeviceTable) (device_context : PP_Resource)
    (callback : PP_CompletionCallback) : Int × DeviceTable :=
  match t device_context with
  | none => (PP_Error_BadResource, t)
  | some context =>
    ((pepper.Flush context callback).1,
      t.update device_context (pepper.Flush context callback).2)

end ppb_devicecontext2d

/-! ## Well-formed queues -/

/-- The format, the width and the height of an image buffer. -/
def ImageData.shape (img : ImageData) : PP_ImageDataFormat × Int × Int :=
  (img.format, img.width, img.height)

/-- The shapes of the live images, by handle. -/
def shapesOf (images : PP_Resource → Option ImageData) :
    PP_Resource → Option (PP_ImageDataFormat × Int × Int) :=
  fun handle => (images handle).map ImageData.shape

/-- The rectangle lies inside [0, W] x [0, H]. -/
def Rect.within (r : Rect) (W H : Int) : Prop :=
  0 ≤ r.x ∧ 0 ≤ r.y ∧ 0 ≤ r.width ∧ 0 ≤ r.height ∧
  r.x + r.width ≤ W ∧ r.y + r.height ≤ H

/-- The rectangle `r` lies inside the rectangle `o`, edges over the
integers. -/
def Rect.inside (r o : Rect) : Prop :=
  o.x ≤ r.x ∧ o.y ≤ r.y ∧
  r.x + r.width ≤ o.x + o.width ∧ r.y + r.height ≤ o.y + o.height

/-- The rectangle has 32-bit origin and 32-bit right and bottom edges. -/
def Rect.edgesInt32 (r : Rect) : Prop :=
  isInt32 r.x ∧ isInt32 r.y ∧ isInt32 (r.x + r.width) ∧ isInt32 (r.y + r.height)

/-- A queued operation is well-formed for a backing store of size W x H and
the given format, the shapes of the live images being given: a Paint has a
source rectangle of positive size inside its source image and a destination
rectangle inside [0, W] x [0, H], a Scroll has a clip rectangle inside
[0, W] x [0, H], a Replace names a live image of size W x H in the format. -/
def QueuedOperation.wellFormed (W H : Int) (format : PP_ImageDataFormat)
    (shapes : PP_Resource → Option (PP_ImageDataFormat × Int × Int))
    (op : QueuedOperation) : Prop :=
  match op.type with
  | .PAINT =>
    ∃ handle sh, op.paint_image = some handle ∧ shapes handle = some sh ∧
      0 < op.paint_src_rect.width ∧ 0 < op.paint_src_rect.height ∧
      0 ≤ op.paint_src_rect.x ∧ 0 ≤ op.paint_src_rect.y ∧
      op.paint_src_rect.x + op.paint_src_rect.width ≤ sh.2.1 ∧
      op.paint_src_rect.y + op.paint_src_rect.height ≤ sh.2.2 ∧
      0 ≤ op.paint_x + op.paint_src_rect.x ∧
      0 ≤ op.paint_y + op.paint_src_rect.y ∧
      op.paint_x + op.paint_src_rect.x + op.paint_src_rect.width ≤ W ∧
      op.paint_y + op.paint_src_rect.y + op.paint_src_rect.height ≤ H
  | .SCROLL => op.scroll_clip_rect.within W H
  | .REPLACE =>
    ∃ handle, op.replace_image = some handle ∧ shapes handle = some (format, W, H)

/-- Every live image has positive 32-bit dimensions. -/
def goodImages (images : PP_Resource → Option ImageData) : Prop :=
  ∀ handle img, images handle = some img →
    0 < img.width ∧ 0 < img.height ∧ isInt32 img.width ∧ isInt32 img.height

/-- The backing store is BGRA premultiplied with positive 32-bit
dimensions. -/
def goodBacking (backing : ImageData) : Prop :=
  backing.format = PP_IMAGEDATAFORMAT_BGRA_PREMUL ∧
  0 < backing.width ∧ 0 < backing.height ∧
  isInt32 backing.width ∧ isInt32 backing.height

/-- The invariant of the queue: a good backing store, good images and every
queued operation well-formed. -/
def World.queueInvariant (w : World) : Prop :=
  goodBacking w.device.image_data_ ∧ goodImages w.images ∧
  ∀ op ∈ w.device.queued_operations_,
    op.wellFormed w.device.image_data_.width w.device.image_data_.height
      PP_IMAGEDATAFORMAT_BGRA_PREMUL (shapesOf w.images)

/-- An optional rectangle argument has 32-bit fields. -/
def optRectInt32 : Option PP_Rect → Prop
  | none => True
  | some r => r.isInt32

/-- The integer arguments of the operation are 32-bit, as their C++ types
say. -/
def Operation.wellTyped : Operation → Prop
  | .paint _ x y src_rect => isInt32 x ∧ isInt32 y ∧ optRectInt32 src_rect
  | .scroll clip_rect dx dy => isInt32 dx ∧ isInt32 dy ∧ optRectInt32 clip_rect
  | .read _ x y => isInt32 x ∧ isInt32 y
  | _ => True

/-! ## Sample values -/

/-- A mappable BGRA image of the given size, all of whose pixels are 0. -/
def sampleImage (width height : Int) : ImageData :=
  ⟨PP_IMAGEDATAFORMAT_BGRA_PREMUL, width, height, true, fun _ _ => 0⟩

/-- A freshly created device with a `width` x `height` backing store, next to
two live images: handle 1 is a 2 x 2 image and handle 2 is a 5 x 4 image. No
host has a visible clip, nothing has happened yet. -/
def sampleWorld (width height : Int) : World :=
  { device := DeviceContext2D.fresh (sampleImage width height),
    images := fun r =>
      if r = 1 then some (sampleImage 2 2)
      else if r = 2 then some (sampleImage 5 4)
      else none,
    clip := fun _ => Rect.empty,
    invalidated := [], posted_tasks := [], callbacks_run := [],
    failed_dchecks := [] }

/-- The Paint operation queued by `PaintImageData(image, x, y, ...)` once the
source rectangle has been validated to `s`. -/
def paintOperation (image : PP_Resource) (x y : Int) (s : Rect) : QueuedOperation :=
  { type := .PAINT, paint_image := some image, paint_x := x, paint_y := y,
    paint_src_rect := s, scroll_clip_rect := Rect.empty, scroll_dx := 0,
    scroll_dy := 0, replace_image := none }

/-- The Scroll operation queued by `Scroll(..., dx, dy)` once the clip
rectangle has been validated to `c`. -/
def scrollOperation (c : Rect) (dx dy : Int) : QueuedOperation :=
  { type := .SCROLL, paint_image := none, paint_x := 0, paint_y := 0,
    paint_src_rect := Rect.empty, scroll_clip_rect := c, scroll_dx := dx,
    scroll_dy := dy, replace_image := none }

/-- The Replace operation queued by `ReplaceContents(image)`. -/
def replaceOperation (image : PP_Resource) : QueuedOperation :=
  { type := .REPLACE, paint_image := none, paint_x := 0, paint_y := 0,
    paint_src_rect := Rect.empty, scroll_clip_rect := Rect.empty, scroll_dx := 0,
    scroll_dy := 0, replace_image := some image }

/-- A sample validation of dimensions: both are positive. -/
def positiveSize (width height : Int) : Bool :=
  decide (0 < width) && decide (0 < height)

/-- A mappable BGRA image of the given size whose pixel in column `i` and
row `j` is `10 * j + i + 1`. -/
def patternImage (width height : Int) : ImageData :=
  ⟨PP_IMAGEDATAFORMAT_BGRA_PREMUL, width, height, true,
    fun i j => (10 * j + i + 1).toNat⟩

/-- A fresh 4 x 4 device whose backing store is all 0, next to two live
images: handle 1 is the 2 x 2 pattern image and handle 4 is a 2 x 2 BGRA image
whose memory cannot be mapped. -/
def unmappableWorld : World :=
  World.initial (sampleImage 4 4)
    (fun r =>
      if r = 1 then some (patternImage 2 2)
      else if r = 4 then some ⟨PP_IMAGEDATAFORMAT_BGRA_PREMUL, 2, 2, false, fun _ _ => 0⟩
      else none)
    (fun _ => ⟨0, 0, 4, 4⟩)

/-- A fresh 4 x 4 device whose backing store is all 0, next to three live
images: handle 1 is the 2 x 2 pattern image, handle 2 is a 2 x 2 image all of
whose pixels are 0, handle 3 is the 4 x 4 pattern image. Every host shows the
rectangle (0, 0, 4, 4). -/
def patternWorld : World :=
  World.initial (sampleImage 4 4)
    (fun r =>
      if r = 1 then some (patternImage 2 2)
      else if r = 2 then some (sampleImage 2 2)
      else if r = 3 then some (patternImage 4 4)
      else none)
    (fun _ => ⟨0, 0, 4, 4⟩)

/-! ## Lemmas on machine integers -/

theorem wrap64_of_small (z : Int) (h1 : -9223372036854775808 ≤ z)
    (h2 : z ≤ 9223372036854775807) : wrap64 z = z := by
  unfold wrap64; omega

theorem wrap32_of_isInt32 (z : Int) (h : isInt32 z) : wrap32 z = z := by
  unfold isInt32 at h; unfold wrap32; omega

theorem isInt32_wrap32 (z : Int) : isInt32 (wrap32 z) := by
  unfold isInt32 wrap32; omega

theorem add64_of_isInt32 (a b : Int) (ha : isInt32 a) (hb : isInt32 b) :
    add64 a b = a + b := by
  unfold isInt32 at ha hb
  unfold add64
  apply wrap64_of_small <;> omega

/-! ## Properties of `ValidateAndConvertRect` -/

/-- C1: for a present rectangle with 32-bit fields and 32-bit bounds the
validation succeeds exactly when the origin is non-negative, the size is
positive and the right and bottom edges, summed over the integers, stay within
the bounds; on success the output rectangle has the fields of the input. -/
theorem C1_validate_present_iff (r : PP_Rect) (W H : Int) (dest : Rect)
    (hr : r.isInt32) (_hW : isInt32 W) (_hH : isInt32 H) :
    ((ValidateAndConvertRect (some r) W H dest).1 = true ↔
      (0 ≤ r.point.x ∧ 0 ≤ r.point.y ∧ 0 < r.size.width ∧ 0 < r.size.height ∧
        r.point.x + r.size.width ≤ W ∧ r.point.y + r.size.height ≤ H)) ∧
    ((ValidateAndConvertRect (some r) W H dest).1 = true →
      (ValidateAndConvertRect (some r) W H dest).2 =
        ⟨r.point.x, r.point.y, r.size.width, r.size.height⟩) := by
  obtain ⟨hx, hy, hw, hh⟩ := hr
  have ex := add64_of_isInt32 _ _ hx hw
  have ey := add64_of_isInt32 _ _ hy hh
  unfold ValidateAndConvertRect
  simp only [ex, ey]
  split_ifs with h1 h2 h3
  · simp; omega
  · simp; omega
  · simp; omega
  · simp; omega

/-- Witness for C1: the rectangle (1, 1, 2, 2) inside a 4 x 4 image. -/
theorem C1_validate_present_iff_witness :
    (PP_Rect.isInt32 ⟨⟨1, 1⟩, ⟨2, 2⟩⟩ ∧ isInt32 4 ∧ isInt32 4) ∧
    (((ValidateAndConvertRect (some ⟨⟨1, 1⟩, ⟨2, 2⟩⟩) 4 4 Rect.empty).1 = true ↔
      ((0 : Int) ≤ 1 ∧ (0 : Int) ≤ 1 ∧ (0 : Int) < 2 ∧ (0 : Int) < 2 ∧
        (1 : Int) + 2 ≤ 4 ∧ (1 : Int) + 2 ≤ 4)) ∧
    ((ValidateAndConvertRect (some ⟨⟨1, 1⟩, ⟨2, 2⟩⟩) 4 4 Rect.empty).1 = true →
      (ValidateAndConvertRect (some ⟨⟨1, 1⟩, ⟨2, 2⟩⟩) 4 4 Rect.empty).2 =
        ⟨1, 1, 2, 2⟩)) :=
  ⟨by unfold PP_Rect.isInt32; decide,
   C1_validate_present_iff ⟨⟨1, 1⟩, ⟨2, 2⟩⟩ 4 4 Rect.empty
    (by unfold PP_Rect.isInt32; decide) (by decide) (by decide)⟩

/-- C2: with an absent (NULL) rectangle the validation succeeds for every pair
of bounds and outputs the full bounding rectangle (0, 0, W, H). -/
theorem C2_validate_absent (W H : Int) (dest : Rect) :
    ValidateAndConvertRect none W H dest = (true, ⟨0, 0, W, H⟩) := by
  rfl

/-- A validated rectangle has 32-bit edges and its right and bottom edges are
the exact sums of origin and size. -/
theorem validate_edges (src_rect : Option PP_Rect) (W H : Int) (dest : Rect)
    (hsrc : ∀ r, src_rect = some r → r.isInt32) (hW : isInt32 W) (hH : isInt32 H)
    (hv : (ValidateAndConvertRect src_rect W H dest).1 = true) :
    isInt32 (ValidateAndConvertRect src_rect W H dest).2.x ∧
    isInt32 (ValidateAndConvertRect src_rect W H dest).2.y ∧
    (ValidateAndConvertRect src_rect W H dest).2.right =
      (ValidateAndConvertRect src_rect W H dest).2.x +
      (ValidateAndConvertRect src_rect W H dest).2.width ∧
    (ValidateAndConvertRect src_rect W H dest).2.bottom =
      (ValidateAndConvertRect src_rect W H dest).2.y +
      (ValidateAndConvertRect src_rect W H dest).2.height ∧
    isInt32 (ValidateAndConvertRect src_rect W H dest).2.right ∧
    isInt32 (ValidateAndConvertRect src_rect W H dest).2.bottom := by
  cases src_rect with
  | none =>
    simp only [ValidateAndConvertRect, Rect.right, Rect.bottom, add32]
    unfold isInt32 at *
    unfold wrap32
    omega
  | some r =>
    obtain ⟨hx, hy, hw, hh⟩ := hsrc r rfl
    have ex := add64_of_isInt32 _ _ hx hw
    have ey := add64_of_isInt32 _ _ hy hh
    revert hv
    unfold ValidateAndConvertRect
    simp only [ex, ey]
    split_ifs with h1 h2 h3
    · simp
    · simp
    · simp
    · intro _
      simp only [Rect.right, Rect.bottom, add32]
      unfold isInt32 at *
      unfold wrap32
      omega

/-! ## Properties of the enqueue operations -/

/-- C3: for a live source image of size w x h, 32-bit offsets and an optional
32-bit source rectangle, PaintImageData returns true exactly when the source
rectangle validates against (w, h) to a rectangle s whose placement at (x, y)
stays inside the W x H backing store, the sums being taken over the integers;
when it returns true the queue is the old queue followed by the single Paint
operation (image, x, y, s). -/
theorem C3_paint_accepts_iff (w : World) (image : PP_Resource) (img : ImageData)
    (x y : Int) (src_rect : Option PP_Rect)
    (himg : w.images image = some img)
    (hx : isInt32 x) (hy : isInt32 y)
    (hsrc : ∀ r, src_rect = some r → r.isInt32)
    (hw : isInt32 img.width) (hh : isInt32 img.height) :
    ((PaintImageData w image x y src_rect).1 = true ↔
      ∃ s, ValidateAndConvertRect src_rect img.width img.height Rect.empty = (true, s) ∧
        0 ≤ x + s.x ∧ x + (s.x + s.width) ≤ w.device.image_data_.width ∧
        0 ≤ y + s.y ∧ y + (s.y + s.height) ≤ w.device.image_data_.height) ∧
    ((PaintImageData w image x y src_rect).1 = true →
      ∃ s, ValidateAndConvertRect src_rect img.width img.height Rect.empty = (true, s) ∧
        (PaintImageData w image x y src_rect).2.device.queued_operations_ =
          w.device.queued_operations_ ++ [paintOperation image x y s]) := by
  unfold PaintImageData
  simp only [himg, QueuedOperation.mk0]
  by_cases hv : (ValidateAndConvertRect src_rect img.width img.height Rect.empty).1 = true
  · obtain ⟨sx, sy, er, eb, sr, sb⟩ := validate_edges src_rect _ _ Rect.empty hsrc hw hh hv
    have e1 := add64_of_isInt32 _ _ hx sx
    have e2 := add64_of_isInt32 _ _ hx sr
    have e3 := add64_of_isInt32 _ _ hy sy
    have e4 := add64_of_isInt32 _ _ hy sb
    rw [er] at e2
    rw [eb] at e4
    simp only [e1, e2, e3, e4, er, eb]
    clear e1 e2 e3 e4 er eb sx sy sr sb
    generalize ValidateAndConvertRect src_rect img.width img.height Rect.empty = v at hv ⊢
    obtain ⟨b, s⟩ := v
    simp only at hv
    subst hv
    simp only [Bool.not_true, Bool.false_eq_true, if_false, Prod.mk.injEq, true_and,
      exists_eq_left']
    by_cases h2 : x + s.x < 0 ∨ x + (s.x + s.width) > w.device.image_data_.width
    · simp only [h2, if_true, Bool.false_eq_true, false_iff, false_imp_iff, and_true]
      omega
    · by_cases h3 : y + s.y < 0 ∨ y + (s.y + s.height) > w.device.image_data_.height
      · simp only [h2, h3, if_true, if_false, Bool.false_eq_true, false_iff, false_imp_iff,
          and_true]
        omega
      · simp only [h2, h3, if_false, true_iff, true_imp_iff]
        refine ⟨by omega, ?_⟩
        simp [World.push_back, paintOperation, Rect.empty]
  · have hf : (ValidateAndConvertRect src_rect img.width img.height Rect.empty).1 = false := by
      simpa using hv
    simp only [hf]
    constructor
    · constructor
      · intro h; simp at h
      · rintro ⟨s, hs, _⟩
        rw [hs] at hf
        simp at hf
    · intro h; simp at h

/-- Witness for C3: the whole 2 x 2 image behind handle 1 painted at (0, 0)
on a fresh 4 x 4 device. -/
theorem C3_paint_accepts_iff_witness :
    (isInt32 0 ∧ isInt32 (sampleImage 2 2).width ∧ isInt32 (sampleImage 2 2).height) ∧
    (((PaintImageData (sampleWorld 4 4) 1 0 0 none).1 = true ↔
      ∃ s, ValidateAndConvertRect none (sampleImage 2 2).width (sampleImage 2 2).height
          Rect.empty = (true, s) ∧
        0 ≤ 0 + s.x ∧ 0 + (s.x + s.width) ≤ (sampleWorld 4 4).device.image_data_.width ∧
        0 ≤ 0 + s.y ∧ 0 + (s.y + s.height) ≤ (sampleWorld 4 4).device.image_data_.height) ∧
    ((PaintImageData (sampleWorld 4 4) 1 0 0 none).1 = true →
      ∃ s, ValidateAndConvertRect none (sampleImage 2 2).width (sampleImage 2 2).height
          Rect.empty = (true, s) ∧
        (PaintImageData (sampleWorld 4 4) 1 0 0 none).2.device.queued_operations_ =
          (sampleWorld 4 4).device.queued_operations_ ++ [paintOperation 1 0 0 s])) :=
  ⟨by decide,
   C3_paint_accepts_iff (sampleWorld 4 4) 1 (sampleImage 2 2) 0 0 none rfl
    (by decide) (by decide) (fun _ h => nomatch h) (by decide) (by decide)⟩

/-- C4: PaintImageData and ReplaceContents each either return true with the
queue extended by exactly one operation at its tail, or return false with the
queue as it was before the call. -/
theorem C4_paint_replace_all_or_nothing (w : World) (image : PP_Resource) (x y : Int)
    (src_rect : Option PP_Rect) (new_image : PP_Resource) :
    (((PaintImageData w image x y src_rect).1 = true ∧
        ∃ op, (PaintImageData w image x y src_rect).2.device.queued_operations_ =
          w.device.queued_operations_ ++ [op]) ∨
      ((PaintImageData w image x y src_rect).1 = false ∧
        (PaintImageData w image x y src_rect).2.device.queued_operations_ =
          w.device.queued_operations_)) ∧
    (((ReplaceContents w new_image).1 = true ∧
        ∃ op, (ReplaceContents w new_image).2.device.queued_operations_ =
          w.device.queued_operations_ ++ [op]) ∨
      ((ReplaceContents w new_image).1 = false ∧
        (ReplaceContents w new_image).2.device.queued_operations_ =
          w.device.queued_operations_)) := by
  constructor
  · unfold PaintImageData
    split
    · simp
    · dsimp only
      split_ifs <;> simp [World.push_back]
  · unfold ReplaceContents
    split
    · simp
    · dsimp only
      split_ifs <;> simp [World.push_back]

/-- C5 (the code at the failing input): on a fresh 4 x 4 device, Scroll with
no clip rectangle and (dx, dy) = (1, 1) returns false although it has appended
a Scroll operation to the queue. -/
theorem C5_scroll_rejects_yet_enqueues :
    (Scroll (sampleWorld 4 4) none 1 1).1 = false ∧
    (Scroll (sampleWorld 4 4) none 1 1).2.device.queued_operations_ =
      (sampleWorld 4 4).device.queued_operations_ ++
        [scrollOperation ⟨0, 0, 4, 4⟩ 1 1] ∧
    (Scroll (sampleWorld 4 4) none 1 1).2.device.queued_operations_ ≠
      (sampleWorld 4 4).device.queued_operations_ := by
  decide

/-- C6: for a live image and a BGRA backing store, ReplaceContents returns
true exactly when the image has the format, the width and the height of the
backing store; when it returns true the single Replace operation referencing
the image is appended, when it returns false the queue length is unchanged. -/
theorem C6_replace_accepts_iff (w : World) (image : PP_Resource) (img : ImageData)
    (himg : w.images image = some img)
    (hfmt : w.device.image_data_.format = PP_IMAGEDATAFORMAT_BGRA_PREMUL) :
    ((ReplaceContents w image).1 = true ↔
      (img.format = w.device.image_data_.format ∧
        img.width = w.device.image_data_.width ∧
        img.height = w.device.image_data_.height)) ∧
    ((ReplaceContents w image).1 = true →
      (ReplaceContents w image).2.device.queued_operations_ =
        w.device.queued_operations_ ++ [replaceOperation image]) ∧
    ((ReplaceContents w image).1 = false →
      (ReplaceContents w image).2.device.queued_operations_.length =
        w.device.queued_operations_.length) := by
  unfold ReplaceContents
  simp only [himg, hfmt]
  split_ifs with h1 h2
  · simp [h1]
  · simp only [Bool.false_eq_true, false_iff, false_imp_iff, true_and, and_true]
    refine ⟨?_, fun _ => trivial⟩
    rintro ⟨_, hw, hh⟩
    rcases h2 with h2 | h2
    · exact h2 hw
    · exact h2 hh
  · have h1 : img.format = PP_IMAGEDATAFORMAT_BGRA_PREMUL := by simpa using h1
    have h2 : img.width = w.device.image_data_.width ∧
        img.height = w.device.image_data_.height := by
      constructor <;> by_contra hc <;> simp [hc] at h2
    simp [h1, h2.1, h2.2, World.push_back, replaceOperation, QueuedOperation.mk0]

/-- Witness for C6: the 5 x 4 image behind handle 2 offered to a fresh 4 x 4
device. -/
theorem C6_replace_accepts_iff_witness :
    ((ReplaceContents (sampleWorld 4 4) 2).1 = true ↔
      ((sampleImage 5 4).format = (sampleWorld 4 4).device.image_data_.format ∧
        (sampleImage 5 4).width = (sampleWorld 4 4).device.image_data_.width ∧
        (sampleImage 5 4).height = (sampleWorld 4 4).device.image_data_.height)) ∧
    ((ReplaceContents (sampleWorld 4 4) 2).1 = true →
      (ReplaceContents (sampleWorld 4 4) 2).2.device.queued_operations_ =
        (sampleWorld 4 4).device.queued_operations_ ++ [replaceOperation 2]) ∧
    ((ReplaceContents (sampleWorld 4 4) 2).1 = false →
      (ReplaceContents (sampleWorld 4 4) 2).2.device.queued_operations_.length =
        (sampleWorld 4 4).device.queued_operations_.length) :=
  C6_replace_accepts_iff (sampleWorld 4 4) 2 (sampleImage 5 4) rfl rfl

/-- C7 (the code at the failing input): on a fresh 4 x 4 device, Scroll with
no clip rectangle, dx = 0 and dy = -4, a vertical shift of the full height, is
not skipped: it returns false and appends a Scroll operation. -/
theorem C7_scroll_full_height_up_not_skipped :
    ((-4 : Int) ≤ -(sampleWorld 4 4).device.image_data_.height) ∧
    (Scroll (sampleWorld 4 4) none 0 (-4)).1 = false ∧
    (Scroll (sampleWorld 4 4) none 0 (-4)).2.device.queued_operations_ =
      (sampleWorld 4 4).device.queued_operations_ ++
        [scrollOperation ⟨0, 0, 4, 4⟩ 0 (-4)] := by
  decide

/-- C8 (the code at the failing input): on a fresh device 4 wide and 2 high,
Scroll with no clip rectangle, dx = -2 and dy = 0 lies strictly inside both
ranges, yet it returns true and appends nothing. -/
theorem C8_scroll_in_range_skipped :
    (-(sampleWorld 4 2).device.image_data_.width < (-2 : Int) ∧
      (-2 : Int) < (sampleWorld 4 2).device.image_data_.width ∧
      -(sampleWorld 4 2).device.image_data_.height < (0 : Int) ∧
      (0 : Int) < (sampleWorld 4 2).device.image_data_.height) ∧
    (Scroll (sampleWorld 4 2) none (-2) 0).1 = true ∧
    (Scroll (sampleWorld 4 2) none (-2) 0).2.device.queued_operations_ =
      (sampleWorld 4 2).device.queued_operations_ := by
  decide

/-- C9: a Scroll call that appends an operation returns false, a Scroll call
that returns true has appended nothing, and a Scroll call that returns false
without appending is one whose clip rectangle fails validation against the
backing store. -/
theorem C9_scroll_return_convention (w : World) (clip_rect : Option PP_Rect)
    (dx dy : Int) :
    ((∃ op, (Scroll w clip_rect dx dy).2.device.queued_operations_ =
        w.device.queued_operations_ ++ [op]) →
      (Scroll w clip_rect dx dy).1 = false) ∧
    ((Scroll w clip_rect dx dy).1 = true →
      (Scroll w clip_rect dx dy).2.device.queued_operations_ =
        w.device.queued_operations_) ∧
    (((Scroll w clip_rect dx dy).1 = false ∧
        (Scroll w clip_rect dx dy).2.device.queued_operations_ =
          w.device.queued_operations_) →
      (ValidateAndConvertRect clip_rect w.device.image_data_.width
        w.device.image_data_.height Rect.empty).1 = false) := by
  unfold Scroll
  simp only [QueuedOperation.mk0]
  split_ifs with h1 h2
  · simp at h1
    simp [h1]
  · simp
  · simp [World.push_back]

/-! ## Properties of Flush -/

/-- C10: while a flush is pending, Flush returns the in-progress code for
every callback argument and changes nothing: the device (queue, backing store,
flags, bound host, both callback slots), the image resources, the invalidate
requests received by hosts, the posted tasks and the callback invocations are
what they were. -/
theorem C10_flush_while_pending (w : World) (callback : PP_CompletionCallback)
    (hpending : HasPendingFlush w.device = true) :
    Flush w callback = (PP_Error_InProgress, w) := by
  unfold Flush
  simp [hpending]

/-- Witness for C10: a second Flush, with an empty callback, right after a
first Flush accepted by a fresh 4 x 4 device. -/
theorem C10_flush_while_pending_witness :
    HasPendingFlush (Flush (sampleWorld 4 4) ⟨some 7, 0⟩).2.device = true ∧
    Flush (Flush (sampleWorld 4 4) ⟨some 7, 0⟩).2 ⟨none, 0⟩ =
      (PP_Error_InProgress, (Flush (sampleWorld 4 4) ⟨some 7, 0⟩).2) :=
  ⟨by decide, C10_flush_while_pending _ _ (by decide)⟩

/-- What `ScheduleOffscreenCallback` does to the device, the posted tasks and
everything apart from the assertion log. -/
theorem schedule_fields (w : World) (c : FlushCallbackData) :
    (ScheduleOffscreenCallback w c).device =
      { w.device with offscreen_flush_pending_ := true } ∧
    (ScheduleOffscreenCallback w c).posted_tasks = w.posted_tasks ++ [c] ∧
    (ScheduleOffscreenCallback w c).invalidated = w.invalidated ∧
    (ScheduleOffscreenCallback w c).callbacks_run = w.callbacks_run ∧
    (ScheduleOffscreenCallback w c).images = w.images ∧
    (ScheduleOffscreenCallback w c).clip = w.clip := by
  unfold ScheduleOffscreenCallback World.dcheck
  dsimp only
  split_ifs <;> simp

/-- An idle device has both callback slots empty and the offscreen flag
clear. -/
theorem idle_fields (d : DeviceContext2D) (hidle : HasPendingFlush d = false) :
    d.unpainted_flush_callback_.is_null = true ∧
    d.painted_flush_callback_.is_null = true ∧
    d.offscreen_flush_pending_ = false := by
  unfold HasPendingFlush at hidle
  simpa [and_assoc] using hidle

/-- Flush with an empty callback on an idle device changes nothing. -/
theorem flush_bad_argument_world (w : World) (callback : PP_CompletionCallback)
    (hidle : HasPendingFlush w.device = false) (hnull : callback.func = none) :
    (Flush w callback).2 = w := by
  unfold Flush
  simp [hidle, hnull]

/-- Flush with an empty callback on an idle device returns the bad-argument
code. -/
theorem flush_bad_argument_code (w : World) (callback : PP_CompletionCallback)
    (hidle : HasPendingFlush w.device = false) (hnull : callback.func = none) :
    (Flush w callback).1 = PP_Error_BadArgument := by
  unfold Flush
  simp [hidle, hnull]

/-- C11: with no flush pending, Flush called with an empty callback returns
the bad-argument code, which differs from the in-progress, would-block and
bad-resource codes, and changes nothing: the queue, the backing store, the
flags, the callback slots and everything around the device are what they
were. -/
theorem C11_flush_empty_callback (w : World) (callback : PP_CompletionCallback)
    (hidle : HasPendingFlush w.device = false) (hnull : callback.func = none) :
    Flush w callback = (PP_Error_BadArgument, w) ∧
    PP_Error_BadArgument ≠ PP_Error_InProgress ∧
    PP_Error_BadArgument ≠ PP_Error_WouldBlock ∧
    PP_Error_BadArgument ≠ PP_Error_BadResource := by
  refine ⟨?_, by decide, by decide, by decide⟩
  unfold Flush
  simp [hidle, hnull]

/-- Witness for C11: an empty callback on a fresh 4 x 4 device holding one
queued Paint operation. -/
theorem C11_flush_empty_callback_witness :
    HasPendingFlush (PaintImageData (sampleWorld 4 4) 1 0 0 none).2.device = false ∧
    (Flush (PaintImageData (sampleWorld 4 4) 1 0 0 none).2 ⟨none, 0⟩ =
      (PP_Error_BadArgument, (PaintImageData (sampleWorld 4 4) 1 0 0 none).2) ∧
    PP_Error_BadArgument ≠ PP_Error_InProgress ∧
    PP_Error_BadArgument ≠ PP_Error_WouldBlock ∧
    PP_Error_BadArgument ≠ PP_Error_BadResource) :=
  ⟨by decide, C11_flush_empty_callback _ ⟨none, 0⟩ (by decide) rfl⟩

/-- An accepted Flush, spelled out: the would-block code, and either the
callback parked in the unpainted slot with one invalidate request, or the
callback scheduled off-cycle. -/
theorem flush_accepted (w : World) (callback : PP_CompletionCallback)
    (hidle : HasPendingFlush w.device = false) (hcb : callback.func ≠ none) :
    Flush w callback = (PP_Error_WouldBlock,
      match w.device.bound_instance_ with
      | none => ScheduleOffscreenCallback w.afterFlushLoop ⟨callback⟩
      | some bound =>
        if !(w.visibleChangedRect bound).IsEmpty then
          World.InvalidateRect
            { w.afterFlushLoop with device :=
              { w.afterFlushLoop.device with unpainted_flush_callback_ := ⟨callback⟩ } }
            bound (w.visibleChangedRect bound)
        else ScheduleOffscreenCallback w.afterFlushLoop ⟨callback⟩) := by
  unfold Flush World.afterFlushLoop World.visibleChangedRect World.changedRect
  simp only [hidle, Bool.false_eq_true, if_false, Option.isNone_iff_eq_none, hcb]
  cases w.device.bound_instance_ with
  | none => rfl
  | some bound =>
    dsimp only
    split_ifs <;> rfl

/-- An accepted Flush returns the would-block code. -/
theorem flush_accepted_code (w : World) (callback : PP_CompletionCallback)
    (hidle : HasPendingFlush w.device = false) (hcb : callback.func ≠ none) :
    (Flush w callback).1 = PP_Error_WouldBlock := by
  rw [flush_accepted w callback hidle hcb]

/-- C12: with no flush pending and a non-empty callback, Flush returns the
would-block code, which is not the success code, whatever the queue and the
host binding are; afterwards the queue is empty and the flushed-any-data flag
is true. -/
theorem C12_flush_accepted (w : World) (callback : PP_CompletionCallback)
    (hidle : HasPendingFlush w.device = false) (hcb : callback.func ≠ none) :
    (Flush w callback).1 = PP_Error_WouldBlock ∧
    PP_Error_WouldBlock ≠ PP_OK ∧
    (Flush w callback).2.device.queued_operations_ = [] ∧
    (Flush w callback).2.device.flushed_any_data_ = true := by
  rw [flush_accepted w callback hidle hcb]
  refine ⟨rfl, by decide, ?_⟩
  cases w.device.bound_instance_ with
  | none => simp [(schedule_fields _ _).1, World.afterFlushLoop]
  | some bound =>
    dsimp only
    split_ifs
    · simp [World.InvalidateRect, World.afterFlushLoop]
    · simp [(schedule_fields _ _).1, World.afterFlushLoop]

/-- Witness for C12: a Flush with a callback on a fresh 4 x 4 device holding
one queued Paint operation. -/
theorem C12_flush_accepted_witness :
    HasPendingFlush (PaintImageData (sampleWorld 4 4) 1 0 0 none).2.device = false ∧
    ((Flush (PaintImageData (sampleWorld 4 4) 1 0 0 none).2 ⟨some 7, 0⟩).1 =
      PP_Error_WouldBlock ∧
    PP_Error_WouldBlock ≠ PP_OK ∧
    (Flush (PaintImageData (sampleWorld 4 4) 1 0 0 none).2
      ⟨some 7, 0⟩).2.device.queued_operations_ = [] ∧
    (Flush (PaintImageData (sampleWorld 4 4) 1 0 0 none).2
      ⟨some 7, 0⟩).2.device.flushed_any_data_ = true) :=
  ⟨by decide, C12_flush_accepted _ ⟨some 7, 0⟩ (by decide) (by decide)⟩

/-! ## The pending flush across operations -/

/-- PaintImageData leaves the world as it is or appends one operation. -/
theorem paint_world (w : World) (image : PP_Resource) (x y : Int)
    (src_rect : Option PP_Rect) :
    (PaintImageData w image x y src_rect).2 = w ∨
    ∃ op, (PaintImageData w image x y src_rect).2 = w.push_back op := by
  unfold PaintImageData
  split
  · exact Or.inl rfl
  · dsimp only
    split_ifs
    · exact Or.inl rfl
    · exact Or.inl rfl
    · exact Or.inl rfl
    · exact Or.inr ⟨_, rfl⟩

/-- Scroll leaves the world as it is or appends one operation. -/
theorem scroll_world (w : World) (clip_rect : Option PP_Rect) (dx dy : Int) :
    (Scroll w clip_rect dx dy).2 = w ∨
    ∃ op, (Scroll w clip_rect dx dy).2 = w.push_back op := by
  unfold Scroll
  dsimp only
  split_ifs
  · exact Or.inl rfl
  · exact Or.inl rfl
  · exact Or.inr ⟨_, rfl⟩

/-- ReplaceContents leaves the world as it is or appends one operation. -/
theorem replace_world (w : World) (image : PP_Resource) :
    (ReplaceContents w image).2 = w ∨
    ∃ op, (ReplaceContents w image).2 = w.push_back op := by
  unfold ReplaceContents
  split
  · exact Or.inl rfl
  · dsimp only
    split_ifs
    · exact Or.inl rfl
    · exact Or.inl rfl
    · exact Or.inr ⟨_, rfl⟩

/-- ReadImageData changes at most the image resources. -/
theorem read_world (w : World) (image : PP_Resource) (x y : Int) :
    ∃ images, (ReadImageData w image x y).2 = { w with images := images } := by
  unfold ReadImageData
  split
  · exact ⟨w.images, rfl⟩
  · dsimp only
    split_ifs
    · exact ⟨w.images, rfl⟩
    · exact ⟨w.images, rfl⟩
    · exact ⟨w.images, rfl⟩
    · exact ⟨w.images, rfl⟩
    · exact ⟨_, rfl⟩

/-- The cleared callback data holds no callback. -/
theorem cleared_is_null : FlushCallbackData.cleared.is_null = true := rfl

/-- What unbinding a bound device does: both slots end up empty, the
offscreen flag is set if it was set or a slot was occupied, the callbacks that
were held are posted in the order unpainted, painted; nothing is invoked or
invalidated. -/
theorem unbind_fields (w : World) (hb : w.device.bound_instance_ ≠ none) :
    (BindToInstance w none).2.device.unpainted_flush_callback_.is_null = true ∧
    (BindToInstance w none).2.device.painted_flush_callback_.is_null = true ∧
    (BindToInstance w none).2.device.offscreen_flush_pending_ =
      (w.device.offscreen_flush_pending_ ||
        !w.device.unpainted_flush_callback_.is_null ||
        !w.device.painted_flush_callback_.is_null) ∧
    (BindToInstance w none).2.posted_tasks = w.posted_tasks ++
      (if w.device.unpainted_flush_callback_.is_null then []
        else [w.device.unpainted_flush_callback_]) ++
      (if w.device.painted_flush_callback_.is_null then []
        else [w.device.painted_flush_callback_]) ∧
    (BindToInstance w none).1 = true ∧
    (BindToInstance w none).2.device.bound_instance_ = none ∧
    (BindToInstance w none).2.device.image_data_ = w.device.image_data_ ∧
    (BindToInstance w none).2.device.queued_operations_ = w.device.queued_operations_ ∧
    (BindToInstance w none).2.device.flushed_any_data_ = w.device.flushed_any_data_ ∧
    (BindToInstance w none).2.invalidated = w.invalidated ∧
    (BindToInstance w none).2.callbacks_run = w.callbacks_run ∧
    (BindToInstance w none).2.images = w.images ∧
    (BindToInstance w none).2.clip = w.clip := by
  unfold BindToInstance
  rw [if_neg hb]
  simp only [Option.isSome_none, Bool.false_eq_true, and_false, if_false]
  cases hu : w.device.unpainted_flush_callback_.is_null <;>
    cases hp : w.device.painted_flush_callback_.is_null <;>
    simp [hu, hp, schedule_fields, cleared_is_null]

/-- What binding a host does to the callback slots, the offscreen flag and
the posted tasks: nothing. -/
theorem bind_host_fields (w : World) (host : PluginInstance) :
    (BindToInstance w (some host)).2.posted_tasks = w.posted_tasks ∧
    (BindToInstance w (some host)).2.device.unpainted_flush_callback_ =
      w.device.unpainted_flush_callback_ ∧
    (BindToInstance w (some host)).2.device.painted_flush_callback_ =
      w.device.painted_flush_callback_ ∧
    (BindToInstance w (some host)).2.device.offscreen_flush_pending_ =
      w.device.offscreen_flush_pending_ ∧
    (BindToInstance w (some host)).2.callbacks_run = w.callbacks_run := by
  unfold BindToInstance
  by_cases h1 : w.device.bound_instance_ = some host
  · simp [h1]
  · rw [if_neg h1]
    by_cases h2 : w.device.bound_instance_.isSome = true ∧ (some host).isSome = true
    · simp [h2]
    · rw [if_neg h2]
      dsimp only
      split_ifs <;> simp [World.InvalidateRect]

/-- Right after an accepted Flush a flush is pending. -/
theorem pending_after_flush (w : World) (callback : PP_CompletionCallback)
    (hidle : HasPendingFlush w.device = false) (hcb : callback.func ≠ none) :
    HasPendingFlush (Flush w callback).2.device = true := by
  rw [flush_accepted w callback hidle hcb]
  cases w.device.bound_instance_ with
  | none => simp [(schedule_fields _ _).1, HasPendingFlush]
  | some bound =>
    dsimp only
    split_ifs
    · cases hf : callback.func with
      | none => exact absurd hf hcb
      | some f =>
        simp [World.InvalidateRect, HasPendingFlush, FlushCallbackData.is_null, hf]
    · simp [(schedule_fields _ _).1, HasPendingFlush]

/-- An operation that delivers no callback keeps a pending flush pending. -/
theorem pending_preserved (w : World) (op : Operation)
    (hp : HasPendingFlush w.device = true) (hq : w.delivers op = false) :
    HasPendingFlush (w.apply op).device = true := by
  cases op with
  | paint image x y src_rect =>
    rcases paint_world w image x y src_rect with h | ⟨o, h⟩ <;>
      simp only [World.apply, h] <;> exact hp
  | scroll clip_rect dx dy =>
    rcases scroll_world w clip_rect dx dy with h | ⟨o, h⟩ <;>
      simp only [World.apply, h] <;> exact hp
  | replace image =>
    rcases replace_world w image with h | ⟨o, h⟩ <;>
      simp only [World.apply, h] <;> exact hp
  | flush callback =>
    simp only [World.apply, Flush, hp, if_true]
  | read image x y =>
    obtain ⟨imgs, h⟩ := read_world w image x y
    simp only [World.apply, h]
    exact hp
  | bind new_instance =>
    simp only [World.apply]
    cases new_instance with
    | none =>
      by_cases hb : w.device.bound_instance_ = none
      · simp only [BindToInstance, hb, if_true]
        exact hp
      · obtain ⟨hu, hpn, ho, _⟩ := unbind_fields w hb
        unfold HasPendingFlush at hp ⊢
        rw [hu, hpn, ho]
        simpa [Bool.or_assoc, Bool.or_comm, Bool.or_left_comm] using hp
    | some host =>
      obtain ⟨_, hd⟩ := bind_host_fields w host
      unfold HasPendingFlush at hp ⊢
      rw [hd.1, hd.2.1, hd.2.2.1]
      exact hp
  | viewInitiatedPaint =>
    simp only [World.apply]
    unfold ViewInitiatedPaint World.dcheck
    unfold HasPendingFlush at hp ⊢
    split_ifs <;> simp_all
  | viewFlushedPaint =>
    simp only [World.apply]
    unfold ViewFlushedPaint
    simp only [World.delivers] at hq
    simp only [hq, Bool.false_eq_true, if_false]
    exact hp
  | runPostedTask =>
    simp only [World.apply]
    unfold RunPostedTask
    simp only [World.delivers] at hq
    cases ht : w.posted_tasks with
    | nil => exact hp
    | cons t rest => simp [ht] at hq

/-- A pending flush stays pending along a sequence of operations none of which
delivers a callback. -/
theorem pending_run (ops : List Operation) :
    ∀ w : World, HasPendingFlush w.device = true → w.noDelivery ops →
      HasPendingFlush (w.run ops).device = true := by
  induction ops with
  | nil => intro w hp _; exact hp
  | cons op rest ih =>
    intro w hp hq
    exact ih (w.apply op) (pending_preserved w op hp hq.1) hq.2

/-- C13: right after an accepted Flush a flush is pending, and it is still
pending after every sequence of further operations (enqueue calls, Flush
calls, which are rejected, binding and unbinding a host, ViewInitiatedPaint,
ViewFlushedPaint with an empty painted slot, ReadImageData) in which no step
delivers the callback, that is, in which the posted task does not run and
ViewFlushedPaint does not find a painted callback. -/
theorem C13_pending_until_delivery (w : World) (callback : PP_CompletionCallback)
    (ops : List Operation)
    (hidle : HasPendingFlush w.device = false) (hcb : callback.func ≠ none)
    (hquiet : (Flush w callback).2.noDelivery ops) :
    HasPendingFlush (Flush w callback).2.device = true ∧
    HasPendingFlush ((Flush w callback).2.run ops).device = true :=
  ⟨pending_after_flush w callback hidle hcb,
   pending_run ops _ (pending_after_flush w callback hidle hcb) hquiet⟩

/-- Witness for C13: on the 4 x 4 pattern device bound to host 1, a Flush of
one Paint operation followed by a Paint, a second Flush, ViewFlushedPaint
before the paint has begun, ViewInitiatedPaint, a read-back, an unbind and a
rebind. -/
theorem C13_pending_until_delivery_witness :
    HasPendingFlush (patternWorld.run [.bind (some 1), .paint 1 0 0 none]).device = false ∧
    (Flush (patternWorld.run [.bind (some 1), .paint 1 0 0 none]) ⟨some 7, 0⟩).2.noDelivery
      [.paint 1 1 1 none, .flush ⟨some 8, 0⟩, .viewFlushedPaint, .viewInitiatedPaint,
        .read 2 0 0, .bind none, .bind (some 2)] ∧
    (HasPendingFlush (Flush (patternWorld.run [.bind (some 1), .paint 1 0 0 none])
      ⟨some 7, 0⟩).2.device = true ∧
    HasPendingFlush ((Flush (patternWorld.run [.bind (some 1), .paint 1 0 0 none])
      ⟨some 7, 0⟩).2.run
        [.paint 1 1 1 none, .flush ⟨some 8, 0⟩, .viewFlushedPaint, .viewInitiatedPaint,
          .read 2 0 0, .bind none, .bind (some 2)]).device = true) :=
  ⟨by decide, by decide,
   C13_pending_until_delivery _ ⟨some 7, 0⟩ _ (by decide) (by decide) (by decide)⟩

/-! ## At most one pending flush -/

/-- The bookkeeping invariant read off the three conditions. -/
theorem pendingInvariant_iff (w : World) :
    w.pendingInvariant ↔
      ((w.device.unpainted_flush_callback_.is_null = true ∧
          w.device.painted_flush_callback_.is_null = true ∧
          w.device.offscreen_flush_pending_ = false ∧ w.posted_tasks.length = 0) ∨
        (w.device.unpainted_flush_callback_.is_null = false ∧
          w.device.painted_flush_callback_.is_null = true ∧
          w.device.offscreen_flush_pending_ = false ∧ w.posted_tasks.length = 0) ∨
        (w.device.unpainted_flush_callback_.is_null = true ∧
          w.device.painted_flush_callback_.is_null = false ∧
          w.device.offscreen_flush_pending_ = false ∧ w.posted_tasks.length = 0) ∨
        (w.device.unpainted_flush_callback_.is_null = true ∧
          w.device.painted_flush_callback_.is_null = true ∧
          w.device.offscreen_flush_pending_ = true ∧ w.posted_tasks.length = 1)) := by
  unfold World.pendingInvariant pendingCount
  cases w.device.unpainted_flush_callback_.is_null <;>
    cases w.device.painted_flush_callback_.is_null <;>
    cases w.device.offscreen_flush_pending_ <;> simp

/-- The initial world satisfies the bookkeeping invariant. -/
theorem pendingInvariant_initial (backing : ImageData)
    (images : PP_Resource → Option ImageData) (clip : PluginInstance → Rect) :
    (World.initial backing images clip).pendingInvariant := by
  rw [pendingInvariant_iff]
  left
  exact ⟨rfl, rfl, rfl, rfl⟩

/-- Every operation keeps the bookkeeping invariant. -/
theorem pendingInvariant_apply (w : World) (op : Operation)
    (hinv : w.pendingInvariant) : (w.apply op).pendingInvariant := by
  cases op with
  | paint image x y src_rect =>
    rcases paint_world w image x y src_rect with h | ⟨o, h⟩ <;>
      simp only [World.apply, h] <;> exact hinv
  | scroll clip_rect dx dy =>
    rcases scroll_world w clip_rect dx dy with h | ⟨o, h⟩ <;>
      simp only [World.apply, h] <;> exact hinv
  | replace image =>
    rcases replace_world w image with h | ⟨o, h⟩ <;>
      simp only [World.apply, h] <;> exact hinv
  | read image x y =>
    obtain ⟨imgs, h⟩ := read_world w image x y
    simp only [World.apply, h]
    exact hinv
  | flush callback =>
    simp only [World.apply]
    by_cases hidle : HasPendingFlush w.device = false
    · by_cases hcb : callback.func = none
      · rw [(flush_bad_argument_world w callback hidle hcb)]
        exact hinv
      · obtain ⟨hu, hp, ho⟩ := idle_fields w.device hidle
        rw [pendingInvariant_iff] at hinv ⊢
        have hlen : w.posted_tasks.length = 0 := by
          rcases hinv with h | h | h | h <;> simp_all
        rw [flush_accepted w callback hidle hcb]
        have hnn : (FlushCallbackData.mk callback).is_null = false := by
          cases hf : callback.func with
          | none => exact absurd hf hcb
          | some f => simp [FlushCallbackData.is_null, hf]
        cases w.device.bound_instance_ with
        | none =>
          right; right; right
          simp [schedule_fields, World.afterFlushLoop, hu, hp, hlen]
        | some bound =>
          dsimp only
          split_ifs
          · right; left
            simp [World.InvalidateRect, World.afterFlushLoop, hnn, hp, ho, hlen]
          · right; right; right
            simp [schedule_fields, World.afterFlushLoop, hu, hp, hlen]
    · have hpend : HasPendingFlush w.device = true := by simpa using hidle
      simp only [Flush, hpend, if_true]
      exact hinv
  | bind new_instance =>
    simp only [World.apply]
    cases new_instance with
    | none =>
      by_cases hb : w.device.bound_instance_ = none
      · simp only [BindToInstance, hb, if_true]
        exact hinv
      · obtain ⟨hu, hpn, ho, ht, _⟩ := unbind_fields w hb
        rw [pendingInvariant_iff] at hinv ⊢
        rw [hu, hpn, ho, ht]
        rcases hinv with h | h | h | h <;>
          simp [h.1, h.2.1, h.2.2.1, h.2.2.2]
    | some host =>
      obtain ⟨ht, hu, hp, ho, _⟩ := bind_host_fields w host
      rw [pendingInvariant_iff] at hinv ⊢
      rw [ht, hu, hp, ho]
      exact hinv
  | viewInitiatedPaint =>
    simp only [World.apply]
    rw [pendingInvariant_iff] at hinv ⊢
    unfold ViewInitiatedPaint World.dcheck
    rcases hinv with h | h | h | h <;>
      simp [h.1, h.2.1, h.2.2.1, h.2.2.2]
  | viewFlushedPaint =>
    simp only [World.apply]
    rw [pendingInvariant_iff] at hinv ⊢
    unfold ViewFlushedPaint Execute
    rcases hinv with h | h | h | h <;>
      simp [h.1, h.2.1, h.2.2.1, h.2.2.2, cleared_is_null]
  | runPostedTask =>
    simp only [World.apply]
    rw [pendingInvariant_iff] at hinv ⊢
    unfold RunPostedTask
    cases ht : w.posted_tasks with
    | nil =>
      simpa [ht] using hinv
    | cons t rest =>
      have hrest : rest = [] := by
        rcases hinv with h | h | h | h <;> simp_all
      subst hrest
      unfold ExecuteOffscreenCallback Execute World.dcheck
      left
      rcases hinv with h | h | h | h <;> simp_all

/-- Every state reached from a state with consistent bookkeeping has
consistent bookkeeping. -/
theorem pendingInvariant_run (ops : List Operation) :
    ∀ w : World, w.pendingInvariant → (w.run ops).pendingInvariant := by
  induction ops with
  | nil => intro w h; exact h
  | cons op rest ih => intro w h; exact ih _ (pendingInvariant_apply w op h)

/-- C14: in every state reached from a freshly created device by a sequence
of operations (public methods and runs of the posted task), at most one of
the three conditions (unpainted slot occupied, painted slot occupied,
offscreen flag set) holds, and HasPendingFlush is true exactly when one of
them holds. -/
theorem C14_at_most_one_pending (backing : ImageData)
    (images : PP_Resource → Option ImageData) (clip : PluginInstance → Rect)
    (ops : List Operation) :
    pendingCount ((World.initial backing images clip).run ops).device ≤ 1 ∧
    (HasPendingFlush ((World.initial backing images clip).run ops).device = true ↔
      (((World.initial backing images clip).run ops).device.unpainted_flush_callback_.is_null
          = false ∨
        ((World.initial backing images clip).run ops).device.painted_flush_callback_.is_null
          = false ∨
        ((World.initial backing images clip).run ops).device.offscreen_flush_pending_
          = true)) := by
  refine ⟨(pendingInvariant_run ops _ (pendingInvariant_initial backing images clip)).1, ?_⟩
  unfold HasPendingFlush
  simp [or_assoc]

/-- C20: in every state reached from a freshly created device in which a task
is posted, running the task clears the offscreen flag and then invokes the
callback of the task exactly once, with the success code and with
HasPendingFlush false at the moment of the invocation; afterwards no flush is
pending, so that a Flush is never rejected as in progress and one with a
callback is accepted. -/
theorem C20_posted_task_delivers (backing : ImageData)
    (images : PP_Resource → Option ImageData) (clip : PluginInstance → Rect)
    (ops : List Operation) (w : World) (data : FlushCallbackData)
    (rest : List FlushCallbackData)
    (hw : w = (World.initial backing images clip).run ops)
    (htask : w.posted_tasks = data :: rest) :
    (RunPostedTask w).callbacks_run =
      w.callbacks_run ++ [⟨data.callback_, PP_OK, false⟩] ∧
    (RunPostedTask w).device.offscreen_flush_pending_ = false ∧
    (RunPostedTask w).posted_tasks = [] ∧
    HasPendingFlush (RunPostedTask w).device = false ∧
    (∀ callback, (Flush (RunPostedTask w) callback).1 ≠ PP_Error_InProgress) ∧
    (∀ callback, callback.func ≠ none →
      (Flush (RunPostedTask w) callback).1 = PP_Error_WouldBlock) := by
  have hinv : w.pendingInvariant := by
    rw [hw]
    exact pendingInvariant_run ops _ (pendingInvariant_initial backing images clip)
  rw [pendingInvariant_iff] at hinv
  have hfacts : w.device.unpainted_flush_callback_.is_null = true ∧
      w.device.painted_flush_callback_.is_null = true ∧
      w.device.offscreen_flush_pending_ = true ∧ rest = [] := by
    rcases hinv with h | h | h | h <;> simp_all
  obtain ⟨hu, hp, ho, hrest⟩ := hfacts
  subst hrest
  have hidle : HasPendingFlush (RunPostedTask w).device = false := by
    unfold RunPostedTask ExecuteOffscreenCallback Execute World.dcheck HasPendingFlush
    simp [htask, hu, hp, ho]
  refine ⟨?_, ?_, ?_, hidle, ?_, ?_⟩
  · unfold RunPostedTask ExecuteOffscreenCallback Execute World.dcheck HasPendingFlush
    simp [htask, hu, hp, ho]
  · unfold RunPostedTask ExecuteOffscreenCallback Execute World.dcheck
    simp [htask, ho]
  · unfold RunPostedTask ExecuteOffscreenCallback Execute World.dcheck
    simp [htask, ho]
  · intro callback
    by_cases hcb : callback.func = none
    · rw [flush_bad_argument_code _ callback hidle hcb]
      decide
    · rw [flush_accepted_code _ callback hidle hcb]
      decide
  · intro callback hcb
    exact flush_accepted_code _ callback hidle hcb

/-- Witness for C20: the task posted by a Flush on the unbound 4 x 4 pattern
device. -/
theorem C20_posted_task_delivers_witness :
    (patternWorld.run [.flush ⟨some 7, 0⟩]).posted_tasks = [⟨⟨some 7, 0⟩⟩] ∧
    ((RunPostedTask (patternWorld.run [.flush ⟨some 7, 0⟩])).callbacks_run =
      (patternWorld.run [.flush ⟨some 7, 0⟩]).callbacks_run ++
        [⟨(FlushCallbackData.mk ⟨some 7, 0⟩).callback_, PP_OK, false⟩] ∧
    (RunPostedTask (patternWorld.run
      [.flush ⟨some 7, 0⟩])).device.offscreen_flush_pending_ = false ∧
    (RunPostedTask (patternWorld.run [.flush ⟨some 7, 0⟩])).posted_tasks = [] ∧
    HasPendingFlush (RunPostedTask (patternWorld.run
      [.flush ⟨some 7, 0⟩])).device = false ∧
    (∀ callback, (Flush (RunPostedTask (patternWorld.run [.flush ⟨some 7, 0⟩]))
      callback).1 ≠ PP_Error_InProgress) ∧
    (∀ callback, callback.func ≠ none →
      (Flush (RunPostedTask (patternWorld.run [.flush ⟨some 7, 0⟩])) callback).1 =
        PP_Error_WouldBlock)) :=
  ⟨by decide,
   C20_posted_task_delivers (sampleImage 4 4) _ _ [.flush ⟨some 7, 0⟩] _ ⟨⟨some 7, 0⟩⟩ []
    rfl (by decide)⟩

/-! ## Executing the queue -/

/-- The pixels after `ExecutePaintImageData` for a mappable image and a
placement that fits: source pixels inside the destination rectangle, the old
pixels outside. -/
theorem paint_pixel (backing image : ImageData) (x y : Int) (s inv0 : Rect)
    (px py : Int) (hmap : image.mappable = true)
    (hfits : paintFits backing.width backing.height x y s) :
    (ExecutePaintImageData backing image x y s inv0).1.pixels px py =
      if x + s.x ≤ px ∧ px < x + s.x + s.width ∧ y + s.y ≤ py ∧ py < y + s.y + s.height
      then image.pixels (px - x) (py - y) else backing.pixels px py := by
  obtain ⟨hW, hH, hw0, hh0, hsw, hsh, hx0, hx1, hy0, hy1⟩ := hfits
  unfold isInt32 at hW hH hsw hsh
  have e1 : add32 s.x s.width = s.x + s.width := by unfold add32 wrap32; omega
  have e2 : add32 s.y s.height = s.y + s.height := by unfold add32 wrap32; omega
  have e3 : add32 s.x x = s.x + x := by unfold add32 wrap32; omega
  have e4 : add32 s.y y = s.y + y := by unfold add32 wrap32; omega
  have e5 : add32 (s.x + x) s.width = s.x + x + s.width := by unfold add32 wrap32; omega
  have e6 : add32 (s.y + y) s.height = s.y + y + s.height := by unfold add32 wrap32; omega
  unfold ExecutePaintImageData drawBitmapRect
  simp only [hmap, Bool.not_true, Bool.false_eq_true, if_false, Rect.Offset, Rect.right,
    Rect.bottom, e1, e2, e3, e4, e5, e6]
  by_cases hc : x + s.x ≤ px ∧ px < x + s.x + s.width ∧ y + s.y ≤ py ∧ py < y + s.y + s.height
  · rw [if_pos hc, if_pos (by omega)]
    congr 1 <;> omega
  · rw [if_neg hc, if_neg (by omega)]

/-- The rectangle reported by `ExecutePaintImageData` and the size of the
backing store after it, for a mappable image and a placement that fits. -/
theorem paint_rect (backing image : ImageData) (x y : Int) (s inv0 : Rect)
    (hmap : image.mappable = true)
    (hfits : paintFits backing.width backing.height x y s) :
    (ExecutePaintImageData backing image x y s inv0).2 =
      ⟨s.x + x, s.y + y, s.width, s.height⟩ ∧
    (ExecutePaintImageData backing image x y s inv0).1.width = backing.width ∧
    (ExecutePaintImageData backing image x y s inv0).1.height = backing.height := by
  obtain ⟨hW, hH, hw0, hh0, hsw, hsh, hx0, hx1, hy0, hy1⟩ := hfits
  unfold isInt32 at hW hH hsw hsh
  have e3 : add32 s.x x = s.x + x := by unfold add32 wrap32; omega
  have e4 : add32 s.y y = s.y + y := by unfold add32 wrap32; omega
  unfold ExecutePaintImageData drawBitmapRect
  simp [hmap, Rect.Offset, e3, e4]

/-- C16: executing a queued Paint operation (image, x, y, s) with a mappable
source image and a placement that fits the backing store copies the source
rectangle unblended: the backing-store pixel at (x + s.x + i, y + s.y + j) is
the source pixel at (s.x + i, s.y + j) for 0 <= i < s.width and
0 <= j < s.height, every pixel outside that destination rectangle keeps its
value, and the reported invalidated rectangle is s translated by (x, y). -/
theorem C16_execute_paint (backing image : ImageData) (x y : Int) (s inv0 : Rect)
    (hmap : image.mappable = true)
    (hfits : paintFits backing.width backing.height x y s) :
    (∀ i j, 0 ≤ i → i < s.width → 0 ≤ j → j < s.height →
      (ExecutePaintImageData backing image x y s inv0).1.pixels
        (x + s.x + i) (y + s.y + j) = image.pixels (s.x + i) (s.y + j)) ∧
    (∀ px py,
      ¬(x + s.x ≤ px ∧ px < x + s.x + s.width ∧ y + s.y ≤ py ∧ py < y + s.y + s.height) →
      (ExecutePaintImageData backing image x y s inv0).1.pixels px py =
        backing.pixels px py) ∧
    (ExecutePaintImageData backing image x y s inv0).2 =
      ⟨s.x + x, s.y + y, s.width, s.height⟩ := by
  refine ⟨?_, ?_, (paint_rect backing image x y s inv0 hmap hfits).1⟩
  · intro i j hi0 hi1 hj0 hj1
    rw [paint_pixel backing image x y s inv0 _ _ hmap hfits, if_pos (by omega)]
    congr 1 <;> omega
  · intro px py hout
    rw [paint_pixel backing image x y s inv0 _ _ hmap hfits, if_neg hout]

/-- Witness for C16: the 2 x 2 pattern image painted at (1, 1) on a 4 x 4
backing store. -/
theorem C16_execute_paint_witness :
    paintFits (sampleImage 4 4).width (sampleImage 4 4).height 1 1 ⟨0, 0, 2, 2⟩ ∧
    ((∀ i j, 0 ≤ i → i < (2 : Int) → 0 ≤ j → j < (2 : Int) →
      (ExecutePaintImageData (sampleImage 4 4) (patternImage 2 2) 1 1 ⟨0, 0, 2, 2⟩
        Rect.empty).1.pixels (1 + 0 + i) (1 + 0 + j) =
          (patternImage 2 2).pixels (0 + i) (0 + j)) ∧
    (∀ px py,
      ¬((1 : Int) + 0 ≤ px ∧ px < 1 + 0 + 2 ∧ (1 : Int) + 0 ≤ py ∧ py < 1 + 0 + 2) →
      (ExecutePaintImageData (sampleImage 4 4) (patternImage 2 2) 1 1 ⟨0, 0, 2, 2⟩
        Rect.empty).1.pixels px py = (sampleImage 4 4).pixels px py) ∧
    (ExecutePaintImageData (sampleImage 4 4) (patternImage 2 2) 1 1 ⟨0, 0, 2, 2⟩
      Rect.empty).2 = ⟨0 + 1, 0 + 1, 2, 2⟩) :=
  ⟨by decide,
   C16_execute_paint (sampleImage 4 4) (patternImage 2 2) 1 1 ⟨0, 0, 2, 2⟩ Rect.empty
    rfl (by decide)⟩

/-- C17: executing a queued Replace operation whose image has the size of the
backing store swaps the contents: the backing store then holds the pixels the
image held and the image, behind its handle, holds the pixels the backing
store held; the width and height of the backing store are unchanged and the
reported invalidated rectangle is the whole buffer. -/
theorem C17_execute_replace (p : FlushProgress) (handle : PP_Resource)
    (image : ImageData) (himg : p.images handle = some image)
    (hw : image.width = p.backing.width) (hh : image.height = p.backing.height) :
    (ExecuteOperation p (replaceOperation handle)).backing.pixels = image.pixels ∧
    (∃ after, (ExecuteOperation p (replaceOperation handle)).images handle = some after ∧
      after.pixels = p.backing.pixels) ∧
    (ExecuteOperation p (replaceOperation handle)).backing.width = p.backing.width ∧
    (ExecuteOperation p (replaceOperation handle)).backing.height = p.backing.height ∧
    (ExecuteReplaceContents p.backing image).2.2 =
      ⟨0, 0, p.backing.width, p.backing.height⟩ ∧
    (ExecuteReplaceContents p.backing image).1.pixels = image.pixels ∧
    (ExecuteReplaceContents p.backing image).2.1.pixels = p.backing.pixels := by
  simp [ExecuteOperation, replaceOperation, himg, ExecuteReplaceContents, ImageData.Swap,
    setImage, hw, hh]

/-- Witness for C17: the 4 x 4 pattern image behind handle 3 replacing the
contents of the 4 x 4 backing store of the pattern device. -/
theorem C17_execute_replace_witness :
    (ExecuteOperation ⟨patternWorld.device.image_data_, patternWorld.images, Rect.empty⟩
        (replaceOperation 3)).backing.pixels = (patternImage 4 4).pixels ∧
    (∃ after, (ExecuteOperation
        ⟨patternWorld.device.image_data_, patternWorld.images, Rect.empty⟩
        (replaceOperation 3)).images 3 = some after ∧
      after.pixels = patternWorld.device.image_data_.pixels) ∧
    (ExecuteOperation ⟨patternWorld.device.image_data_, patternWorld.images, Rect.empty⟩
        (replaceOperation 3)).backing.width = patternWorld.device.image_data_.width ∧
    (ExecuteOperation ⟨patternWorld.device.image_data_, patternWorld.images, Rect.empty⟩
        (replaceOperation 3)).backing.height = patternWorld.device.image_data_.height ∧
    (ExecuteReplaceContents patternWorld.device.image_data_ (patternImage 4 4)).2.2 =
      ⟨0, 0, patternWorld.device.image_data_.width,
        patternWorld.device.image_data_.height⟩ ∧
    (ExecuteReplaceContents patternWorld.device.image_data_ (patternImage 4 4)).1.pixels =
      (patternImage 4 4).pixels ∧
    (ExecuteReplaceContents patternWorld.device.image_data_ (patternImage 4 4)).2.1.pixels =
      patternWorld.device.image_data_.pixels :=
  C17_execute_replace ⟨patternWorld.device.image_data_, patternWorld.images, Rect.empty⟩
    3 (patternImage 4 4) rfl rfl rfl

/-- The loop of Flush is the left fold of the per-operation step. -/
theorem flushLoop_eq_foldl (q : List QueuedOperation) :
    ∀ p : FlushProgress, FlushLoop q p = List.foldl ExecuteOperation p q := by
  induction q with
  | nil => intro p; rfl
  | cons op rest ih => intro p; simp only [FlushLoop, List.foldl_cons, ih]

/-- The backing store after an accepted Flush is the one the loop leaves. -/
theorem flush_accepted_backing (w : World) (callback : PP_CompletionCallback)
    (hidle : HasPendingFlush w.device = false) (hcb : callback.func ≠ none) :
    (Flush w callback).2.device.image_data_ =
      (FlushLoop w.device.queued_operations_
        ⟨w.device.image_data_, w.images, Rect.empty⟩).backing := by
  rw [flush_accepted w callback hidle hcb]
  cases w.device.bound_instance_ with
  | none => simp [(schedule_fields _ _).1, World.afterFlushLoop]
  | some bound =>
    dsimp only
    split_ifs
    · simp [World.InvalidateRect, World.afterFlushLoop]
    · simp [(schedule_fields _ _).1, World.afterFlushLoop]

/-- A Paint or Scroll step leaves the image resources and the size of the
backing store as they are. -/
theorem execute_keeps (p : FlushProgress) (op : QueuedOperation)
    (hop : op.type ≠ .REPLACE) :
    (ExecuteOperation p op).images = p.images ∧
    (ExecuteOperation p op).backing.width = p.backing.width ∧
    (ExecuteOperation p op).backing.height = p.backing.height := by
  unfold ExecuteOperation
  cases ht : op.type with
  | PAINT =>
    dsimp only
    cases op.paint_image.bind p.images with
    | none => exact ⟨rfl, rfl, rfl⟩
    | some image =>
      dsimp only
      unfold ExecutePaintImageData drawBitmapRect
      split_ifs <;> exact ⟨rfl, rfl, rfl⟩
  | SCROLL => exact ⟨rfl, rfl, rfl⟩
  | REPLACE => exact absurd ht hop

/-- A run of Paint and Scroll steps leaves the image resources and the size of
the backing store as they are. -/
theorem foldl_keeps (q : List QueuedOperation) :
    ∀ p : FlushProgress, (∀ op ∈ q, op.type ≠ .REPLACE) →
      (List.foldl ExecuteOperation p q).images = p.images ∧
      (List.foldl ExecuteOperation p q).backing.width = p.backing.width ∧
      (List.foldl ExecuteOperation p q).backing.height = p.backing.height := by
  induction q with
  | nil => intro p _; exact ⟨rfl, rfl, rfl⟩
  | cons op rest ih =>
    intro p hq
    obtain ⟨h1, h2, h3⟩ := ih (ExecuteOperation p op)
      (fun o ho => hq o (List.mem_cons_of_mem _ ho))
    obtain ⟨k1, k2, k3⟩ := execute_keeps p op (hq op (List.mem_cons_self _ _))
    simp only [List.foldl_cons]
    exact ⟨h1.trans k1, h2.trans k2, h3.trans k3⟩

/-- C15: the backing store after an accepted Flush is the left fold of the
per-operation execute step over the queue, in enqueue order, starting from the
backing store before the flush; in particular, when the operation enqueued
last is a Paint that fits, every pixel it covers ends up with the value that
Paint writes, whatever Paint and Scroll operations enqueued earlier have
written there. -/
theorem C15_flush_in_order (w : World) (callback : PP_CompletionCallback)
    (hidle : HasPendingFlush w.device = false) (hcb : callback.func ≠ none) :
    (Flush w callback).2.device.image_data_ =
      (List.foldl ExecuteOperation ⟨w.device.image_data_, w.images, Rect.empty⟩
        w.device.queued_operations_).backing ∧
    (∀ (earlier : List QueuedOperation) (image : PP_Resource) (img : ImageData)
      (x y : Int) (s : Rect) (px py : Int),
      w.device.queued_operations_ = earlier ++ [paintOperation image x y s] →
      (∀ op ∈ earlier, op.type ≠ .REPLACE) →
      w.images image = some img → img.mappable = true →
      paintFits w.device.image_data_.width w.device.image_data_.height x y s →
      x + s.x ≤ px → px < x + s.x + s.width →
      y + s.y ≤ py → py < y + s.y + s.height →
      (Flush w callback).2.device.image_data_.pixels px py =
        img.pixels (px - x) (py - y)) := by
  have hback := flush_accepted_backing w callback hidle hcb
  rw [flushLoop_eq_foldl] at hback
  refine ⟨hback, ?_⟩
  intro earlier image img x y s px py hq hearlier himg hmap hfits hx0 hx1 hy0 hy1
  rw [hback, hq, List.foldl_append]
  obtain ⟨k1, k2, k3⟩ := foldl_keeps earlier
    ⟨w.device.image_data_, w.images, Rect.empty⟩ hearlier
  simp only [List.foldl_cons, List.foldl_nil]
  generalize List.foldl ExecuteOperation
    ⟨w.device.image_data_, w.images, Rect.empty⟩ earlier = p at k1 k2 k3
  simp only at k1 k2 k3
  have hfits2 : paintFits p.backing.width p.backing.height x y s := by
    rw [k2, k3]; exact hfits
  have himg2 : p.images image = some img := by rw [k1]; exact himg
  simp only [ExecuteOperation, paintOperation, Option.bind, himg2]
  rw [paint_pixel p.backing img x y s Rect.empty px py hmap hfits2, if_pos ⟨hx0, hx1, hy0, hy1⟩]

/-- Witness for C15: on the 4 x 4 pattern device the all-zero 2 x 2 image is
queued at (0, 0) and then the 2 x 2 pattern image at (1, 1); both cover the
pixel (1, 1). -/
theorem C15_flush_in_order_witness :
    HasPendingFlush
      (patternWorld.run [.paint 2 0 0 none, .paint 1 1 1 none]).device = false ∧
    (patternWorld.run [.paint 2 0 0 none, .paint 1 1 1 none]).device.queued_operations_ =
      [paintOperation 2 0 0 ⟨0, 0, 2, 2⟩] ++ [paintOperation 1 1 1 ⟨0, 0, 2, 2⟩] ∧
    (Flush (patternWorld.run [.paint 2 0 0 none, .paint 1 1 1 none])
      ⟨some 7, 0⟩).2.device.image_data_.pixels 1 1 = (patternImage 2 2).pixels (1 - 1) (1 - 1) ∧
    (patternImage 2 2).pixels (1 - 1) (1 - 1) = 1 :=
  ⟨by decide, by decide,
   (C15_flush_in_order (patternWorld.run [.paint 2 0 0 none, .paint 1 1 1 none])
      ⟨some 7, 0⟩ (by decide) (by decide)).2
      [paintOperation 2 0 0 ⟨0, 0, 2, 2⟩] 1 (patternImage 2 2) 1 1 ⟨0, 0, 2, 2⟩ 1 1
      (by decide) (by decide) rfl rfl (by decide) (by decide) (by decide) (by decide)
      (by decide),
   by decide⟩

/-! ## Where an accepted Flush leaves its callback -/

/-- C18: an accepted Flush on a device bound to a host whose visible clip
meets the non-empty accumulated changed rectangle in a non-empty rectangle
stores the callback in the unpainted slot, leaves the painted slot empty and
the offscreen flag clear, posts no task, invokes no callback and sends the
host exactly one invalidate request, for the intersection of the clip with
the changed rectangle. -/
theorem C18_flush_visible (w : World) (callback : PP_CompletionCallback)
    (bound : PluginInstance)
    (hidle : HasPendingFlush w.device = false) (hcb : callback.func ≠ none)
    (hbound : w.device.bound_instance_ = some bound)
    (hchanged : w.changedRect.IsEmpty = false)
    (hvisible : ((w.clip bound).Intersect w.changedRect).IsEmpty = false) :
    (Flush w callback).1 = PP_Error_WouldBlock ∧
    (Flush w callback).2.device.unpainted_flush_callback_ = ⟨callback⟩ ∧
    (Flush w callback).2.device.painted_flush_callback_.is_null = true ∧
    (Flush w callback).2.device.offscreen_flush_pending_ = false ∧
    (Flush w callback).2.posted_tasks = w.posted_tasks ∧
    (Flush w callback).2.callbacks_run = w.callbacks_run ∧
    (Flush w callback).2.invalidated =
      w.invalidated ++ [(bound, (w.clip bound).Intersect w.changedRect)] := by
  obtain ⟨_, hp, ho⟩ := idle_fields w.device hidle
  have hv : w.visibleChangedRect bound = (w.clip bound).Intersect w.changedRect := by
    unfold World.visibleChangedRect
    simp [hchanged]
  rw [flush_accepted w callback hidle hcb, hbound]
  simp [hv, hvisible, World.InvalidateRect, World.afterFlushLoop, hp, ho]

/-- Witness for C18: the 4 x 4 pattern device bound to host 1, which shows
(0, 0, 4, 4), flushing one Paint of the 2 x 2 pattern image at (1, 1). -/
theorem C18_flush_visible_witness :
    (HasPendingFlush (patternWorld.run [.bind (some 1), .paint 1 1 1 none]).device = false ∧
      (patternWorld.run [.bind (some 1), .paint 1 1 1 none]).device.bound_instance_ = some 1 ∧
      (patternWorld.run [.bind (some 1), .paint 1 1 1 none]).changedRect = ⟨1, 1, 2, 2⟩) ∧
    (Flush (patternWorld.run [.bind (some 1), .paint 1 1 1 none]) ⟨some 7, 0⟩).2.invalidated =
      (patternWorld.run [.bind (some 1), .paint 1 1 1 none]).invalidated ++
        [(1, ((patternWorld.run [.bind (some 1), .paint 1 1 1 none]).clip 1).Intersect
          (patternWorld.run [.bind (some 1), .paint 1 1 1 none]).changedRect)] :=
  ⟨by decide,
   (C18_flush_visible (patternWorld.run [.bind (some 1), .paint 1 1 1 none]) ⟨some 7, 0⟩ 1
    (by decide) (by decide) (by decide) (by decide) (by decide)).2.2.2.2.2.2⟩

/-- C19: an accepted Flush on a device that has no bound host, or whose queue
is empty, or whose accumulated changed rectangle is empty, or whose changed
rectangle does not meet the visible clip of the bound host, invokes no
callback and sends no invalidate request; both callback slots stay empty, the
offscreen flag becomes true and exactly one task, carrying the callback, is
posted. -/
theorem C19_flush_offscreen (w : World) (callback : PP_CompletionCallback)
    (hidle : HasPendingFlush w.device = false) (hcb : callback.func ≠ none)
    (hcase : w.device.bound_instance_ = none ∨
      w.device.queued_operations_ = [] ∨
      w.changedRect.IsEmpty = true ∨
      ∃ bound, w.device.bound_instance_ = some bound ∧
        ((w.clip bound).Intersect w.changedRect).IsEmpty = true) :
    (Flush w callback).1 = PP_Error_WouldBlock ∧
    (Flush w callback).2.callbacks_run = w.callbacks_run ∧
    (Flush w callback).2.invalidated = w.invalidated ∧
    (Flush w callback).2.device.unpainted_flush_callback_.is_null = true ∧
    (Flush w callback).2.device.painted_flush_callback_.is_null = true ∧
    (Flush w callback).2.device.offscreen_flush_pending_ = true ∧
    (Flush w callback).2.posted_tasks = w.posted_tasks ++ [⟨callback⟩] := by
  obtain ⟨hu, hp, _⟩ := idle_fields w.device hidle
  have hsched : (Flush w callback).2 =
      ScheduleOffscreenCallback w.afterFlushLoop ⟨callback⟩ := by
    rw [flush_accepted w callback hidle hcb]
    cases hb : w.device.bound_instance_ with
    | none => rfl
    | some bound =>
      have hv : (w.visibleChangedRect bound).IsEmpty = true := by
        unfold World.visibleChangedRect
        by_cases hc : w.changedRect.IsEmpty = true
        · simp only [hc, Bool.not_true, Bool.false_eq_true, if_false]
          rfl
        · have hc2 : w.changedRect.IsEmpty = false := by simpa using hc
          rcases hcase with h | h | h | ⟨b, h1, h2⟩
          · rw [hb] at h; cases h
          · have : w.changedRect = Rect.empty := by
              unfold World.changedRect
              rw [h]
              rfl
            rw [this] at hc2
            simp [Rect.IsEmpty, Rect.empty] at hc2
          · rw [h] at hc2; cases hc2
          · rw [hb] at h1
            cases h1
            simp [hc2, h2]
      simp [hv]
  rw [hsched]
  refine ⟨flush_accepted_code w callback hidle hcb, ?_⟩
  simp [schedule_fields, World.afterFlushLoop, hu, hp]

/-- Witness for C19: a Flush of one Paint operation on the unbound 4 x 4
pattern device. -/
theorem C19_flush_offscreen_witness :
    HasPendingFlush (patternWorld.run [.paint 1 1 1 none]).device = false ∧
    (Flush (patternWorld.run [.paint 1 1 1 none]) ⟨some 7, 0⟩).2.posted_tasks =
      (patternWorld.run [.paint 1 1 1 none]).posted_tasks ++ [⟨⟨some 7, 0⟩⟩] :=
  ⟨by decide,
   (C19_flush_offscreen (patternWorld.run [.paint 1 1 1 none]) ⟨some 7, 0⟩
    (by decide) (by decide) (Or.inl (by decide))).2.2.2.2.2.2⟩

/-! ## Host binding -/

/-- C21: BindToInstance returns false exactly when the device is bound to a
host and the argument is another, non-null host; whenever it returns false the
whole state (bound host, callback slots, offscreen flag, queue, backing store)
is unchanged and no invalidate request is sent to any host. -/
theorem C21_bind_rejected_iff (w : World) (new_instance : Option PluginInstance) :
    ((BindToInstance w new_instance).1 = false ↔
      ∃ bound host, w.device.bound_instance_ = some bound ∧
        new_instance = some host ∧ bound ≠ host) ∧
    ((BindToInstance w new_instance).1 = false →
      (BindToInstance w new_instance).2 = w) := by
  unfold BindToInstance
  by_cases h1 : w.device.bound_instance_ = new_instance
  · simp only [h1, if_true]
    refine ⟨⟨fun h => by simp at h, ?_⟩, fun h => by simp at h⟩
    rintro ⟨bound, host, hb, hn, hne⟩
    rw [hb] at hn
    cases hn
    exact absurd rfl hne
  · rw [if_neg h1]
    by_cases h2 : w.device.bound_instance_.isSome = true ∧ new_instance.isSome = true
    · rw [if_pos h2]
      refine ⟨⟨fun _ => ?_, fun _ => rfl⟩, fun _ => rfl⟩
      obtain ⟨hb, hn⟩ := h2
      obtain ⟨bound, hb⟩ := Option.isSome_iff_exists.mp hb
      obtain ⟨host, hn⟩ := Option.isSome_iff_exists.mp hn
      refine ⟨bound, host, hb, hn, ?_⟩
      intro he
      apply h1
      rw [hb, hn, he]
    · rw [if_neg h2]
      refine ⟨⟨fun h => by simp at h, ?_⟩, fun h => by simp at h⟩
      rintro ⟨bound, host, hb, hn, _⟩
      exact absurd (by simp [hb, hn]) h2

/-- C22: BindToInstance called with the host the device is already bound to,
unbinding an unbound device included, returns true and leaves the whole state
as it is: nothing is invalidated, even after a flush, and no callback is
rescheduled. -/
theorem C22_bind_same_host (w : World) :
    BindToInstance w w.device.bound_instance_ = (true, w) := by
  unfold BindToInstance
  simp

/-! ## Every accepted callback is held or has been invoked -/

/-- One operation adds the callback it accepts, if any, to the callbacks that
are held or have been invoked, and changes nothing else in that list. -/
theorem ledger_apply (w : World) (op : Operation) (hinv : w.pendingInvariant) :
    (w.apply op).invokedCallbacks ++ (w.apply op).heldCallbacks =
      w.invokedCallbacks ++ w.heldCallbacks ++ w.acceptedBy op := by
  cases op with
  | paint image x y src_rect =>
    rcases paint_world w image x y src_rect with h | ⟨o, h⟩ <;>
      simp [World.apply, h, World.acceptedBy, World.invokedCallbacks, World.heldCallbacks,
        World.push_back]
  | scroll clip_rect dx dy =>
    rcases scroll_world w clip_rect dx dy with h | ⟨o, h⟩ <;>
      simp [World.apply, h, World.acceptedBy, World.invokedCallbacks, World.heldCallbacks,
        World.push_back]
  | replace image =>
    rcases replace_world w image with h | ⟨o, h⟩ <;>
      simp [World.apply, h, World.acceptedBy, World.invokedCallbacks, World.heldCallbacks,
        World.push_back]
  | read image x y =>
    obtain ⟨imgs, h⟩ := read_world w image x y
    simp [World.apply, h, World.acceptedBy, World.invokedCallbacks, World.heldCallbacks]
  | flush callback =>
    simp only [World.apply, World.acceptedBy]
    by_cases hidle : HasPendingFlush w.device = false
    · by_cases hcb : callback.func = none
      · rw [flush_bad_argument_world w callback hidle hcb,
          flush_bad_argument_code w callback hidle hcb]
        simp [PP_Error_BadArgument, PP_Error_WouldBlock]
      · obtain ⟨hu, hp, ho⟩ := idle_fields w.device hidle
        rw [pendingInvariant_iff] at hinv
        have hlen : w.posted_tasks = [] := by
          rcases hinv with h | h | h | h <;> simp_all
        have hnn : (FlushCallbackData.mk callback).is_null = false := by
          cases hf : callback.func with
          | none => exact absurd hf hcb
          | some f => simp [FlushCallbackData.is_null, hf]
        rw [flush_accepted_code w callback hidle hcb, flush_accepted w callback hidle hcb,
          if_pos rfl]
        cases w.device.bound_instance_ with
        | none =>
          simp [World.invokedCallbacks, World.heldCallbacks, schedule_fields,
            World.afterFlushLoop, hu, hp, hlen]
        | some bound =>
          dsimp only
          split_ifs
          · simp [World.invokedCallbacks, World.heldCallbacks, World.InvalidateRect,
              World.afterFlushLoop, hu, hp, hlen, hnn]
          · simp [World.invokedCallbacks, World.heldCallbacks, schedule_fields,
              World.afterFlushLoop, hu, hp, hlen]
    · have hpend : HasPendingFlush w.device = true := by simpa using hidle
      simp [Flush, hpend, PP_Error_InProgress, PP_Error_WouldBlock]
  | bind new_instance =>
    simp only [World.apply, World.acceptedBy, List.append_nil]
    cases new_instance with
    | none =>
      by_cases hb : w.device.bound_instance_ = none
      · simp only [BindToInstance, hb, if_true]
      · obtain ⟨hu, hpn, _, ht, _, _, _, _, _, _, hc, _⟩ := unbind_fields w hb
        rw [pendingInvariant_iff] at hinv
        unfold World.invokedCallbacks World.heldCallbacks
        rw [hu, hpn, ht, hc]
        rcases hinv with h | h | h | h <;>
          simp [h.1, h.2.1, List.length_eq_zero.mp, h.2.2.2]
    | some host =>
      obtain ⟨ht, hu, hp, _, hc⟩ := bind_host_fields w host
      unfold World.invokedCallbacks World.heldCallbacks
      rw [ht, hu, hp, hc]
  | viewInitiatedPaint =>
    simp only [World.apply, World.acceptedBy, List.append_nil]
    rw [pendingInvariant_iff] at hinv
    unfold ViewInitiatedPaint World.dcheck World.invokedCallbacks World.heldCallbacks
    rcases hinv with h | h | h | h <;>
      simp [h.1, h.2.1]
  | viewFlushedPaint =>
    simp only [World.apply, World.acceptedBy, List.append_nil]
    rw [pendingInvariant_iff] at hinv
    unfold ViewFlushedPaint Execute World.invokedCallbacks World.heldCallbacks
    rcases hinv with ⟨a, b, _, d⟩ | ⟨a, b, _, d⟩ | ⟨a, b, _, d⟩ | ⟨a, b, _, d⟩
    · simp [a, b]
    · simp [a, b]
    · simp [a, b, cleared_is_null, List.length_eq_zero.mp d]
    · simp [a, b]
  | runPostedTask =>
    simp only [World.apply, World.acceptedBy, List.append_nil]
    rw [pendingInvariant_iff] at hinv
    unfold RunPostedTask
    cases ht : w.posted_tasks with
    | nil => rfl
    | cons t rest =>
      have hfacts : w.device.unpainted_flush_callback_.is_null = true ∧
          w.device.painted_flush_callback_.is_null = true ∧
          w.device.offscreen_flush_pending_ = true ∧ rest = [] := by
        rcases hinv with h | h | h | h <;> simp_all
      obtain ⟨hu, hp, ho, hrest⟩ := hfacts
      subst hrest
      dsimp only
      unfold ExecuteOffscreenCallback Execute World.dcheck World.invokedCallbacks
        World.heldCallbacks
      simp [hu, hp, ho, ht]

/-- Along a sequence of operations the callbacks invoked so far followed by
the callbacks held are the callbacks there were followed by the callbacks
accepted, in order. -/
theorem ledger_run (ops : List Operation) :
    ∀ w : World, w.pendingInvariant →
      (w.run ops).invokedCallbacks ++ (w.run ops).heldCallbacks =
        w.invokedCallbacks ++ w.heldCallbacks ++ w.acceptedCallbacks ops := by
  induction ops with
  | nil => intro w _; simp [World.run, World.acceptedCallbacks]
  | cons op rest ih =>
    intro w hinv
    simp only [World.run, World.acceptedCallbacks]
    rw [ih _ (pendingInvariant_apply w op hinv), ledger_apply w op hinv]
    simp [List.append_assoc]

/-- Every state reached from a freshly created device has consistent
bookkeeping, spelled out. -/
theorem reachable_cases (backing : ImageData)
    (images : PP_Resource → Option ImageData) (clip : PluginInstance → Rect)
    (ops : List Operation) (w : World)
    (hw : w = (World.initial backing images clip).run ops) :
    (w.device.unpainted_flush_callback_.is_null = true ∧
        w.device.painted_flush_callback_.is_null = true ∧
        w.device.offscreen_flush_pending_ = false ∧ w.posted_tasks = []) ∨
      (w.device.unpainted_flush_callback_.is_null = false ∧
        w.device.painted_flush_callback_.is_null = true ∧
        w.device.offscreen_flush_pending_ = false ∧ w.posted_tasks = []) ∨
      (w.device.unpainted_flush_callback_.is_null = true ∧
        w.device.painted_flush_callback_.is_null = false ∧
        w.device.offscreen_flush_pending_ = false ∧ w.posted_tasks = []) ∨
      (w.device.unpainted_flush_callback_.is_null = true ∧
        w.device.painted_flush_callback_.is_null = true ∧
        w.device.offscreen_flush_pending_ = true ∧ ∃ t, w.posted_tasks = [t]) := by
  have hinv : w.pendingInvariant := by
    rw [hw]
    exact pendingInvariant_run ops _ (pendingInvariant_initial backing images clip)
  rw [pendingInvariant_iff] at hinv
  rcases hinv with ⟨a, b, c, d⟩ | ⟨a, b, c, d⟩ | ⟨a, b, c, d⟩ | ⟨a, b, c, d⟩
  · exact Or.inl ⟨a, b, c, List.length_eq_zero.mp d⟩
  · exact Or.inr (Or.inl ⟨a, b, c, List.length_eq_zero.mp d⟩)
  · exact Or.inr (Or.inr (Or.inl ⟨a, b, c, List.length_eq_zero.mp d⟩))
  · exact Or.inr (Or.inr (Or.inr ⟨a, b, c, List.length_eq_one.mp d⟩))

/-- C23: in every state reached from a freshly created device in which the
device is bound and a callback is held in the unpainted or the painted slot,
BindToInstance(NULL) returns true, leaves the device unbound with both slots
empty, invokes nothing, sets the offscreen flag and posts exactly one task,
carrying that callback; a flush is still pending, and when the posted task
runs the callback is invoked with the success code. -/
theorem C23_unbind_reschedules (backing : ImageData)
    (images : PP_Resource → Option ImageData) (clip : PluginInstance → Rect)
    (ops : List Operation) (w : World) (host : PluginInstance)
    (data : FlushCallbackData)
    (hw : w = (World.initial backing images clip).run ops)
    (hbound : w.device.bound_instance_ = some host)
    (hdata : data.is_null = false)
    (hheld : w.device.unpainted_flush_callback_ = data ∨
      w.device.painted_flush_callback_ = data) :
    (BindToInstance w none).1 = true ∧
    (BindToInstance w none).2.device.bound_instance_ = none ∧
    (BindToInstance w none).2.device.unpainted_flush_callback_.is_null = true ∧
    (BindToInstance w none).2.device.painted_flush_callback_.is_null = true ∧
    (BindToInstance w none).2.callbacks_run = w.callbacks_run ∧
    (BindToInstance w none).2.device.offscreen_flush_pending_ = true ∧
    (BindToInstance w none).2.posted_tasks = [data] ∧
    HasPendingFlush (BindToInstance w none).2.device = true ∧
    (RunPostedTask (BindToInstance w none).2).callbacks_run =
      w.callbacks_run ++ [⟨data.callback_, PP_OK, false⟩] := by
  have hb : w.device.bound_instance_ ≠ none := by rw [hbound]; simp
  obtain ⟨hu, hp, ho, ht, h1, h2, _, _, _, _, hc, _⟩ := unbind_fields w hb
  have hfacts : (BindToInstance w none).2.device.offscreen_flush_pending_ = true ∧
      (BindToInstance w none).2.posted_tasks = [data] := by
    rw [ho, ht]
    rcases hheld with h | h
    · have hn : w.device.unpainted_flush_callback_.is_null = false := by
        rw [h]; exact hdata
      rcases reachable_cases backing images clip ops w hw with
        ⟨a, b, c, d⟩ | ⟨a, b, c, d⟩ | ⟨a, b, c, d⟩ | ⟨a, b, c, d⟩
      · rw [a] at hn; cases hn
      · simp [hn, b, c, d, h, hdata]
      · rw [a] at hn; cases hn
      · rw [a] at hn; cases hn
    · have hn : w.device.painted_flush_callback_.is_null = false := by
        rw [h]; exact hdata
      rcases reachable_cases backing images clip ops w hw with
        ⟨a, b, c, d⟩ | ⟨a, b, c, d⟩ | ⟨a, b, c, d⟩ | ⟨a, b, c, d⟩
      · rw [b] at hn; cases hn
      · rw [b] at hn; cases hn
      · simp [hn, a, c, d, h, hdata]
      · rw [b] at hn; cases hn
  obtain ⟨ho2, ht2⟩ := hfacts
  refine ⟨h1, h2, hu, hp, hc, ho2, ht2, ?_, ?_⟩
  · unfold HasPendingFlush
    simp [ho2]
  · unfold RunPostedTask
    rw [ht2]
    dsimp only
    unfold ExecuteOffscreenCallback Execute World.dcheck HasPendingFlush
    simp [ho2, hu, hp, hc]

/-- Witness for C23: the 4 x 4 pattern device bound to host 1 has flushed one
visible Paint, so that its callback sits in the unpainted slot. -/
theorem C23_unbind_reschedules_witness :
    ((patternWorld.run [.bind (some 1), .paint 1 1 1 none,
        .flush ⟨some 7, 0⟩]).device.bound_instance_ = some 1 ∧
      (patternWorld.run [.bind (some 1), .paint 1 1 1 none,
        .flush ⟨some 7, 0⟩]).device.unpainted_flush_callback_ = ⟨⟨some 7, 0⟩⟩) ∧
    (BindToInstance (patternWorld.run [.bind (some 1), .paint 1 1 1 none,
        .flush ⟨some 7, 0⟩]) none).2.posted_tasks = [⟨⟨some 7, 0⟩⟩] ∧
    (RunPostedTask (BindToInstance (patternWorld.run [.bind (some 1), .paint 1 1 1 none,
        .flush ⟨some 7, 0⟩]) none).2).callbacks_run =
      (patternWorld.run [.bind (some 1), .paint 1 1 1 none,
        .flush ⟨some 7, 0⟩]).callbacks_run ++
        [⟨(FlushCallbackData.mk ⟨some 7, 0⟩).callback_, PP_OK, false⟩] :=
  ⟨by decide,
   (C23_unbind_reschedules (sampleImage 4 4) _ _
      [.bind (some 1), .paint 1 1 1 none, .flush ⟨some 7, 0⟩] _ 1 ⟨⟨some 7, 0⟩⟩
      rfl (by decide) (by decide) (Or.inl (by decide))).2.2.2.2.2.2.1,
   (C23_unbind_reschedules (sampleImage 4 4) _ _
      [.bind (some 1), .paint 1 1 1 none, .flush ⟨some 7, 0⟩] _ 1 ⟨⟨some 7, 0⟩⟩
      rfl (by decide) (by decide) (Or.inl (by decide))).2.2.2.2.2.2.2.2⟩

/-- Binding a host never changes the flushed-any-data flag. -/
theorem bind_host_flushed (w : World) (host : PluginInstance) :
    (BindToInstance w (some host)).2.device.flushed_any_data_ =
      w.device.flushed_any_data_ := by
  unfold BindToInstance
  by_cases h1 : w.device.bound_instance_ = some host
  · simp [h1]
  · rw [if_neg h1]
    by_cases h2 : w.device.bound_instance_.isSome = true ∧ (some host).isSome = true
    · simp [h2]
    · rw [if_neg h2]
      dsimp only
      split_ifs <;> simp [World.InvalidateRect]

/-- Binding a host to an unbound device: the call succeeds, the host is bound
and it is sent one request with the empty rectangle if data has been flushed,
none otherwise. -/
theorem bind_unbound_fields (w : World) (host : PluginInstance)
    (hunbound : w.device.bound_instance_ = none) :
    (BindToInstance w (some host)).1 = true ∧
    (BindToInstance w (some host)).2.device.bound_instance_ = some host ∧
    (BindToInstance w (some host)).2.invalidated =
      (if w.device.flushed_any_data_ then w.invalidated ++ [(host, Rect.empty)]
        else w.invalidated) := by
  unfold BindToInstance
  simp only [hunbound, Option.isSome_none, Bool.false_eq_true, false_and, if_false]
  rw [if_neg (by simp)]
  dsimp only
  split_ifs <;> simp [World.InvalidateRect]

/-- The flushed-any-data flag after one operation: set if it was set or the
operation is an accepted Flush. -/
theorem flushed_apply (w : World) (op : Operation) :
    (w.apply op).device.flushed_any_data_ =
      (w.device.flushed_any_data_ || !(w.acceptedBy op).isEmpty) := by
  cases op with
  | paint image x y src_rect =>
    rcases paint_world w image x y src_rect with h | ⟨o, h⟩ <;>
      simp [World.apply, h, World.acceptedBy, World.push_back]
  | scroll clip_rect dx dy =>
    rcases scroll_world w clip_rect dx dy with h | ⟨o, h⟩ <;>
      simp [World.apply, h, World.acceptedBy, World.push_back]
  | replace image =>
    rcases replace_world w image with h | ⟨o, h⟩ <;>
      simp [World.apply, h, World.acceptedBy, World.push_back]
  | read image x y =>
    obtain ⟨imgs, h⟩ := read_world w image x y
    simp [World.apply, h, World.acceptedBy]
  | flush callback =>
    simp only [World.apply, World.acceptedBy]
    by_cases hidle : HasPendingFlush w.device = false
    · by_cases hcb : callback.func = none
      · rw [flush_bad_argument_world w callback hidle hcb,
          flush_bad_argument_code w callback hidle hcb]
        simp [PP_Error_BadArgument, PP_Error_WouldBlock]
      · rw [flush_accepted_code w callback hidle hcb, flush_accepted w callback hidle hcb,
          if_pos rfl]
        cases w.device.bound_instance_ with
        | none => simp [schedule_fields, World.afterFlushLoop]
        | some bound =>
          dsimp only
          split_ifs
          · simp [World.InvalidateRect, World.afterFlushLoop]
          · simp [schedule_fields, World.afterFlushLoop]
    · have hpend : HasPendingFlush w.device = true := by simpa using hidle
      simp [Flush, hpend, PP_Error_InProgress, PP_Error_WouldBlock]
  | bind new_instance =>
    simp only [World.apply, World.acceptedBy, List.isEmpty_nil, Bool.not_true,
      Bool.or_false]
    cases new_instance with
    | none =>
      by_cases hb : w.device.bound_instance_ = none
      · simp only [BindToInstance, hb, if_true]
      · exact (unbind_fields w hb).2.2.2.2.2.2.2.2.1
    | some host => exact bind_host_flushed w host
  | viewInitiatedPaint =>
    simp only [World.apply, World.acceptedBy, List.isEmpty_nil, Bool.not_true,
      Bool.or_false]
    unfold ViewInitiatedPaint World.dcheck
    split_ifs <;> rfl
  | viewFlushedPaint =>
    simp only [World.apply, World.acceptedBy, List.isEmpty_nil, Bool.not_true,
      Bool.or_false]
    unfold ViewFlushedPaint Execute
    split_ifs <;> rfl
  | runPostedTask =>
    simp only [World.apply, World.acceptedBy, List.isEmpty_nil, Bool.not_true,
      Bool.or_false]
    unfold RunPostedTask
    cases w.posted_tasks with
    | nil => rfl
    | cons t rest =>
      dsimp only
      unfold ExecuteOffscreenCallback Execute World.dcheck
      split_ifs <;> rfl

/-- The flushed-any-data flag after a sequence of operations: set if it was
set or a Flush of the sequence has been accepted. -/
theorem flushed_run (ops : List Operation) :
    ∀ w : World, (w.run ops).device.flushed_any_data_ =
      (w.device.flushed_any_data_ || !(w.acceptedCallbacks ops).isEmpty) := by
  induction ops with
  | nil => intro w; simp [World.run, World.acceptedCallbacks]
  | cons op rest ih =>
    intro w
    simp only [World.run, World.acceptedCallbacks]
    rw [ih, flushed_apply]
    cases w.device.flushed_any_data_ <;> cases (w.acceptedBy op) <;> simp

/-- C24: in every state reached from a freshly created device in which the
device is unbound, BindToInstance with a host returns true and binds the
host; if no Flush has been accepted so far the host receives no invalidate
request, and if a Flush has been accepted the host receives exactly one
request, made with the empty rectangle, which asks for the whole buffer. -/
theorem C24_bind_unbound (backing : ImageData)
    (images : PP_Resource → Option ImageData) (clip : PluginInstance → Rect)
    (ops : List Operation) (w : World) (host : PluginInstance)
    (hw : w = (World.initial backing images clip).run ops)
    (hunbound : w.device.bound_instance_ = none) :
    (BindToInstance w (some host)).1 = true ∧
    (BindToInstance w (some host)).2.device.bound_instance_ = some host ∧
    ((World.initial backing images clip).acceptedCallbacks ops = [] →
      (BindToInstance w (some host)).2.invalidated = w.invalidated) ∧
    ((World.initial backing images clip).acceptedCallbacks ops ≠ [] →
      (BindToInstance w (some host)).2.invalidated =
          w.invalidated ++ [(host, Rect.empty)] ∧
        requestedArea ⟨0, 0, w.device.image_data_.width, w.device.image_data_.height⟩
          Rect.empty =
          ⟨0, 0, w.device.image_data_.width, w.device.image_data_.height⟩) := by
  obtain ⟨h1, h2, h3⟩ := bind_unbound_fields w host hunbound
  have hflag : w.device.flushed_any_data_ =
      !((World.initial backing images clip).acceptedCallbacks ops).isEmpty := by
    rw [hw, flushed_run]
    simp [World.initial, DeviceContext2D.fresh]
  refine ⟨h1, h2, ?_, ?_⟩
  · intro hnone
    rw [h3, hflag, hnone]
    simp
  · intro hsome
    refine ⟨?_, rfl⟩
    rw [h3, hflag]
    cases hacc : (World.initial backing images clip).acceptedCallbacks ops with
    | nil => exact absurd hacc hsome
    | cons c rest => simp

/-- Witness for C24: the unbound 4 x 4 pattern device after one accepted Flush
whose posted task has run, bound to host 1. -/
theorem C24_bind_unbound_witness :
    (patternWorld.run [.flush ⟨some 7, 0⟩, .runPostedTask]).device.bound_instance_ = none ∧
    (BindToInstance (patternWorld.run [.flush ⟨some 7, 0⟩, .runPostedTask])
      (some 1)).2.invalidated = [(1, Rect.empty)] ∧
    (BindToInstance (patternWorld.run [.flush ⟨some 7, 0⟩, .runPostedTask])
      (some 1)).1 = true :=
  ⟨by decide, by decide,
   (C24_bind_unbound (sampleImage 4 4) _ _ [.flush ⟨some 7, 0⟩, .runPostedTask] _ 1
    rfl (by decide)).1⟩

/-! ## The paint checkpoints -/

/-- C25: in every state reached from a freshly created device,
ViewInitiatedPaint moves a callback held in the unpainted slot to the painted
slot, which was empty, so that the assertion guarding the move holds, and
leaves the unpainted slot empty; with an empty unpainted slot it changes
nothing. In both cases no callback is invoked and HasPendingFlush keeps its
value. -/
theorem C25_view_initiated_paint (backing : ImageData)
    (images : PP_Resource → Option ImageData) (clip : PluginInstance → Rect)
    (ops : List Operation) (w : World)
    (hw : w = (World.initial backing images clip).run ops) :
    (w.device.unpainted_flush_callback_.is_null = false →
      (ViewInitiatedPaint w).device.painted_flush_callback_ =
        w.device.unpainted_flush_callback_ ∧
      (ViewInitiatedPaint w).device.unpainted_flush_callback_.is_null = true ∧
      w.device.painted_flush_callback_.is_null = true ∧
      (ViewInitiatedPaint w).failed_dchecks = w.failed_dchecks) ∧
    (w.device.unpainted_flush_callback_.is_null = true → ViewInitiatedPaint w = w) ∧
    (ViewInitiatedPaint w).callbacks_run = w.callbacks_run ∧
    HasPendingFlush (ViewInitiatedPaint w).device = HasPendingFlush w.device := by
  unfold ViewInitiatedPaint World.dcheck HasPendingFlush
  rcases reachable_cases backing images clip ops w hw with
    ⟨a, b, c, d⟩ | ⟨a, b, c, d⟩ | ⟨a, b, c, d⟩ | ⟨a, b, c, d⟩ <;>
    simp [a, b, c]

/-- Witness for C25: the 4 x 4 pattern device bound to host 1 with the
callback of a visible flush in the unpainted slot. -/
theorem C25_view_initiated_paint_witness :
    (patternWorld.run [.bind (some 1), .paint 1 1 1 none,
      .flush ⟨some 7, 0⟩]).device.unpainted_flush_callback_.is_null = false ∧
    (ViewInitiatedPaint (patternWorld.run [.bind (some 1), .paint 1 1 1 none,
      .flush ⟨some 7, 0⟩])).device.painted_flush_callback_ =
        (patternWorld.run [.bind (some 1), .paint 1 1 1 none,
          .flush ⟨some 7, 0⟩]).device.unpainted_flush_callback_ :=
  ⟨by decide,
   ((C25_view_initiated_paint (sampleImage 4 4) _ _
      [.bind (some 1), .paint 1 1 1 none, .flush ⟨some 7, 0⟩] _ rfl).1 (by decide)).1⟩

/-- C26: in every state reached from a freshly created device in which the
painted slot holds a callback, ViewFlushedPaint empties the painted slot and
then invokes that callback exactly once, with the success code and with
HasPendingFlush false at the moment of the invocation; afterwards no flush is
pending, so that a Flush is never rejected as in progress and one with a
callback is accepted. -/
theorem C26_view_flushed_paint (backing : ImageData)
    (images : PP_Resource → Option ImageData) (clip : PluginInstance → Rect)
    (ops : List Operation) (w : World)
    (hw : w = (World.initial backing images clip).run ops)
    (hpainted : w.device.painted_flush_callback_.is_null = false) :
    (ViewFlushedPaint w).device.painted_flush_callback_ = FlushCallbackData.cleared ∧
    (ViewFlushedPaint w).callbacks_run = w.callbacks_run ++
      [⟨w.device.painted_flush_callback_.callback_, PP_OK, false⟩] ∧
    HasPendingFlush (ViewFlushedPaint w).device = false ∧
    (∀ callback, (Flush (ViewFlushedPaint w) callback).1 ≠ PP_Error_InProgress) ∧
    (∀ callback, callback.func ≠ none →
      (Flush (ViewFlushedPaint w) callback).1 = PP_Error_WouldBlock) := by
  have hfacts : w.device.unpainted_flush_callback_.is_null = true ∧
      w.device.offscreen_flush_pending_ = false := by
    rcases reachable_cases backing images clip ops w hw with
      ⟨a, b, c, d⟩ | ⟨a, b, c, d⟩ | ⟨a, b, c, d⟩ | ⟨a, b, c, d⟩
    · rw [b] at hpainted; cases hpainted
    · rw [b] at hpainted; cases hpainted
    · exact ⟨a, c⟩
    · rw [b] at hpainted; cases hpainted
  obtain ⟨hu, ho⟩ := hfacts
  have hidle : HasPendingFlush (ViewFlushedPaint w).device = false := by
    unfold ViewFlushedPaint Execute HasPendingFlush
    simp [hpainted, hu, ho, cleared_is_null]
  refine ⟨?_, ?_, hidle, ?_, ?_⟩
  · unfold ViewFlushedPaint Execute
    simp [hpainted]
  · unfold ViewFlushedPaint Execute HasPendingFlush
    simp [hpainted, hu, ho, cleared_is_null]
  · intro callback
    by_cases hcb : callback.func = none
    · rw [flush_bad_argument_code _ callback hidle hcb]
      decide
    · rw [flush_accepted_code _ callback hidle hcb]
      decide
  · intro callback hcb
    exact flush_accepted_code _ callback hidle hcb

/-- Witness for C26: the 4 x 4 pattern device bound to host 1 after a visible
flush and the beginning of the host's paint. -/
theorem C26_view_flushed_paint_witness :
    (patternWorld.run [.bind (some 1), .paint 1 1 1 none, .flush ⟨some 7, 0⟩,
      .viewInitiatedPaint]).device.painted_flush_callback_.is_null = false ∧
    (ViewFlushedPaint (patternWorld.run [.bind (some 1), .paint 1 1 1 none,
      .flush ⟨some 7, 0⟩, .viewInitiatedPaint])).callbacks_run =
      (patternWorld.run [.bind (some 1), .paint 1 1 1 none, .flush ⟨some 7, 0⟩,
        .viewInitiatedPaint]).callbacks_run ++
        [⟨(patternWorld.run [.bind (some 1), .paint 1 1 1 none, .flush ⟨some 7, 0⟩,
          .viewInitiatedPaint]).device.painted_flush_callback_.callback_, PP_OK, false⟩] :=
  ⟨by decide,
   (C26_view_flushed_paint (sampleImage 4 4) _ _
      [.bind (some 1), .paint 1 1 1 none, .flush ⟨some 7, 0⟩, .viewInitiatedPaint] _
      rfl (by decide)).2.1⟩

/-- A Flush while a flush is pending is rejected and changes nothing. -/
theorem flush_rejected (w : World) (callback : PP_CompletionCallback)
    (hpending : HasPendingFlush w.device = true) :
    Flush w callback = (PP_Error_InProgress, w) := by
  unfold Flush
  simp [hpending]

/-- C27: along every sequence of operations from a freshly created device the
callbacks of the accepted Flush calls, in order, are the callbacks invoked so
far followed by the callbacks held (in a slot or in a posted task): none is
invoked twice or lost. The number of accepted Flush calls is the number of
invocations plus the number held, which is 0 or 1, and a second Flush right
after an accepted one is rejected as in progress and changes nothing. -/
theorem C27_callbacks_accounted (backing : ImageData)
    (images : PP_Resource → Option ImageData) (clip : PluginInstance → Rect)
    (ops : List Operation) (w : World)
    (hw : w = (World.initial backing images clip).run ops) :
    (World.initial backing images clip).acceptedCallbacks ops =
      w.invokedCallbacks ++ w.heldCallbacks ∧
    ((World.initial backing images clip).acceptedCallbacks ops).length =
      w.callbacks_run.length + w.heldCallbacks.length ∧
    w.heldCallbacks.length ≤ 1 ∧
    (∀ first second : PP_CompletionCallback,
      (Flush w first).1 = PP_Error_WouldBlock →
      Flush (Flush w first).2 second = (PP_Error_InProgress, (Flush w first).2)) := by
  have hledger := ledger_run ops _ (pendingInvariant_initial backing images clip)
  rw [← hw] at hledger
  have hacc : (World.initial backing images clip).acceptedCallbacks ops =
      w.invokedCallbacks ++ w.heldCallbacks := by
    rw [hledger]
    simp [World.initial, World.invokedCallbacks, World.heldCallbacks,
      DeviceContext2D.fresh, cleared_is_null]
  refine ⟨hacc, ?_, ?_, ?_⟩
  · rw [hacc]
    simp [World.invokedCallbacks]
  · unfold World.heldCallbacks
    rcases reachable_cases backing images clip ops w hw with
      ⟨a, b, c, d⟩ | ⟨a, b, c, d⟩ | ⟨a, b, c, d⟩ | ⟨a, b, c, ⟨t, d⟩⟩ <;>
      simp [a, b, d]
  · intro first second haccepted
    have hidle : HasPendingFlush w.device = false := by
      by_contra hne
      have hpend : HasPendingFlush w.device = true := by simpa using hne
      simp [Flush, hpend, PP_Error_InProgress, PP_Error_WouldBlock] at haccepted
    have hcb : first.func ≠ none := by
      intro hnull
      rw [flush_bad_argument_code w first hidle hnull] at haccepted
      simp [PP_Error_BadArgument, PP_Error_WouldBlock] at haccepted
    exact flush_rejected _ second (pending_after_flush w first hidle hcb)

/-- Witness for C27: two Flush calls in a row on the unbound 4 x 4 pattern
device, the posted task, and a third Flush. -/
theorem C27_callbacks_accounted_witness :
    (World.initial (sampleImage 4 4) patternWorld.images
        patternWorld.clip).acceptedCallbacks
      [.flush ⟨some 7, 0⟩, .flush ⟨some 8, 0⟩, .runPostedTask, .flush ⟨some 9, 0⟩] =
      [⟨some 7, 0⟩, ⟨some 9, 0⟩] ∧
    (World.initial (sampleImage 4 4) patternWorld.images
        patternWorld.clip).acceptedCallbacks
      [.flush ⟨some 7, 0⟩, .flush ⟨some 8, 0⟩, .runPostedTask, .flush ⟨some 9, 0⟩] =
      (patternWorld.run [.flush ⟨some 7, 0⟩, .flush ⟨some 8, 0⟩, .runPostedTask,
        .flush ⟨some 9, 0⟩]).invokedCallbacks ++
      (patternWorld.run [.flush ⟨some 7, 0⟩, .flush ⟨some 8, 0⟩, .runPostedTask,
        .flush ⟨some 9, 0⟩]).heldCallbacks :=
  ⟨by decide,
   (C27_callbacks_accounted (sampleImage 4 4) patternWorld.images patternWorld.clip
      [.flush ⟨some 7, 0⟩, .flush ⟨some 8, 0⟩, .runPostedTask, .flush ⟨some 9, 0⟩] _
      rfl).1⟩

/-! ## Creation, inspection and read-back -/

/-- Describe after a successful Init reports the width and the height the
device was created with, and false for the opacity whatever was asked for. -/
theorem describe_after_init (valid : Int → Int → Bool) (width height : Int)
    ( is_always_opaque : Bool) (d : DeviceContext2D)
    (hinit : DeviceContext2D.Init valid width height is_always_opaque = some d) :
    Describe d = (true, width, height, false) := by
  unfold DeviceContext2D.Init ImageData.Init at hinit
  split_ifs at hinit
  simp only [Option.some.injEq] at hinit
  rw [← hinit]
  rfl

/-- C28 (the code at the failing input): a device created as 4 x 4 with
is_always_opaque = true describes as (4, 4, false), just as one created with
is_always_opaque = false does. -/
theorem C28_describe_drops_opacity :
    (DeviceContext2D.Init positiveSize 4 4 true).map Describe =
      some (true, 4, 4, false) ∧
    (DeviceContext2D.Init positiveSize 4 4 false).map Describe =
      some (true, 4, 4, false) ∧
    (DeviceContext2D.Init positiveSize 4 4 true).map Describe ≠
      some (true, 4, 4, true) := by
  decide

/-- C29: for a live, mappable destination image of size w x h and 32-bit
arguments, ReadImageData returns true exactly when the image is BGRA
premultiplied and the rectangle of its size at (x, y) lies inside the W x H
backing store, the sums being taken over the integers; when it returns true
every image pixel (i, j) is the backing-store pixel (x + i, y + j); in every
case the device itself is unchanged. -/
theorem C29_read_image_data (w : World) (image : PP_Resource) (img : ImageData)
    (x y : Int)
    (himg : w.images image = some img) (hmap : img.mappable = true)
    (hx : isInt32 x) (hy : isInt32 y)
    (hiw : isInt32 img.width) (hih : isInt32 img.height)
    (hW : isInt32 w.device.image_data_.width)
    (hH : isInt32 w.device.image_data_.height) :
    ((ReadImageData w image x y).1 = true ↔
      (img.format = PP_IMAGEDATAFORMAT_BGRA_PREMUL ∧
        0 ≤ x ∧ x + img.width ≤ w.device.image_data_.width ∧
        0 ≤ y ∧ y + img.height ≤ w.device.image_data_.height)) ∧
    ((ReadImageData w image x y).1 = true →
      ∃ after, (ReadImageData w image x y).2.images image = some after ∧
        ∀ i j, 0 ≤ i → i < img.width → 0 ≤ j → j < img.height →
          after.pixels i j = w.device.image_data_.pixels (x + i) (y + j)) ∧
    (ReadImageData w image x y).2.device = w.device := by
  have e1 := add64_of_isInt32 _ _ hx hiw
  have e2 := add64_of_isInt32 _ _ hy hih
  unfold isInt32 at hx hy hiw hih hW hH
  unfold ReadImageData
  simp only [himg, e1, e2, hmap, Bool.not_true, Bool.false_eq_true, if_false]
  by_cases hf : img.format ≠ PP_IMAGEDATAFORMAT_BGRA_PREMUL
  · simp [hf]
  · have hf2 : img.format = PP_IMAGEDATAFORMAT_BGRA_PREMUL := by simpa using hf
    rw [if_neg hf]
    by_cases hxx : x < 0 ∨ x + img.width > w.device.image_data_.width
    · rw [if_pos hxx]
      simp only [Bool.false_eq_true, false_iff, false_imp_iff, and_true, true_and]
      omega
    · rw [if_neg hxx]
      by_cases hyy : y < 0 ∨ y + img.height > w.device.image_data_.height
      · rw [if_pos hyy]
        simp only [Bool.false_eq_true, false_iff, false_imp_iff, and_true, true_and]
        omega
      · rw [if_neg hyy]
        have a1 : add32 x img.width = x + img.width := by unfold add32 wrap32; omega
        have a2 : add32 y img.height = y + img.height := by unfold add32 wrap32; omega
        refine ⟨⟨fun _ => ⟨hf2, by omega⟩, fun _ => rfl⟩, fun _ => ?_, rfl⟩
        refine ⟨drawBitmapRect img w.device.image_data_
          ⟨x, y, add32 x img.width, add32 y img.height⟩ ⟨0, 0, img.width, img.height⟩,
          by simp [setImage], ?_⟩
        intro i j hi0 hi1 hj0 hj1
        simp only [drawBitmapRect, a1, a2]
        rw [if_pos (by omega)]
        congr 1 <;> omega

/-- Witness for C29: the all-zero 2 x 2 image behind handle 2 read back from
(1, 1) of the 4 x 4 pattern device. -/
theorem C29_read_image_data_witness :
    (ReadImageData patternWorld 2 1 1).1 = true ∧
    (ReadImageData patternWorld 2 1 1).2.device = patternWorld.device :=
  ⟨((C29_read_image_data patternWorld 2 (sampleImage 2 2) 1 1 rfl rfl (by decide)
      (by decide) (by decide) (by decide) (by decide) (by decide)).1).2 (by decide),
   (C29_read_image_data patternWorld 2 (sampleImage 2 2) 1 1 rfl rfl (by decide)
      (by decide) (by decide) (by decide) (by decide) (by decide)).2.2⟩

/-- An enqueue call changes at most the queue. -/
theorem enqueue_apply (w : World) (op : Operation) (hop : op.isEnqueue = true) :
    ∃ q, w.apply op = w.withQueue q := by
  cases op with
  | paint image x y src_rect =>
    rcases paint_world w image x y src_rect with h | ⟨o, h⟩
    · exact ⟨w.device.queued_operations_, by simp only [World.apply, h]; rfl⟩
    · exact ⟨_, by simp only [World.apply, h]; rfl⟩
  | scroll clip_rect dx dy =>
    rcases scroll_world w clip_rect dx dy with h | ⟨o, h⟩
    · exact ⟨w.device.queued_operations_, by simp only [World.apply, h]; rfl⟩
    · exact ⟨_, by simp only [World.apply, h]; rfl⟩
  | replace image =>
    rcases replace_world w image with h | ⟨o, h⟩
    · exact ⟨w.device.queued_operations_, by simp only [World.apply, h]; rfl⟩
    · exact ⟨_, by simp only [World.apply, h]; rfl⟩
  | flush _ => simp [Operation.isEnqueue] at hop
  | read _ _ _ => simp [Operation.isEnqueue] at hop
  | bind _ => simp [Operation.isEnqueue] at hop
  | viewInitiatedPaint => simp [Operation.isEnqueue] at hop
  | viewFlushedPaint => simp [Operation.isEnqueue] at hop
  | runPostedTask => simp [Operation.isEnqueue] at hop

/-- A run of enqueue calls changes at most the queue. -/
theorem enqueue_run (ops : List Operation) :
    ∀ w : World, (∀ op ∈ ops, op.isEnqueue = true) → ∃ q, w.run ops = w.withQueue q := by
  induction ops with
  | nil => intro w _; exact ⟨w.device.queued_operations_, rfl⟩
  | cons op rest ih =>
    intro w hops
    obtain ⟨q1, h1⟩ := enqueue_apply w op (hops op (List.mem_cons_self _ _))
    obtain ⟨q2, h2⟩ := ih (w.apply op) (fun o ho => hops o (List.mem_cons_of_mem _ ho))
    refine ⟨q2, ?_⟩
    simp only [World.run]
    rw [h2, h1]
    rfl

/-- ReadImageData does not look at the queue. -/
theorem read_withQueue (w : World) (q : List QueuedOperation) (image : PP_Resource)
    (x y : Int) :
    (ReadImageData (w.withQueue q) image x y).1 = (ReadImageData w image x y).1 ∧
    (ReadImageData (w.withQueue q) image x y).2.images =
      (ReadImageData w image x y).2.images := by
  unfold ReadImageData World.withQueue
  dsimp only
  cases w.images image with
  | none => exact ⟨rfl, rfl⟩
  | some img =>
    dsimp only
    split_ifs <;> exact ⟨rfl, rfl⟩

/-- C30: a run of PaintImageData, Scroll and ReplaceContents calls changes at
most the queue: the backing store, the bound host, the flushed-any-data flag,
both callback slots and the offscreen flag are unchanged, no invalidate
request is sent, no task is posted and no callback is invoked; ReadImageData
after the run returns what it returns before the run and leaves the same
images. -/
theorem C30_enqueue_changes_only_queue (w : World) (ops : List Operation)
    (hops : ∀ op ∈ ops, op.isEnqueue = true) :
    (w.run ops).device.image_data_ = w.device.image_data_ ∧
    (w.run ops).device.bound_instance_ = w.device.bound_instance_ ∧
    (w.run ops).device.flushed_any_data_ = w.device.flushed_any_data_ ∧
    (w.run ops).device.unpainted_flush_callback_ = w.device.unpainted_flush_callback_ ∧
    (w.run ops).device.painted_flush_callback_ = w.device.painted_flush_callback_ ∧
    (w.run ops).device.offscreen_flush_pending_ = w.device.offscreen_flush_pending_ ∧
    (w.run ops).invalidated = w.invalidated ∧
    (w.run ops).posted_tasks = w.posted_tasks ∧
    (w.run ops).callbacks_run = w.callbacks_run ∧
    (w.run ops).images = w.images ∧
    (∀ image x y,
      (ReadImageData (w.run ops) image x y).1 = (ReadImageData w image x y).1 ∧
      (ReadImageData (w.run ops) image x y).2.images =
        (ReadImageData w image x y).2.images) := by
  obtain ⟨q, hq⟩ := enqueue_run ops w hops
  rw [hq]
  exact ⟨rfl, rfl, rfl, rfl, rfl, rfl, rfl, rfl, rfl, rfl,
    fun image x y => read_withQueue w q image x y⟩

/-- Witness for C30: a Paint, a Scroll and a Replace on the 4 x 4 pattern
device. -/
theorem C30_enqueue_changes_only_queue_witness :
    (patternWorld.run [.paint 1 1 1 none, .scroll none 1 1,
      .replace 3]).device.queued_operations_.length = 3 ∧
    (patternWorld.run [.paint 1 1 1 none, .scroll none 1 1,
      .replace 3]).device.image_data_ = patternWorld.device.image_data_ :=
  ⟨by decide,
   (C30_enqueue_changes_only_queue patternWorld
      [.paint 1 1 1 none, .scroll none 1 1, .replace 3] (by decide)).1⟩

/-! ## Scroll execution and the assertions -/

/-- C32: executing a queued Scroll operation moves no pixels: for every clip
rectangle, dx and dy the backing store after the step is the backing store
before it, and so are the image resources. -/
theorem C32_execute_scroll_keeps_pixels (backing : ImageData) (clip inv0 : Rect)
    (dx dy : Int) (p : FlushProgress) :
    (ExecuteScroll backing clip dx dy inv0).1 = backing ∧
    (ExecuteOperation p (scrollOperation clip dx dy)).backing = p.backing ∧
    (ExecuteOperation p (scrollOperation clip dx dy)).images = p.images :=
  ⟨rfl, rfl, rfl⟩

/-- C33 (the code at the failing input): on the 4 x 4 pattern device bound to
host 1, which shows (0, 0, 4, 4), a queued Scroll with the clip rectangle
(0, 0, 4, 4) reports the empty rectangle when executed; the Flush of that
queue accumulates an empty changed rectangle, sends the host no invalidate
request and schedules its callback off-cycle. -/
theorem C33_scroll_reports_nothing :
    (patternWorld.run [.bind (some 1), .scroll none 1 1]).device.queued_operations_ =
      [scrollOperation ⟨0, 0, 4, 4⟩ 1 1] ∧
    (ExecuteScroll (sampleImage 4 4) ⟨0, 0, 4, 4⟩ 1 1 Rect.empty).2 = Rect.empty ∧
    (patternWorld.run [.bind (some 1), .scroll none 1 1]).changedRect = Rect.empty ∧
    (Flush (patternWorld.run [.bind (some 1), .scroll none 1 1])
      ⟨some 7, 0⟩).2.invalidated = [] ∧
    (Flush (patternWorld.run [.bind (some 1), .scroll none 1 1])
      ⟨some 7, 0⟩).2.posted_tasks = [⟨⟨some 7, 0⟩⟩] := by
  decide

/-- C34 (the code at the failing input): the 4 x 4 pattern device bound to
host 1 holds the callback of a visible flush in its unpainted slot and no
assertion has failed; BindToInstance(NULL) then enters
ScheduleOffscreenCallback while HasPendingFlush is still true, and the
assertion at its start fails. -/
theorem C34_unbind_breaks_schedule_assertion :
    HasPendingFlush (patternWorld.run [.bind (some 1), .paint 1 1 1 none,
      .flush ⟨some 7, 0⟩]).device = true ∧
    (patternWorld.run [.bind (some 1), .paint 1 1 1 none,
      .flush ⟨some 7, 0⟩]).failed_dchecks = [] ∧
    (BindToInstance (patternWorld.run [.bind (some 1), .paint 1 1 1 none,
      .flush ⟨some 7, 0⟩]) none).2.failed_dchecks = [.schedule_no_pending_flush] := by
  decide

/-- C35: in every state reached from a freshly created device the offscreen
flag is set exactly when one posted task is outstanding, there is never more
than one, and the assertion at the start of ExecuteOffscreenCallback holds
whenever the posted task runs: running it records no failed assertion. -/
theorem C35_flag_iff_one_task (backing : ImageData)
    (images : PP_Resource → Option ImageData) (clip : PluginInstance → Rect)
    (ops : List Operation) (w : World)
    (hw : w = (World.initial backing images clip).run ops) :
    (w.device.offscreen_flush_pending_ = true ↔ w.posted_tasks.length = 1) ∧
    w.posted_tasks.length ≤ 1 ∧
    (RunPostedTask w).failed_dchecks = w.failed_dchecks := by
  rcases reachable_cases backing images clip ops w hw with
    ⟨a, b, c, d⟩ | ⟨a, b, c, d⟩ | ⟨a, b, c, d⟩ | ⟨a, b, c, ⟨t, d⟩⟩
  · simp [c, d, RunPostedTask]
  · simp [c, d, RunPostedTask]
  · simp [c, d, RunPostedTask]
  · simp [c, d, RunPostedTask, ExecuteOffscreenCallback, Execute, World.dcheck]

/-- Witness for C35: the unbound 4 x 4 pattern device right after an accepted
Flush, whose task is posted. -/
theorem C35_flag_iff_one_task_witness :
    (patternWorld.run [.flush ⟨some 7, 0⟩]).posted_tasks.length = 1 ∧
    ((patternWorld.run [.flush ⟨some 7, 0⟩]).device.offscreen_flush_pending_ = true ↔
      (patternWorld.run [.flush ⟨some 7, 0⟩]).posted_tasks.length = 1) :=
  ⟨by decide,
   (C35_flag_iff_one_task (sampleImage 4 4) _ _ [.flush ⟨some 7, 0⟩] _ rfl).1⟩

/-- C39: in every state reached from a freshly created device in which a
callback is held in the unpainted slot, the painted slot is empty and
ViewFlushedPaint invokes nothing and leaves the state as it is; the callback
is delivered by the ViewFlushedPaint that follows the next
ViewInitiatedPaint. -/
theorem C39_flushed_paint_skips_unpainted (backing : ImageData)
    (images : PP_Resource → Option ImageData) (clip : PluginInstance → Rect)
    (ops : List Operation) (w : World)
    (hw : w = (World.initial backing images clip).run ops)
    (hheld : w.device.unpainted_flush_callback_.is_null = false) :
    w.device.painted_flush_callback_.is_null = true ∧
    ViewFlushedPaint w = w ∧
    (ViewFlushedPaint (ViewInitiatedPaint (ViewFlushedPaint w))).callbacks_run =
      w.callbacks_run ++ [⟨w.device.unpainted_flush_callback_.callback_, PP_OK, false⟩] := by
  have hfacts : w.device.painted_flush_callback_.is_null = true ∧
      w.device.offscreen_flush_pending_ = false := by
    rcases reachable_cases backing images clip ops w hw with
      ⟨a, b, c, d⟩ | ⟨a, b, c, d⟩ | ⟨a, b, c, d⟩ | ⟨a, b, c, d⟩
    · rw [a] at hheld; cases hheld
    · exact ⟨b, c⟩
    · rw [a] at hheld; cases hheld
    · rw [a] at hheld; cases hheld
  obtain ⟨hp, ho⟩ := hfacts
  have hsame : ViewFlushedPaint w = w := by
    unfold ViewFlushedPaint
    simp [hp]
  refine ⟨hp, hsame, ?_⟩
  rw [hsame]
  unfold ViewFlushedPaint ViewInitiatedPaint World.dcheck Execute HasPendingFlush
  simp [hheld, hp, ho, cleared_is_null]

/-- Witness for C39: the 4 x 4 pattern device bound to host 1 with the
callback of a visible flush in the unpainted slot. -/
theorem C39_flushed_paint_skips_unpainted_witness :
    (patternWorld.run [.bind (some 1), .paint 1 1 1 none,
      .flush ⟨some 7, 0⟩]).device.unpainted_flush_callback_.is_null = false ∧
    (ViewFlushedPaint (ViewInitiatedPaint (ViewFlushedPaint
      (patternWorld.run [.bind (some 1), .paint 1 1 1 none,
        .flush ⟨some 7, 0⟩])))).callbacks_run =
      (patternWorld.run [.bind (some 1), .paint 1 1 1 none,
        .flush ⟨some 7, 0⟩]).callbacks_run ++
      [⟨(patternWorld.run [.bind (some 1), .paint 1 1 1 none,
        .flush ⟨some 7, 0⟩]).device.unpainted_flush_callback_.callback_, PP_OK, false⟩] :=
  ⟨by decide,
   (C39_flushed_paint_skips_unpainted (sampleImage 4 4) _ _
      [.bind (some 1), .paint 1 1 1 none, .flush ⟨some 7, 0⟩] _ rfl (by decide)).2.2⟩

/-! ## The interface functions on a handle that names no device -/

/-- C31: for a handle that does not resolve to a live device the interface
functions Describe, PaintImageData, Scroll and ReplaceContents return false
and Flush returns the bad-resource code, which differs from the in-progress,
bad-argument and would-block codes; the table of devices, and with it the
state of every device, is unchanged, and Describe writes nothing. -/
theorem C31_dead_handle (t : DeviceTable) (device_context : PP_Resource)
    (hdead : t device_context = none)
    (width height : Int) ( is_always_opaque : Bool)
    (image : PP_Resource) (x y dx dy : Int) (rect : Option PP_Rect)
    (callback : PP_CompletionCallback) :
    ppb_devicecontext2d.Describe t device_context width height is_always_opaque =
      (false, width, height, is_always_opaque) ∧
    ppb_devicecontext2d.PaintImageData t device_context image x y rect = (false, t) ∧
    ppb_devicecontext2d.Scroll t device_context rect dx dy = (false, t) ∧
    ppb_devicecontext2d.ReplaceContents t device_context image = (false, t) ∧
    ppb_devicecontext2d.Flush t device_context callback = (PP_Error_BadResource, t) ∧
    PP_Error_BadResource ≠ PP_Error_InProgress ∧
    PP_Error_BadResource ≠ PP_Error_BadArgument ∧
    PP_Error_BadResource ≠ PP_Error_WouldBlock := by
  simp only [ppb_devicecontext2d.Describe, ppb_devicecontext2d.PaintImageData,
    ppb_devicecontext2d.Scroll, ppb_devicecontext2d.ReplaceContents,
    ppb_devicecontext2d.Flush, hdead]
  refine ⟨trivial, trivial, trivial, trivial, trivial, ?_, ?_, ?_⟩ <;> decide

/-- Witness for C31: the table whose only device, behind handle 10, is the
4 x 4 pattern device, asked about handle 11. -/
theorem C31_dead_handle_witness :
    ppb_devicecontext2d.Flush (fun k => if k = 10 then some patternWorld else none) 11
      ⟨some 7, 0⟩ =
      (PP_Error_BadResource, fun k => if k = 10 then some patternWorld else none) :=
  (C31_dead_handle (fun k => if k = 10 then some patternWorld else none) 11 rfl
    0 0 false 1 0 0 0 0 none ⟨some 7, 0⟩).2.2.2.2.1

/-! ## What the enqueue calls and the read-back check -/

/-- What a successful validation says about its result: the whole bounding
rectangle for an absent rectangle, a rectangle of positive size inside the
bounds for a present one. -/
theorem validate_facts (src : Option PP_Rect) (W H : Int) (dest s : Rect)
    (hsrc : ∀ r, src = some r → r.isInt32)
    (hv : ValidateAndConvertRect src W H dest = (true, s)) :
    (src = none ∧ s = ⟨0, 0, W, H⟩) ∨
    (src ≠ none ∧ 0 ≤ s.x ∧ 0 ≤ s.y ∧ 0 < s.width ∧ 0 < s.height ∧
      s.x + s.width ≤ W ∧ s.y + s.height ≤ H) := by
  cases src with
  | none =>
    left
    simp only [ValidateAndConvertRect, Prod.mk.injEq, true_and] at hv
    exact ⟨rfl, hv.symm⟩
  | some r =>
    right
    obtain ⟨hx, hy, hw, hh⟩ := hsrc r rfl
    have ex := add64_of_isInt32 _ _ hx hw
    have ey := add64_of_isInt32 _ _ hy hh
    unfold ValidateAndConvertRect at hv
    simp only [ex, ey] at hv
    split_ifs at hv with h1 h2 h3
    · simp at hv
    · simp at hv
    · simp at hv
    · simp only [Prod.mk.injEq, true_and] at hv
      rw [← hv]
      simp only [ne_eq, reduceCtorEq, not_false_eq_true, true_and]
      omega

/-- The two outcomes of PaintImageData on a live image with 32-bit arguments:
rejected with nothing changed, or accepted with the Paint operation for the
validated rectangle, whose placement fits, appended. -/
theorem paint_outcome (w : World) (image : PP_Resource) (img : ImageData)
    (x y : Int) (src_rect : Option PP_Rect)
    (himg : w.images image = some img)
    (hx : isInt32 x) (hy : isInt32 y)
    (hsrc : ∀ r, src_rect = some r → r.isInt32)
    (hw : isInt32 img.width) (hh : isInt32 img.height) :
    PaintImageData w image x y src_rect = (false, w) ∨
    ∃ s, ValidateAndConvertRect src_rect img.width img.height Rect.empty = (true, s) ∧
      0 ≤ x + s.x ∧ x + (s.x + s.width) ≤ w.device.image_data_.width ∧
      0 ≤ y + s.y ∧ y + (s.y + s.height) ≤ w.device.image_data_.height ∧
      PaintImageData w image x y src_rect =
        (true, w.push_back (paintOperation image x y s)) := by
  unfold PaintImageData
  simp only [himg, QueuedOperation.mk0]
  by_cases hv : (ValidateAndConvertRect src_rect img.width img.height Rect.empty).1 = true
  · obtain ⟨sx, sy, er, eb, sr, sb⟩ := validate_edges src_rect _ _ Rect.empty hsrc hw hh hv
    have e1 := add64_of_isInt32 _ _ hx sx
    have e2 := add64_of_isInt32 _ _ hx sr
    have e3 := add64_of_isInt32 _ _ hy sy
    have e4 := add64_of_isInt32 _ _ hy sb
    rw [er] at e2
    rw [eb] at e4
    simp only [e1, e2, e3, e4, er, eb]
    clear e1 e2 e3 e4 er eb sx sy sr sb
    generalize ValidateAndConvertRect src_rect img.width img.height Rect.empty = v at hv ⊢
    obtain ⟨b, s⟩ := v
    simp only at hv
    subst hv
    simp only [Bool.not_true, Bool.false_eq_true, if_false, Prod.mk.injEq, true_and,
      exists_eq_left']
    by_cases h2 : x + s.x < 0 ∨ x + (s.x + s.width) > w.device.image_data_.width
    · left
      simp only [h2, if_true]
    · by_cases h3 : y + s.y < 0 ∨ y + (s.y + s.height) > w.device.image_data_.height
      · left
        simp only [h2, h3, if_true, if_false]
      · right
        simp only [h2, h3, if_false]
        refine ⟨by omega, by omega, by omega, by omega, ?_⟩
        simp [World.push_back, paintOperation, Rect.empty]
  · left
    have hf : (ValidateAndConvertRect src_rect img.width img.height Rect.empty).1 = false := by
      simpa using hv
    simp only [hf, Bool.not_false, if_true]

/-- PaintImageData with a handle that names no image is rejected. -/
theorem paint_dead (w : World) (image : PP_Resource) (x y : Int)
    (src_rect : Option PP_Rect) (himg : w.images image = none) :
    PaintImageData w image x y src_rect = (false, w) := by
  unfold PaintImageData
  simp only [himg]

/-- The three outcomes of Scroll: rejected, skipped, or the Scroll operation
for the validated clip rectangle appended. -/
theorem scroll_outcome (w : World) (clip_rect : Option PP_Rect) (dx dy : Int) :
    Scroll w clip_rect dx dy = (false, w) ∨
    Scroll w clip_rect dx dy = (true, w) ∨
    ∃ c, ValidateAndConvertRect clip_rect w.device.image_data_.width
        w.device.image_data_.height Rect.empty = (true, c) ∧
      Scroll w clip_rect dx dy = (false, w.push_back (scrollOperation c dx dy)) := by
  unfold Scroll
  simp only [QueuedOperation.mk0]
  generalize ValidateAndConvertRect clip_rect w.device.image_data_.width
    w.device.image_data_.height Rect.empty = v
  obtain ⟨b, c⟩ := v
  cases b with
  | false => left; simp
  | true =>
    simp only [Bool.not_true, Bool.false_eq_true, if_false]
    split_ifs
    · right; left; rfl
    · right; right
      exact ⟨c, rfl, by simp [World.push_back, scrollOperation, Rect.empty]⟩

/-- The two outcomes of ReplaceContents: rejected, or the Replace operation
for a live BGRA image of the size of the backing store appended. -/
theorem replace_outcome (w : World) (image : PP_Resource) :
    ReplaceContents w image = (false, w) ∨
    ∃ img, w.images image = some img ∧
      img.format = PP_IMAGEDATAFORMAT_BGRA_PREMUL ∧
      img.width = w.device.image_data_.width ∧
      img.height = w.device.image_data_.height ∧
      ReplaceContents w image = (true, w.push_back (replaceOperation image)) := by
  unfold ReplaceContents
  cases himg : w.images image with
  | none => left; rfl
  | some img =>
    dsimp only
    by_cases h1 : img.format ≠ PP_IMAGEDATAFORMAT_BGRA_PREMUL
    · left; rw [if_pos h1]
    · rw [if_neg h1]
      by_cases h2 : img.width ≠ w.device.image_data_.width ∨
          img.height ≠ w.device.image_data_.height
      · left; rw [if_pos h2]
      · right
        rw [if_neg h2]
        refine ⟨img, rfl, by simpa using h1, ?_, ?_, ?_⟩
        · by_contra hc; exact h2 (Or.inl hc)
        · by_contra hc; exact h2 (Or.inr hc)
        · simp [World.push_back, replaceOperation, QueuedOperation.mk0]

/-- The two outcomes of ReadImageData with 32-bit arguments: rejected with
nothing changed, or the image behind the handle redrawn from the backing
store, at a position that lies inside it. -/
theorem read_outcome (w : World) (image : PP_Resource) (x y : Int)
    (hx : isInt32 x) (hy : isInt32 y)
    (himgs : ∀ img, w.images image = some img → isInt32 img.width ∧ isInt32 img.height) :
    ReadImageData w image x y = (false, w) ∨
    ∃ img, w.images image = some img ∧
      img.format = PP_IMAGEDATAFORMAT_BGRA_PREMUL ∧ img.mappable = true ∧
      0 ≤ x ∧ x + img.width ≤ w.device.image_data_.width ∧
      0 ≤ y ∧ y + img.height ≤ w.device.image_data_.height ∧
      ReadImageData w image x y = (true, { w with images :=
        (setImage w.images image
          (drawBitmapRect img w.device.image_data_
            ⟨x, y, add32 x img.width, add32 y img.height⟩
            ⟨0, 0, img.width, img.height⟩)) }) := by
  unfold ReadImageData
  cases himg : w.images image with
  | none => left; rfl
  | some img =>
    obtain ⟨hiw, hih⟩ := himgs img himg
    have e1 := add64_of_isInt32 _ _ hx hiw
    have e2 := add64_of_isInt32 _ _ hy hih
    simp only [e1, e2]
    by_cases h1 : img.format ≠ PP_IMAGEDATAFORMAT_BGRA_PREMUL
    · left; rw [if_pos h1]
    · rw [if_neg h1]
      by_cases h2 : x < 0 ∨ x + img.width > w.device.image_data_.width
      · left; rw [if_pos h2]
      · rw [if_neg h2]
        by_cases h3 : y < 0 ∨ y + img.height > w.device.image_data_.height
        · left; rw [if_pos h3]
        · rw [if_neg h3]
          cases hm : img.mappable with
          | false => left; simp
          | true =>
            right
            refine ⟨img, rfl, by simpa using h1, hm, by omega, by omega, by omega,
              by omega, ?_⟩
            simp [hm]

/-- C38: no 32-bit overflow occurs in the rectangle arithmetic on accepted
inputs. For 32-bit arguments, the right and bottom edges of a rectangle
accepted by ValidateAndConvertRect, the origin and the right and bottom edges
of the translated destination rectangle of a Paint operation accepted by
PaintImageData, and the edges x + w and y + h computed by an accepted
ReadImageData are the same in 32-bit wrap-around arithmetic as over the
integers. -/
theorem C38_no_overflow (w : World) (image : PP_Resource) (img : ImageData)
    (x y : Int) (src_rect : Option PP_Rect) (bw bh : Int)
    (himg : w.images image = some img)
    (hx : isInt32 x) (hy : isInt32 y)
    (hsrc : ∀ r, src_rect = some r → r.isInt32)
    (hiw : isInt32 img.width) (hih : isInt32 img.height)
    (hW : isInt32 w.device.image_data_.width)
    (hH : isInt32 w.device.image_data_.height)
    (hbw : isInt32 bw) (hbh : isInt32 bh) :
    (∀ dest, (ValidateAndConvertRect src_rect bw bh dest).1 = true →
      (ValidateAndConvertRect src_rect bw bh dest).2.right =
        (ValidateAndConvertRect src_rect bw bh dest).2.x +
        (ValidateAndConvertRect src_rect bw bh dest).2.width ∧
      (ValidateAndConvertRect src_rect bw bh dest).2.bottom =
        (ValidateAndConvertRect src_rect bw bh dest).2.y +
        (ValidateAndConvertRect src_rect bw bh dest).2.height) ∧
    ((PaintImageData w image x y src_rect).1 = true →
      ∃ s, ValidateAndConvertRect src_rect img.width img.height Rect.empty = (true, s) ∧
        (s.Offset x y).x = s.x + x ∧ (s.Offset x y).y = s.y + y ∧
        (s.Offset x y).right = s.x + x + s.width ∧
        (s.Offset x y).bottom = s.y + y + s.height) ∧
    ((ReadImageData w image x y).1 = true →
      add32 x img.width = x + img.width ∧ add32 y img.height = y + img.height) := by
  refine ⟨?_, ?_, ?_⟩
  · intro dest hv
    obtain ⟨_, _, er, eb, _, _⟩ := validate_edges src_rect bw bh dest hsrc hbw hbh hv
    exact ⟨er, eb⟩
  · intro hacc
    rcases paint_outcome w image img x y src_rect himg hx hy hsrc hiw hih with
      h | ⟨s, hs, c1, c2, c3, c4, _⟩
    · rw [h] at hacc; cases hacc
    · refine ⟨s, hs, ?_⟩
      unfold isInt32 at hx hy hiw hih hW hH
      simp only [Rect.Offset, Rect.right, Rect.bottom, add32]
      rcases validate_facts src_rect _ _ Rect.empty s hsrc hs with
        ⟨_, hs2⟩ | ⟨_, f1, f2, f3, f4, f5, f6⟩
      · rw [hs2] at c1 c2 c3 c4 ⊢
        simp only at c1 c2 c3 c4 ⊢
        unfold wrap32
        omega
      · unfold wrap32
        omega
  · intro hacc
    rcases read_outcome w image x y hx hy
      (fun i hi => by rw [himg] at hi; cases hi; exact ⟨hiw, hih⟩) with
      h | ⟨i, hi, _, _, c1, c2, c3, c4, _⟩
    · rw [h] at hacc; cases hacc
    · rw [himg] at hi
      cases hi
      unfold isInt32 at hx hy hiw hih hW hH
      unfold add32 wrap32
      omega

/-- Witness for C38: the whole 2 x 2 pattern image painted at (1, 1) on the
4 x 4 pattern device. -/
theorem C38_no_overflow_witness :
    (PaintImageData patternWorld 1 1 1 none).1 = true ∧
    ∃ s, ValidateAndConvertRect none (patternImage 2 2).width (patternImage 2 2).height
        Rect.empty = (true, s) ∧
      (s.Offset 1 1).x = s.x + 1 ∧ (s.Offset 1 1).y = s.y + 1 ∧
      (s.Offset 1 1).right = s.x + 1 + s.width ∧
      (s.Offset 1 1).bottom = s.y + 1 + s.height :=
  ⟨by decide,
   (C38_no_overflow patternWorld 1 (patternImage 2 2) 1 1 none 4 4 rfl (by decide)
      (by decide) (fun _ h => nomatch h) (by decide) (by decide) (by decide) (by decide)
      (by decide) (by decide)).2.1 (by decide)⟩

/-! ## Paint followed by read-back -/

/-- The image resources after an accepted Flush are the ones the loop
leaves, and the queue is empty. -/
theorem flush_accepted_images (w : World) (callback : PP_CompletionCallback)
    (hidle : HasPendingFlush w.device = false) (hcb : callback.func ≠ none) :
    (Flush w callback).2.images =
      (FlushLoop w.device.queued_operations_
        ⟨w.device.image_data_, w.images, Rect.empty⟩).images ∧
    (Flush w callback).2.device.queued_operations_ = [] ∧
    (Flush w callback).2.device.bound_instance_ = w.device.bound_instance_ ∧
    (Flush w callback).2.clip = w.clip := by
  rw [flush_accepted w callback hidle hcb]
  cases hb : w.device.bound_instance_ with
  | none => simp [schedule_fields, World.afterFlushLoop, hb]
  | some bound =>
    dsimp only
    split_ifs
    · simp [World.InvalidateRect, World.afterFlushLoop, hb]
    · simp [schedule_fields, World.afterFlushLoop, hb]

/-- ReadImageData into a live, mappable BGRA image at a position that lies
inside the backing store is accepted and redraws the image. -/
theorem read_accepted (w : World) (image : PP_Resource) (img : ImageData) (x y : Int)
    (himg : w.images image = some img)
    (hfmt : img.format = PP_IMAGEDATAFORMAT_BGRA_PREMUL) (hmap : img.mappable = true)
    (hx : isInt32 x) (hy : isInt32 y)
    (hiw : isInt32 img.width) (hih : isInt32 img.height)
    (hx0 : 0 ≤ x) (hx1 : x + img.width ≤ w.device.image_data_.width)
    (hy0 : 0 ≤ y) (hy1 : y + img.height ≤ w.device.image_data_.height) :
    ReadImageData w image x y = (true, { w with images :=
      (setImage w.images image
        (drawBitmapRect img w.device.image_data_
          ⟨x, y, add32 x img.width, add32 y img.height⟩
          ⟨0, 0, img.width, img.height⟩)) }) := by
  have e1 := add64_of_isInt32 _ _ hx hiw
  have e2 := add64_of_isInt32 _ _ hy hih
  unfold ReadImageData
  simp only [himg, e1, e2, hfmt, hmap]
  rw [if_neg (by simp), if_neg (by omega), if_neg (by omega), if_neg (by simp)]

/-- PaintImageData of a whole live image with 32-bit arguments is accepted
exactly at the positions where the image lies inside the backing store. -/
theorem paint_whole_iff (w : World) (image : PP_Resource) (img : ImageData) (x y : Int)
    (himg : w.images image = some img)
    (hx : isInt32 x) (hy : isInt32 y)
    (hiw : isInt32 img.width) (hih : isInt32 img.height) :
    (PaintImageData w image x y none).1 = true ↔
      (0 ≤ x ∧ x + img.width ≤ w.device.image_data_.width ∧
        0 ≤ y ∧ y + img.height ≤ w.device.image_data_.height) := by
  have e0 : add32 0 img.width = img.width := by
    unfold isInt32 at hiw; unfold add32 wrap32; omega
  have e0h : add32 0 img.height = img.height := by
    unfold isInt32 at hih; unfold add32 wrap32; omega
  have e1 := add64_of_isInt32 _ _ hx hiw
  have e2 := add64_of_isInt32 _ _ hy hih
  have e3 : add64 x 0 = x := by
    rw [add64_of_isInt32 _ _ hx (by decide)]; omega
  have e4 : add64 y 0 = y := by
    rw [add64_of_isInt32 _ _ hy (by decide)]; omega
  unfold PaintImageData
  simp only [himg, ValidateAndConvertRect, Bool.not_true, Bool.false_eq_true, if_false,
    Rect.right, Rect.bottom, e0, e0h, e1, e2, e3, e4]
  by_cases h2 : x < 0 ∨ x + img.width > w.device.image_data_.width
  · rw [if_pos h2]
    simp only [Bool.false_eq_true, false_iff]
    omega
  · rw [if_neg h2]
    by_cases h3 : y < 0 ∨ y + img.height > w.device.image_data_.height
    · rw [if_pos h3]
      simp only [Bool.false_eq_true, false_iff]
      omega
    · rw [if_neg h3]
      simp only [true_iff]
      omega

/-- C40 (the claim as stated fails): on a fresh 4 x 4 device the whole 2 x 2
pattern image is painted at (1, 1) and flushed; reading back at (1, 1) into
the distinct 2 x 2 BGRA image behind handle 4, whose memory cannot be mapped,
returns false, and PaintImageData of the whole 2 x 2 image is accepted at a
position where ReadImageData into that image is rejected. -/
theorem C40_round_trip_needs_mappable_target :
    HasPendingFlush unmappableWorld.device = false ∧
    unmappableWorld.device.queued_operations_ = [] ∧
    (PaintImageData unmappableWorld 1 1 1 none).1 = true ∧
    (Flush (PaintImageData unmappableWorld 1 1 1 none).2 ⟨some 7, 0⟩).1 =
      PP_Error_WouldBlock ∧
    (ReadImageData (Flush (PaintImageData unmappableWorld 1 1 1 none).2 ⟨some 7, 0⟩).2
      4 1 1).1 = false ∧
    (ReadImageData unmappableWorld 4 1 1).1 = false := by
  decide

/-- C40, amended: for a device with no pending flush and an empty queue, a
mappable source image, a distinct destination image that is BGRA, of the same
size and mappable, and a position at which PaintImageData of the whole source
image returns true: after an accepted Flush, ReadImageData at that position
into the destination returns true and fills it with the pixels of the source;
and PaintImageData of the whole source image is accepted at exactly the
positions at which ReadImageData into the destination is accepted. -/
theorem C40_paint_read_round_trip (w : World) (image target : PP_Resource)
    (img dst : ImageData) (x y : Int) (callback : PP_CompletionCallback)
    (hidle : HasPendingFlush w.device = false)
    (hqueue : w.device.queued_operations_ = [])
    (himg : w.images image = some img) (hdst : w.images target = some dst)
    (hmap : img.mappable = true)
    (hdfmt : dst.format = PP_IMAGEDATAFORMAT_BGRA_PREMUL) (hdmap : dst.mappable = true)
    (hdw : dst.width = img.width) (hdh : dst.height = img.height)
    (hx : isInt32 x) (hy : isInt32 y)
    (hiw : isInt32 img.width) (hih : isInt32 img.height)
    (hW : isInt32 w.device.image_data_.width)
    (hH : isInt32 w.device.image_data_.height)
    (hcb : callback.func ≠ none)
    (hpaint : (PaintImageData w image x y none).1 = true) :
    (ReadImageData (Flush (PaintImageData w image x y none).2 callback).2
      target x y).1 = true ∧
    (∃ after, (ReadImageData (Flush (PaintImageData w image x y none).2 callback).2
        target x y).2.images target = some after ∧
      ∀ i j, 0 ≤ i → i < img.width → 0 ≤ j → j < img.height →
        after.pixels i j = img.pixels i j) ∧
    (∀ px py, isInt32 px → isInt32 py →
      ((PaintImageData w image px py none).1 = true ↔
        (ReadImageData w target px py).1 = true)) := by
  have hpos := (paint_whole_iff w image img x y himg hx hy hiw hih).mp hpaint
  obtain ⟨hx0, hx1, hy0, hy1⟩ := hpos
  rcases paint_outcome w image img x y none himg hx hy (fun _ h => nomatch h) hiw hih with
    h | ⟨s, hs, _, _, _, _, hres⟩
  · rw [h] at hpaint; cases hpaint
  have hs2 : s = ⟨0, 0, img.width, img.height⟩ := by
    simp only [ValidateAndConvertRect, Prod.mk.injEq, true_and] at hs
    exact hs.symm
  subst hs2
  rw [hres]
  simp only
  generalize hw1 : w.push_back
    (paintOperation image x y ⟨0, 0, img.width, img.height⟩) = w1
  have hq1 : w1.device.queued_operations_ =
      [paintOperation image x y ⟨0, 0, img.width, img.height⟩] := by
    rw [← hw1]; simp [World.push_back, hqueue]
  have hb1 : w1.device.image_data_ = w.device.image_data_ := by rw [← hw1]; rfl
  have hi1 : w1.images = w.images := by rw [← hw1]; rfl
  have hidle1 : HasPendingFlush w1.device = false := by rw [← hw1]; exact hidle
  obtain ⟨hfi, _, _, _⟩ := flush_accepted_images w1 callback hidle1 hcb
  have hfb := flush_accepted_backing w1 callback hidle1 hcb
  rw [hq1, hb1, hi1] at hfi hfb
  have hstep : (FlushLoop [paintOperation image x y ⟨0, 0, img.width, img.height⟩]
      ⟨w.device.image_data_, w.images, Rect.empty⟩) =
      ExecuteOperation ⟨w.device.image_data_, w.images, Rect.empty⟩
        (paintOperation image x y ⟨0, 0, img.width, img.height⟩) := rfl
  rw [hstep] at hfi hfb
  obtain ⟨k1, k2, k3⟩ := execute_keeps ⟨w.device.image_data_, w.images, Rect.empty⟩
    (paintOperation image x y ⟨0, 0, img.width, img.height⟩) (by simp [paintOperation])
  have hback : (ExecuteOperation ⟨w.device.image_data_, w.images, Rect.empty⟩
      (paintOperation image x y ⟨0, 0, img.width, img.height⟩)).backing =
      (ExecutePaintImageData w.device.image_data_ img x y ⟨0, 0, img.width, img.height⟩
        Rect.empty).1 := by
    simp [ExecuteOperation, paintOperation, himg]
  simp only at k1 k2 k3
  generalize (Flush w1 callback).2 = w2 at hfi hfb ⊢
  have hdst2 : w2.images target = some dst := by rw [hfi, k1]; exact hdst
  have hW2 : w2.device.image_data_.width = w.device.image_data_.width := by
    rw [hfb, k2]
  have hH2 : w2.device.image_data_.height = w.device.image_data_.height := by
    rw [hfb, k3]
  have hread := read_accepted w2 target dst x y hdst2 hdfmt hdmap hx hy
    (by rw [hdw]; exact hiw) (by rw [hdh]; exact hih) hx0 (by rw [hW2, hdw]; exact hx1)
    hy0 (by rw [hH2, hdh]; exact hy1)
  refine ⟨?_, ?_, ?_⟩
  · rw [hread]
  · rw [hread]
    refine ⟨drawBitmapRect dst w2.device.image_data_
      ⟨x, y, add32 x dst.width, add32 y dst.height⟩ ⟨0, 0, dst.width, dst.height⟩,
      by simp [setImage], ?_⟩
    intro i j hi0 hi1 hj0 hj1
    unfold isInt32 at hx hy hiw hih hW hH
    have a1 : add32 x dst.width = x + dst.width := by
      rw [hdw]; unfold add32 wrap32; omega
    have a2 : add32 y dst.height = y + dst.height := by
      rw [hdh]; unfold add32 wrap32; omega
    simp only [drawBitmapRect, a1, a2]
    rw [if_pos (by rw [hdw, hdh]; omega)]
    rw [hfb, hback]
    rw [paint_pixel w.device.image_data_ img x y ⟨0, 0, img.width, img.height⟩ Rect.empty
      _ _ hmap (by unfold paintFits isInt32; simp only; omega), if_pos (by simp only; omega)]
    congr 1 <;> omega
  · intro px py hpx hpy
    rw [paint_whole_iff w image img px py himg hpx hpy hiw hih]
    constructor
    · rintro ⟨c1, c2, c3, c4⟩
      rw [read_accepted w target dst px py hdst hdfmt hdmap hpx hpy
        (by rw [hdw]; exact hiw) (by rw [hdh]; exact hih) c1 (by rw [hdw]; exact c2)
        c3 (by rw [hdh]; exact c4)]
    · intro hacc
      rcases read_outcome w target px py hpx hpy
        (fun i hi => by rw [hdst] at hi; cases hi; rw [hdw, hdh]; exact ⟨hiw, hih⟩) with
        h | ⟨i, hi, _, _, c1, c2, c3, c4, _⟩
      · rw [h] at hacc; cases hacc
      · rw [hdst] at hi
        cases hi
        rw [hdw] at c2
        rw [hdh] at c4
        exact ⟨c1, c2, c3, c4⟩

/-- Witness for C40, amended: the 2 x 2 pattern image behind handle 1 painted
at (1, 1) on the 4 x 4 pattern device, flushed, and read back into the
all-zero 2 x 2 image behind handle 2. -/
theorem C40_paint_read_round_trip_witness :
    (PaintImageData patternWorld 1 1 1 none).1 = true ∧
    (ReadImageData (Flush (PaintImageData patternWorld 1 1 1 none).2 ⟨some 7, 0⟩).2
      2 1 1).1 = true :=
  ⟨by decide,
   (C40_paint_read_round_trip patternWorld 1 2 (patternImage 2 2) (sampleImage 2 2) 1 1
      ⟨some 7, 0⟩ (by decide) (by decide) rfl rfl rfl rfl rfl rfl rfl (by decide)
      (by decide) (by decide) (by decide) (by decide) (by decide) (by decide)
      (by decide)).1⟩

/-! ## Shapes are kept by every operation -/

/-- Drawing into a buffer keeps its shape. -/
theorem drawBitmapRect_shape (canvas bitmap : ImageData) (src dst : SkIRect) :
    (drawBitmapRect canvas bitmap src dst).shape = canvas.shape := rfl

/-- Executing a Paint keeps the shape of the backing store. -/
theorem executePaint_shape (backing image : ImageData) (x y : Int) (s inv0 : Rect) :
    (ExecutePaintImageData backing image x y s inv0).1.shape = backing.shape := by
  unfold ExecutePaintImageData
  split_ifs <;> rfl

/-- A live image has the shape listed for its handle. -/
theorem shapesOf_some (images : PP_Resource → Option ImageData) (handle : PP_Resource)
    (sh : PP_ImageDataFormat × Int × Int) (h : shapesOf images handle = some sh) :
    ∃ img, images handle = some img ∧ img.shape = sh := by
  unfold shapesOf at h
  cases himg : images handle with
  | none => rw [himg] at h; simp at h
  | some img =>
    rw [himg] at h
    simp only [Option.map_some', Option.some.injEq] at h
    exact ⟨img, rfl, h⟩

/-- One step of the loop of Flush on a well-formed operation keeps the shape
of the backing store and the shapes of the images. -/
theorem execute_shape (p : FlushProgress) (op : QueuedOperation) (W H : Int)
    (hb : p.backing.shape = (PP_IMAGEDATAFORMAT_BGRA_PREMUL, W, H))
    (hwf : op.wellFormed W H PP_IMAGEDATAFORMAT_BGRA_PREMUL (shapesOf p.images)) :
    (ExecuteOperation p op).backing.shape = p.backing.shape ∧
    shapesOf (ExecuteOperation p op).images = shapesOf p.images := by
  unfold QueuedOperation.wellFormed at hwf
  unfold ExecuteOperation
  cases ht : op.type with
  | PAINT =>
    dsimp only
    cases op.paint_image.bind p.images with
    | none => exact ⟨rfl, rfl⟩
    | some image => exact ⟨executePaint_shape _ _ _ _ _ _, rfl⟩
  | SCROLL => exact ⟨rfl, rfl⟩
  | REPLACE =>
    rw [ht] at hwf
    obtain ⟨handle, hh, hs⟩ := hwf
    obtain ⟨img, himg, hshape⟩ := shapesOf_some _ _ _ hs
    simp only [hh, himg, ExecuteReplaceContents, ImageData.Swap]
    refine ⟨by rw [hshape, hb], ?_⟩
    funext k
    unfold shapesOf setImage
    by_cases hk : k = handle
    · simp [hk, himg, hshape, hb]
    · simp [hk]

/-- The loop of Flush over a well-formed queue keeps the shape of the backing
store and the shapes of the images. -/
theorem flushLoop_shape (q : List QueuedOperation) (W H : Int) :
    ∀ p : FlushProgress,
      p.backing.shape = (PP_IMAGEDATAFORMAT_BGRA_PREMUL, W, H) →
      (∀ op ∈ q, op.wellFormed W H PP_IMAGEDATAFORMAT_BGRA_PREMUL (shapesOf p.images)) →
      (FlushLoop q p).backing.shape = p.backing.shape ∧
      shapesOf (FlushLoop q p).images = shapesOf p.images := by
  induction q with
  | nil => intro p _ _; exact ⟨rfl, rfl⟩
  | cons op rest ih =>
    intro p hb hq
    obtain ⟨h1, h2⟩ := execute_shape p op W H hb (hq op (List.mem_cons_self _ _))
    have hb2 : (ExecuteOperation p op).backing.shape =
        (PP_IMAGEDATAFORMAT_BGRA_PREMUL, W, H) := by rw [h1, hb]
    have hq2 : ∀ o ∈ rest, o.wellFormed W H PP_IMAGEDATAFORMAT_BGRA_PREMUL
        (shapesOf (ExecuteOperation p op).images) := by
      intro o ho
      rw [h2]
      exact hq o (List.mem_cons_of_mem _ ho)
    obtain ⟨k1, k2⟩ := ih (ExecuteOperation p op) hb2 hq2
    simp only [FlushLoop]
    exact ⟨k1.trans h1, k2.trans h2⟩

/-! ## Every queued operation is well-formed -/

/-- The invariant of the queue depends on the shape of the backing store, the
shapes of the images and the queue only. -/
theorem queueInvariant_congr (w w2 : World) (hinv : w.queueInvariant)
    (hb : w2.device.image_data_.shape = w.device.image_data_.shape)
    (hs : shapesOf w2.images = shapesOf w.images)
    (hq : ∀ o ∈ w2.device.queued_operations_, o ∈ w.device.queued_operations_ ∨
      o.wellFormed w.device.image_data_.width w.device.image_data_.height
        PP_IMAGEDATAFORMAT_BGRA_PREMUL (shapesOf w.images)) :
    w2.queueInvariant := by
  obtain ⟨hgb, hgi, hwf⟩ := hinv
  simp only [ImageData.shape, Prod.mk.injEq] at hb
  obtain ⟨hf, hw, hh⟩ := hb
  refine ⟨?_, ?_, ?_⟩
  · unfold goodBacking at hgb ⊢
    rw [hf, hw, hh]
    exact hgb
  · intro handle img himg
    have h1 : shapesOf w2.images handle = some img.shape := by
      simp [shapesOf, himg]
    rw [hs] at h1
    obtain ⟨img0, himg0, hshape⟩ := shapesOf_some _ _ _ h1
    simp only [ImageData.shape, Prod.mk.injEq] at hshape
    obtain ⟨_, e2, e3⟩ := hshape
    rw [← e2, ← e3]
    exact hgi handle img0 himg0
  · intro o ho
    rw [hw, hh, hs]
    rcases hq o ho with h | h
    · exact hwf o h
    · exact h

/-- The Paint operation appended by an accepted PaintImageData is
well-formed. -/
theorem paint_wellFormed (w : World) (image : PP_Resource) (img : ImageData)
    (x y : Int) (src_rect : Option PP_Rect) (s : Rect)
    (himg : w.images image = some img)
    (hpos : 0 < img.width ∧ 0 < img.height)
    (hsrc : ∀ r, src_rect = some r → r.isInt32)
    (hs : ValidateAndConvertRect src_rect img.width img.height Rect.empty = (true, s))
    (c1 : 0 ≤ x + s.x) (c2 : x + (s.x + s.width) ≤ w.device.image_data_.width)
    (c3 : 0 ≤ y + s.y) (c4 : y + (s.y + s.height) ≤ w.device.image_data_.height) :
    (paintOperation image x y s).wellFormed w.device.image_data_.width
      w.device.image_data_.height PP_IMAGEDATAFORMAT_BGRA_PREMUL (shapesOf w.images) := by
  unfold QueuedOperation.wellFormed
  simp only [paintOperation]
  refine ⟨image, img.shape, rfl, by simp [shapesOf, himg], ?_⟩
  simp only [ImageData.shape]
  rcases validate_facts src_rect _ _ Rect.empty s hsrc hs with
    ⟨_, hs2⟩ | ⟨_, f1, f2, f3, f4, f5, f6⟩
  · rw [hs2] at c1 c2 c3 c4 ⊢
    simp only at c1 c2 c3 c4 ⊢
    omega
  · omega

/-- The Scroll operation appended by Scroll is well-formed. -/
theorem scroll_wellFormed (W H : Int) (format : PP_ImageDataFormat)
    (shapes : PP_Resource → Option (PP_ImageDataFormat × Int × Int))
    (clip_rect : Option PP_Rect) (dx dy : Int) (c : Rect)
    (hW : 0 < W) (hH : 0 < H)
    (hclip : ∀ r, clip_rect = some r → r.isInt32)
    (hc : ValidateAndConvertRect clip_rect W H Rect.empty = (true, c)) :
    (scrollOperation c dx dy).wellFormed W H format shapes := by
  unfold QueuedOperation.wellFormed Rect.within
  simp only [scrollOperation]
  rcases validate_facts clip_rect _ _ Rect.empty c hclip hc with
    ⟨_, hs2⟩ | ⟨_, f1, f2, f3, f4, f5, f6⟩
  · rw [hs2]
    simp only
    omega
  · omega

/-- An optional rectangle with 32-bit fields, said the other way. -/
theorem optRectInt32_iff (rect : Option PP_Rect) (h : optRectInt32 rect) :
    ∀ r, rect = some r → r.isInt32 := by
  intro r hr
  rw [hr] at h
  exact h

/-- Binding a host changes neither the backing store, nor the queue, nor the
images. -/
theorem bind_host_frame (w : World) (host : PluginInstance) :
    (BindToInstance w (some host)).2.device.image_data_ = w.device.image_data_ ∧
    (BindToInstance w (some host)).2.device.queued_operations_ =
      w.device.queued_operations_ ∧
    (BindToInstance w (some host)).2.images = w.images := by
  unfold BindToInstance
  by_cases h1 : w.device.bound_instance_ = some host
  · simp [h1]
  · rw [if_neg h1]
    by_cases h2 : w.device.bound_instance_.isSome = true ∧ (some host).isSome = true
    · simp [h2]
    · rw [if_neg h2]
      dsimp only
      split_ifs <;> simp [World.InvalidateRect]

/-- Binding, the paint checkpoints and the posted task change neither the
backing store, nor the queue, nor the images. -/
theorem host_frame (w : World) (op : Operation)
    (hop : (∃ n, op = .bind n) ∨ op = .viewInitiatedPaint ∨ op = .viewFlushedPaint ∨
      op = .runPostedTask) :
    (w.apply op).device.image_data_ = w.device.image_data_ ∧
    (w.apply op).device.queued_operations_ = w.device.queued_operations_ ∧
    (w.apply op).images = w.images := by
  rcases hop with ⟨n, rfl⟩ | rfl | rfl | rfl
  · simp only [World.apply]
    cases n with
    | none =>
      by_cases hb : w.device.bound_instance_ = none
      · simp [BindToInstance, hb]
      · obtain ⟨_, _, _, _, _, _, h1, h2, _, _, _, h3, _⟩ := unbind_fields w hb
        exact ⟨h1, h2, h3⟩
    | some host => exact bind_host_frame w host
  · simp only [World.apply]
    unfold ViewInitiatedPaint World.dcheck
    split_ifs <;> exact ⟨rfl, rfl, rfl⟩
  · simp only [World.apply]
    unfold ViewFlushedPaint Execute
    split_ifs <;> exact ⟨rfl, rfl, rfl⟩
  · simp only [World.apply]
    unfold RunPostedTask
    cases w.posted_tasks with
    | nil => exact ⟨rfl, rfl, rfl⟩
    | cons t rest =>
      dsimp only
      unfold ExecuteOffscreenCallback Execute World.dcheck
      split_ifs <;> exact ⟨rfl, rfl, rfl⟩

/-- Every operation with 32-bit arguments keeps the invariant of the queue. -/
theorem queueInvariant_apply (w : World) (op : Operation)
    (hinv : w.queueInvariant) (hop : op.wellTyped) : (w.apply op).queueInvariant := by
  have hinv0 := hinv
  obtain ⟨hgb, hgi, hwf⟩ := hinv
  obtain ⟨hfmt, hWp, hHp, hW, hH⟩ := hgb
  cases op with
  | paint image x y src_rect =>
    obtain ⟨hx, hy, hsrc⟩ := hop
    have hsrc2 := optRectInt32_iff src_rect hsrc
    simp only [World.apply]
    cases himg : w.images image with
    | none =>
      rw [paint_dead w image x y src_rect himg]
      exact hinv0
    | some img =>
      obtain ⟨p1, p2, p3, p4⟩ := hgi image img himg
      rcases paint_outcome w image img x y src_rect himg hx hy hsrc2 p3 p4 with
        h | ⟨s, hs, c1, c2, c3, c4, hres⟩
      · rw [h]; exact hinv0
      · rw [hres]
        refine queueInvariant_congr w _ hinv0 rfl rfl ?_
        intro o ho
        simp only [World.push_back, List.mem_append, List.mem_singleton] at ho
        rcases ho with ho | ho
        · exact Or.inl ho
        · right
          rw [ho]
          exact paint_wellFormed w image img x y src_rect s himg ⟨p1, p2⟩ hsrc2 hs c1 c2
            c3 c4
  | scroll clip_rect dx dy =>
    obtain ⟨_, _, hclip⟩ := hop
    have hclip2 := optRectInt32_iff clip_rect hclip
    simp only [World.apply]
    rcases scroll_outcome w clip_rect dx dy with h | h | ⟨c, hc, hres⟩
    · rw [h]; exact hinv0
    · rw [h]; exact hinv0
    · rw [hres]
      refine queueInvariant_congr w _ hinv0 rfl rfl ?_
      intro o ho
      simp only [World.push_back, List.mem_append, List.mem_singleton] at ho
      rcases ho with ho | ho
      · exact Or.inl ho
      · right
        rw [ho]
        exact scroll_wellFormed _ _ _ _ clip_rect dx dy c hWp hHp hclip2 hc
  | replace image =>
    simp only [World.apply]
    rcases replace_outcome w image with h | ⟨img, himg, f1, f2, f3, hres⟩
    · rw [h]; exact hinv0
    · rw [hres]
      refine queueInvariant_congr w _ hinv0 rfl rfl ?_
      intro o ho
      simp only [World.push_back, List.mem_append, List.mem_singleton] at ho
      rcases ho with ho | ho
      · exact Or.inl ho
      · right
        rw [ho]
        unfold QueuedOperation.wellFormed
        simp only [replaceOperation]
        exact ⟨image, rfl, by simp [shapesOf, himg, ImageData.shape, f1, f2, f3]⟩
  | read image x y =>
    obtain ⟨hx, hy⟩ := hop
    simp only [World.apply]
    rcases read_outcome w image x y hx hy
      (fun i hi => ⟨(hgi image i hi).2.2.1, (hgi image i hi).2.2.2⟩) with
      h | ⟨img, himg, _, _, _, _, _, _, hres⟩
    · rw [h]; exact hinv0
    · rw [hres]
      refine queueInvariant_congr w _ hinv0 rfl ?_ (fun o ho => Or.inl ho)
      funext k
      unfold shapesOf setImage
      by_cases hk : k = image
      · simp [hk, himg, drawBitmapRect_shape]
      · simp [hk]
  | flush callback =>
    simp only [World.apply]
    by_cases hidle : HasPendingFlush w.device = false
    · by_cases hcb : callback.func = none
      · rw [flush_bad_argument_world w callback hidle hcb]
        exact hinv0
      · obtain ⟨hfi, hfq, _, _⟩ := flush_accepted_images w callback hidle hcb
        have hfb := flush_accepted_backing w callback hidle hcb
        obtain ⟨k1, k2⟩ := flushLoop_shape w.device.queued_operations_
          w.device.image_data_.width w.device.image_data_.height
          ⟨w.device.image_data_, w.images, Rect.empty⟩
          (by simp [ImageData.shape, hfmt]) hwf
        refine queueInvariant_congr w _ hinv0 (by rw [hfb]; exact k1)
          (by rw [hfi]; exact k2) ?_
        intro o ho
        rw [hfq] at ho
        cases ho
    · have hpend : HasPendingFlush w.device = true := by simpa using hidle
      rw [flush_rejected w callback hpend]
      exact hinv0
  | bind n =>
    obtain ⟨h1, h2, h3⟩ := host_frame w (.bind n) (Or.inl ⟨n, rfl⟩)
    exact queueInvariant_congr w _ hinv0 (by rw [h1]) (by rw [h3])
      (fun o ho => Or.inl (by rw [h2] at ho; exact ho))
  | viewInitiatedPaint =>
    obtain ⟨h1, h2, h3⟩ := host_frame w .viewInitiatedPaint (Or.inr (Or.inl rfl))
    exact queueInvariant_congr w _ hinv0 (by rw [h1]) (by rw [h3])
      (fun o ho => Or.inl (by rw [h2] at ho; exact ho))
  | viewFlushedPaint =>
    obtain ⟨h1, h2, h3⟩ := host_frame w .viewFlushedPaint (Or.inr (Or.inr (Or.inl rfl)))
    exact queueInvariant_congr w _ hinv0 (by rw [h1]) (by rw [h3])
      (fun o ho => Or.inl (by rw [h2] at ho; exact ho))
  | runPostedTask =>
    obtain ⟨h1, h2, h3⟩ := host_frame w .runPostedTask (Or.inr (Or.inr (Or.inr rfl)))
    exact queueInvariant_congr w _ hinv0 (by rw [h1]) (by rw [h3])
      (fun o ho => Or.inl (by rw [h2] at ho; exact ho))

/-- Every sequence of operations with 32-bit arguments keeps the invariant of
the queue. -/
theorem queueInvariant_run (ops : List Operation) :
    ∀ w : World, w.queueInvariant → (∀ op ∈ ops, op.wellTyped) →
      (w.run ops).queueInvariant := by
  induction ops with
  | nil => intro w h _; exact h
  | cons op rest ih =>
    intro w h hops
    exact ih _ (queueInvariant_apply w op h (hops op (List.mem_cons_self _ _)))
      (fun o ho => hops o (List.mem_cons_of_mem _ ho))

/-- The 4 x 4 all-zero backing store of the sample devices is good. -/
theorem sampleBacking_good : goodBacking (sampleImage 4 4) :=
  ⟨rfl, by decide, by decide, by decide, by decide⟩

/-- The images of the pattern device are good. -/
theorem patternWorld_goodImages : goodImages patternWorld.images := by
  intro handle img himg
  simp only [patternWorld, World.initial] at himg
  split_ifs at himg <;> simp only [Option.some.injEq] at himg <;> rw [← himg] <;>
    exact ⟨by decide, by decide, by decide, by decide⟩

/-- C36: for a device created over a BGRA backing store of positive 32-bit
size, next to images of positive 32-bit size, every state reached by
operations with 32-bit arguments has a well-formed queue: each Paint has a
source rectangle of positive size inside its source image and a destination
rectangle inside [0, W] x [0, H], each Scroll has a clip rectangle inside
[0, W] x [0, H], each Replace names an image of size W x H in the format of
the backing store. -/
theorem C36_queue_well_formed (backing : ImageData)
    (images : PP_Resource → Option ImageData) (clip : PluginInstance → Rect)
    (ops : List Operation)
    (hbacking : goodBacking backing) (himages : goodImages images)
    (hops : ∀ op ∈ ops, op.wellTyped) :
    ∀ op ∈ ((World.initial backing images clip).run ops).device.queued_operations_,
      op.wellFormed
        ((World.initial backing images clip).run ops).device.image_data_.width
        ((World.initial backing images clip).run ops).device.image_data_.height
        ((World.initial backing images clip).run ops).device.image_data_.format
        (shapesOf ((World.initial backing images clip).run ops).images) := by
  have hinit : (World.initial backing images clip).queueInvariant :=
    ⟨hbacking, himages, fun o ho => by simp [World.initial, DeviceContext2D.fresh] at ho⟩
  obtain ⟨hgb, _, hwf⟩ := queueInvariant_run ops _ hinit hops
  rw [hgb.1]
  exact hwf

/-- Witness for C36: a Paint, a Scroll and a Replace queued on the 4 x 4
pattern device. -/
theorem C36_queue_well_formed_witness :
    (patternWorld.run [.paint 1 1 1 none, .scroll none 1 1,
      .replace 3]).device.queued_operations_ =
      [paintOperation 1 1 1 ⟨0, 0, 2, 2⟩, scrollOperation ⟨0, 0, 4, 4⟩ 1 1,
        replaceOperation 3] ∧
    ∀ op ∈ (patternWorld.run [.paint 1 1 1 none, .scroll none 1 1,
        .replace 3]).device.queued_operations_,
      op.wellFormed
        (patternWorld.run [.paint 1 1 1 none, .scroll none 1 1,
          .replace 3]).device.image_data_.width
        (patternWorld.run [.paint 1 1 1 none, .scroll none 1 1,
          .replace 3]).device.image_data_.height
        (patternWorld.run [.paint 1 1 1 none, .scroll none 1 1,
          .replace 3]).device.image_data_.format
        (shapesOf (patternWorld.run [.paint 1 1 1 none, .scroll none 1 1,
          .replace 3]).images) :=
  ⟨by decide,
   C36_queue_well_formed (sampleImage 4 4) patternWorld.images patternWorld.clip
    [.paint 1 1 1 none, .scroll none 1 1, .replace 3] sampleBacking_good
    patternWorld_goodImages
    (by
      intro op hop
      simp only [List.mem_cons, List.mem_singleton, List.not_mem_nil, or_false] at hop
      rcases hop with rfl | rfl | rfl
      · exact ⟨by decide, by decide, trivial⟩
      · exact ⟨by decide, by decide, trivial⟩
      · trivial)⟩

/-! ## The changed rectangle of a flush -/

/-- The edges of a rectangle inside 32-bit bounds are exact. -/
theorem within_edges (r : Rect) (W H : Int) (hr : r.within W H)
    (hW : isInt32 W) (hH : isInt32 H) :
    r.right = r.x + r.width ∧ r.bottom = r.y + r.height := by
  unfold Rect.within at hr
  unfold isInt32 at hW hH
  unfold Rect.right Rect.bottom add32 wrap32
  omega

/-- The union of two rectangles inside the bounds lies inside the bounds. -/
theorem union_within (r o : Rect) (W H : Int) (hr : r.within W H) (ho : o.within W H)
    (hW : isInt32 W) (hH : isInt32 H) : (r.Union o).within W H := by
  obtain ⟨e1, e2⟩ := within_edges r W H hr hW hH
  obtain ⟨e3, e4⟩ := within_edges o W H ho hW hH
  unfold Rect.Union
  split_ifs
  · exact ho
  · exact hr
  · simp only [e1, e2, e3, e4]
    unfold Rect.within at hr ho ⊢
    unfold isInt32 at hW hH
    unfold sub32 wrap32
    simp only
    omega

/-- The union of a rectangle inside the bounds with the whole buffer is the
whole buffer. -/
theorem union_whole_right (r : Rect) (W H : Int) (hr : r.within W H)
    (hWp : 0 < W) (hHp : 0 < H) (hW : isInt32 W) (hH : isInt32 H) :
    r.Union ⟨0, 0, W, H⟩ = ⟨0, 0, W, H⟩ := by
  obtain ⟨e1, e2⟩ := within_edges r W H hr hW hH
  have e3 : (Rect.mk 0 0 W H).right = W := by
    unfold isInt32 at hW; unfold Rect.right add32 wrap32; simp only; omega
  have e4 : (Rect.mk 0 0 W H).bottom = H := by
    unfold isInt32 at hH; unfold Rect.bottom add32 wrap32; simp only; omega
  unfold Rect.Union
  by_cases h1 : r.IsEmpty = true
  · rw [if_pos h1]
  · rw [if_neg h1]
    have h2 : ¬ (Rect.mk 0 0 W H).IsEmpty = true := by
      simp [Rect.IsEmpty]; omega
    rw [if_neg h2]
    simp only [e1, e2, e3, e4]
    unfold Rect.within at hr
    unfold isInt32 at hW hH
    have m1 : min r.x 0 = 0 := by omega
    have m2 : min r.y 0 = 0 := by omega
    have m3 : max (r.x + r.width) W = W := by omega
    have m4 : max (r.y + r.height) H = H := by omega
    rw [m1, m2, m3, m4]
    have s1 : sub32 W 0 = W := by unfold sub32 wrap32; omega
    have s2 : sub32 H 0 = H := by unfold sub32 wrap32; omega
    rw [s1, s2]

/-- The union of the whole buffer with a rectangle inside the bounds is the
whole buffer. -/
theorem union_whole_left (o : Rect) (W H : Int) (ho : o.within W H)
    (hWp : 0 < W) (hHp : 0 < H) (hW : isInt32 W) (hH : isInt32 H) :
    (Rect.mk 0 0 W H).Union o = ⟨0, 0, W, H⟩ := by
  obtain ⟨e1, e2⟩ := within_edges o W H ho hW hH
  have e3 : (Rect.mk 0 0 W H).right = W := by
    unfold isInt32 at hW; unfold Rect.right add32 wrap32; simp only; omega
  have e4 : (Rect.mk 0 0 W H).bottom = H := by
    unfold isInt32 at hH; unfold Rect.bottom add32 wrap32; simp only; omega
  unfold Rect.Union
  have h2 : ¬ (Rect.mk 0 0 W H).IsEmpty = true := by
    simp [Rect.IsEmpty]; omega
  rw [if_neg h2]
  by_cases h1 : o.IsEmpty = true
  · rw [if_pos h1]
  · rw [if_neg h1]
    simp only [e1, e2, e3, e4]
    unfold Rect.within at ho
    unfold isInt32 at hW hH
    have m1 : min 0 o.x = 0 := by omega
    have m2 : min 0 o.y = 0 := by omega
    have m3 : max W (o.x + o.width) = W := by omega
    have m4 : max H (o.y + o.height) = H := by omega
    rw [m1, m2, m3, m4]
    have s1 : sub32 W 0 = W := by unfold sub32 wrap32; omega
    have s2 : sub32 H 0 = H := by unfold sub32 wrap32; omega
    rw [s1, s2]

/-- The empty rectangle lies inside any bounds that are not negative. -/
theorem empty_within (W H : Int) (hW : 0 < W) (hH : 0 < H) : Rect.empty.within W H := by
  unfold Rect.within Rect.empty
  simp only
  omega

/-- One step of the loop of Flush on a well-formed operation unites the
changed rectangle with a rectangle inside the bounds, which is the whole
buffer for a Replace. -/
theorem execute_changed (p : FlushProgress) (op : QueuedOperation) (W H : Int)
    (hb : p.backing.shape = (PP_IMAGEDATAFORMAT_BGRA_PREMUL, W, H))
    (hgs : ∀ handle sh, shapesOf p.images handle = some sh →
      isInt32 sh.2.1 ∧ isInt32 sh.2.2)
    (hwf : op.wellFormed W H PP_IMAGEDATAFORMAT_BGRA_PREMUL (shapesOf p.images))
    (hWp : 0 < W) (hHp : 0 < H) (hW : isInt32 W) (hH : isInt32 H) :
    ∃ r, (ExecuteOperation p op).changed_rect = p.changed_rect.Union r ∧
      r.within W H ∧ (op.type = .REPLACE → r = ⟨0, 0, W, H⟩) := by
  simp only [ImageData.shape, Prod.mk.injEq] at hb
  obtain ⟨_, hbw, hbh⟩ := hb
  unfold QueuedOperation.wellFormed at hwf
  unfold ExecuteOperation
  cases ht : op.type with
  | PAINT =>
    rw [ht] at hwf
    obtain ⟨handle, sh, hh, hs, f1, f2, f3, f4, f5, f6, f7, f8, f9, f10⟩ := hwf
    obtain ⟨g1, g2⟩ := hgs handle sh hs
    obtain ⟨img, himg, hshape⟩ := shapesOf_some _ _ _ hs
    simp only [hh, Option.bind, himg]
    cases hm : img.mappable with
    | false =>
      refine ⟨Rect.empty, ?_, empty_within W H hWp hHp, fun h => by cases h⟩
      simp [ExecutePaintImageData, hm]
    | true =>
      have hfits : paintFits p.backing.width p.backing.height op.paint_x op.paint_y
          op.paint_src_rect := by
        rw [hbw, hbh]
        unfold paintFits
        unfold isInt32 at g1 g2 hW hH ⊢
        omega
      obtain ⟨hr, _, _⟩ := paint_rect p.backing img op.paint_x op.paint_y op.paint_src_rect
        Rect.empty hm hfits
      refine ⟨_, rfl, ?_, fun h => by cases h⟩
      rw [hr]
      unfold Rect.within
      simp only
      omega
  | SCROLL =>
    exact ⟨Rect.empty, rfl, empty_within W H hWp hHp, fun h => by cases h⟩
  | REPLACE =>
    rw [ht] at hwf
    obtain ⟨handle, hh, hs⟩ := hwf
    obtain ⟨img, himg, hshape⟩ := shapesOf_some _ _ _ hs
    simp only [ImageData.shape, Prod.mk.injEq] at hshape
    obtain ⟨_, hiw, hih⟩ := hshape
    simp only [hh, himg, ExecuteReplaceContents, ImageData.Swap, hiw, hih]
    refine ⟨⟨0, 0, W, H⟩, rfl, ?_, fun _ => rfl⟩
    unfold Rect.within
    simp only
    omega

/-- Over a well-formed queue the loop of Flush keeps the changed rectangle
inside the bounds, and makes it the whole buffer if it was the whole buffer
or the queue holds a Replace. -/
theorem flushLoop_changed (q : List QueuedOperation) (W H : Int)
    (hWp : 0 < W) (hHp : 0 < H) (hW : isInt32 W) (hH : isInt32 H) :
    ∀ p : FlushProgress,
      p.backing.shape = (PP_IMAGEDATAFORMAT_BGRA_PREMUL, W, H) →
      (∀ handle sh, shapesOf p.images handle = some sh →
        isInt32 sh.2.1 ∧ isInt32 sh.2.2) →
      (∀ op ∈ q, op.wellFormed W H PP_IMAGEDATAFORMAT_BGRA_PREMUL (shapesOf p.images)) →
      p.changed_rect.within W H →
      (FlushLoop q p).changed_rect.within W H ∧
      (((∃ op ∈ q, op.type = .REPLACE) ∨ p.changed_rect = ⟨0, 0, W, H⟩) →
        (FlushLoop q p).changed_rect = ⟨0, 0, W, H⟩) := by
  induction q with
  | nil =>
    intro p _ _ _ hc
    refine ⟨hc, ?_⟩
    rintro (⟨o, ho, _⟩ | h)
    · cases ho
    · exact h
  | cons op rest ih =>
    intro p hb hgs hq hc
    have hwf := hq op (List.mem_cons_self _ _)
    obtain ⟨h1, h2⟩ := execute_shape p op W H hb hwf
    obtain ⟨r, hr, hrw, hrr⟩ := execute_changed p op W H hb hgs hwf hWp hHp hW hH
    have hc2 : (ExecuteOperation p op).changed_rect.within W H := by
      rw [hr]; exact union_within _ _ W H hc hrw hW hH
    obtain ⟨k1, k2⟩ := ih (ExecuteOperation p op) (by rw [h1, hb])
      (by rw [h2]; exact hgs)
      (by intro o ho; rw [h2]; exact hq o (List.mem_cons_of_mem _ ho)) hc2
    simp only [FlushLoop]
    refine ⟨k1, ?_⟩
    rintro (⟨o, ho, hot⟩ | h)
    · rcases List.mem_cons.mp ho with rfl | ho2
      · apply k2
        right
        rw [hr, hrr hot]
        exact union_whole_right _ W H hc hWp hHp hW hH
      · exact k2 (Or.inl ⟨o, ho2, hot⟩)
    · apply k2
      right
      rw [hr, h]
      exact union_whole_left _ W H hrw hWp hHp hW hH

/-- A non-empty intersection with a rectangle inside the bounds lies inside
the bounds, and inside the other rectangle when that has 32-bit edges. -/
theorem intersect_inside (c o : Rect) (W H : Int) (ho : o.within W H)
    (hW : isInt32 W) (hH : isInt32 H)
    (hne : (c.Intersect o).IsEmpty = false) :
    (c.Intersect o).inside ⟨0, 0, W, H⟩ ∧
    (c.edgesInt32 → (c.Intersect o).inside c) := by
  obtain ⟨e1, e2⟩ := within_edges o W H ho hW hH
  unfold Rect.Intersect at hne ⊢
  simp only [e1, e2] at hne ⊢
  by_cases hcond : max c.x o.x ≥ min c.right (o.x + o.width) ∨
      max c.y o.y ≥ min c.bottom (o.y + o.height)
  · rw [if_pos hcond] at hne
    simp [Rect.IsEmpty] at hne
  · rw [if_neg hcond]
    unfold Rect.within at ho
    unfold isInt32 at hW hH
    have s1 : sub32 (min c.right (o.x + o.width)) (max c.x o.x) =
        min c.right (o.x + o.width) - max c.x o.x := by
      unfold sub32 wrap32; omega
    have s2 : sub32 (min c.bottom (o.y + o.height)) (max c.y o.y) =
        min c.bottom (o.y + o.height) - max c.y o.y := by
      unfold sub32 wrap32; omega
    rw [s1, s2]
    refine ⟨?_, ?_⟩
    · unfold Rect.inside
      simp only
      omega
    · intro hc
      obtain ⟨c1, c2, c3, c4⟩ := hc
      unfold isInt32 at c1 c2 c3 c4
      have r1 : c.right = c.x + c.width := by unfold Rect.right add32 wrap32; omega
      have r2 : c.bottom = c.y + c.height := by unfold Rect.bottom add32 wrap32; omega
      rw [r1, r2]
      unfold Rect.inside
      simp only
      omega

/-- C37: for a device created over a BGRA backing store of positive 32-bit
size, next to images of positive 32-bit size, and driven by operations with
32-bit arguments: at every accepted Flush the accumulated changed rectangle
lies inside the buffer bounds (0, 0, W, H), and it is exactly the whole buffer
if the queue holds a Replace; the Flush sends no invalidate request or one
request to the bound host, for the intersection of its clip with the changed
rectangle, which lies inside the buffer bounds and, the clip having 32-bit
edges, inside the clip. -/
theorem C37_changed_rect_in_bounds (backing : ImageData)
    (images : PP_Resource → Option ImageData) (clip : PluginInstance → Rect)
    (ops : List Operation) (w : World) (callback : PP_CompletionCallback)
    (hbacking : goodBacking backing) (himages : goodImages images)
    (hops : ∀ op ∈ ops, op.wellTyped)
    (hw : w = (World.initial backing images clip).run ops)
    (hidle : HasPendingFlush w.device = false) (hcb : callback.func ≠ none) :
    w.changedRect.within w.device.image_data_.width w.device.image_data_.height ∧
    ((∃ op ∈ w.device.queued_operations_, op.type = .REPLACE) →
      w.changedRect = ⟨0, 0, w.device.image_data_.width, w.device.image_data_.height⟩) ∧
    ((Flush w callback).2.invalidated = w.invalidated ∨
      ∃ bound, w.device.bound_instance_ = some bound ∧
        (Flush w callback).2.invalidated =
          w.invalidated ++ [(bound, (w.clip bound).Intersect w.changedRect)] ∧
        ((w.clip bound).Intersect w.changedRect).inside
          ⟨0, 0, w.device.image_data_.width, w.device.image_data_.height⟩ ∧
        ((w.clip bound).edgesInt32 →
          ((w.clip bound).Intersect w.changedRect).inside (w.clip bound))) := by
  have hinit : (World.initial backing images clip).queueInvariant :=
    ⟨hbacking, himages, fun o ho => by simp [World.initial, DeviceContext2D.fresh] at ho⟩
  have hinv := queueInvariant_run ops _ hinit hops
  rw [← hw] at hinv
  obtain ⟨⟨hfmt, hWp, hHp, hW, hH⟩, hgi, hwf⟩ := hinv
  have hgs : ∀ handle sh, shapesOf w.images handle = some sh →
      isInt32 sh.2.1 ∧ isInt32 sh.2.2 := by
    intro handle sh hs
    obtain ⟨img, himg, hshape⟩ := shapesOf_some _ _ _ hs
    rw [← hshape]
    exact ⟨(hgi handle img himg).2.2.1, (hgi handle img himg).2.2.2⟩
  obtain ⟨hc1, hc2⟩ := flushLoop_changed w.device.queued_operations_
    w.device.image_data_.width w.device.image_data_.height hWp hHp hW hH
    ⟨w.device.image_data_, w.images, Rect.empty⟩ (by simp [ImageData.shape, hfmt]) hgs hwf
    (empty_within _ _ hWp hHp)
  have hcw : w.changedRect.within w.device.image_data_.width
      w.device.image_data_.height := hc1
  refine ⟨hcw, fun h => hc2 (Or.inl h), ?_⟩
  rw [flush_accepted w callback hidle hcb]
  cases hb : w.device.bound_instance_ with
  | none =>
    left
    simp [schedule_fields, World.afterFlushLoop]
  | some bound =>
    dsimp only
    by_cases hv : (!(w.visibleChangedRect bound).IsEmpty) = true
    · right
      rw [if_pos hv]
      have hv2 : (w.visibleChangedRect bound).IsEmpty = false := by simpa using hv
      have hvis : w.visibleChangedRect bound = (w.clip bound).Intersect w.changedRect := by
        unfold World.visibleChangedRect at hv2 ⊢
        by_cases hce : (!w.changedRect.IsEmpty) = true
        · rw [if_pos hce]
        · rw [if_neg hce] at hv2
          simp [Rect.IsEmpty, Rect.empty] at hv2
      rw [hvis] at hv2 ⊢
      obtain ⟨i1, i2⟩ := intersect_inside (w.clip bound) w.changedRect _ _ hcw hW hH hv2
      exact ⟨bound, rfl, by simp [World.InvalidateRect, World.afterFlushLoop], i1, i2⟩
    · left
      rw [if_neg hv]
      simp [schedule_fields, World.afterFlushLoop]

/-- Witness for C37: the 4 x 4 pattern device bound to host 1, which shows
(0, 0, 4, 4), flushing a Paint at (1, 1) followed by a Replace. -/
theorem C37_changed_rect_in_bounds_witness :
    (patternWorld.run [.bind (some 1), .paint 1 1 1 none, .replace 3]).changedRect =
      ⟨0, 0, 4, 4⟩ ∧
    (patternWorld.run [.bind (some 1), .paint 1 1 1 none, .replace 3]).changedRect.within
      (patternWorld.run [.bind (some 1), .paint 1 1 1 none,
        .replace 3]).device.image_data_.width
      (patternWorld.run [.bind (some 1), .paint 1 1 1 none,
        .replace 3]).device.image_data_.height :=
  ⟨by decide,
   (C37_changed_rect_in_bounds (sampleImage 4 4) patternWorld.images patternWorld.clip
    [.bind (some 1), .paint 1 1 1 none, .replace 3] _ ⟨some 7, 0⟩ sampleBacking_good
    patternWorld_goodImages
    (by
      intro op hop
      simp only [List.mem_cons, List.mem_singleton, List.not_mem_nil, or_false] at hop
      rcases hop with rfl | rfl | rfl
      · trivial
      · exact ⟨by decide, by decide, trivial⟩
      · trivial)
    rfl (by decide) (by decide)).1⟩

end pepper
